import Mathlib

/-!
# knative-gcp: GCS deep copy, fake Storage client and Storage fixture builders

A shallow embedding of

* `pkg/apis/events/v1alpha1/gcs_types.go` and `zz_generated.deepcopy.go`
  (the `GCS` resource and its generated deep-copy functions),
* `pkg/client/clientset/versioned/typed/events/v1alpha1/fake/fake_storage.go`
  (the generated fake client for `Storage`),
* `pkg/reconciler/testing/storage.go` (functional options building a `Storage`).

Go pointers, slices and maps are references into a heap of typed cells, so
that sharing between a resource and its copy is visible in the model.
-/

namespace KnativeGcp

/-! ## Memory model -/

/-- Address of a heap cell. `Option Ptr` is a Go pointer, `none` being `nil`. -/
abbrev Ptr := Nat

/-- A Go slice header: address of the backing array, offset of the first
element in it and length. `Option Slice` is a slice value, `none` being the
`nil` slice. Capacity is left out: no modelled operation appends in place. -/
structure Slice where
  arr : Ptr
  off : Nat
  len : Nat
deriving DecidableEq, Repr

/-- Type `corev1.SecretKeySelector`: `LocalObjectReference.Name`, `Key` and the
optional `*bool`. -/
structure SecretKeySelector where
  Name : String
  Key : String
  Optional : Option Ptr
deriving DecidableEq, Repr

/-- Type `corev1.ObjectReference`: seven string fields, no references. -/
structure ObjectReference where
  Kind : String
  Namespace : String
  Name : String
  UID : String
  APIVersion : String
  ResourceVersion : String
  FieldPath : String
deriving DecidableEq, Repr

/-- Type `metav1.TypeMeta`. -/
structure TypeMeta where
  Kind : String
  APIVersion : String
deriving DecidableEq, Repr

/-- Type `metav1.ListMeta` (strings only; the generated code assigns it). -/
structure ListMeta where
  SelfLink : String
  ResourceVersion : String
  Continue : String
deriving DecidableEq, Repr

/-- Type `metav1.ObjectMeta` with its scalar fields and its reference fields
`DeletionTimestamp`, `DeletionGracePeriodSeconds`, `Labels`, `Annotations`
and `Finalizers`. `OwnerReferences` and `ManagedFields` are left out. -/
structure ObjectMeta where
  Name : String
  GenerateName : String
  Namespace : String
  SelfLink : String
  UID : String
  ResourceVersion : String
  Generation : Int
  CreationTimestamp : Int
  DeletionTimestamp : Option Ptr
  DeletionGracePeriodSeconds : Option Ptr
  Labels : Option Ptr
  Annotations : Option Ptr
  Finalizers : Option Slice
  ClusterName : String
deriving DecidableEq, Repr

/-- Type `apis.Condition` of knative.dev/pkg: all fields are values. -/
structure Condition where
  Type_ : String
  Status : String
  Severity : String
  LastTransitionTime : Int
  Reason : String
  Message : String
deriving DecidableEq, Repr

/-- Type `duckv1beta1.Status`: observed generation and the condition slice. -/
structure Status where
  ObservedGeneration : Int
  Conditions : Option Slice
deriving DecidableEq, Repr

/-- Type `GCSSpec` of gcs_types.go. -/
structure GCSSpec where
  GCSCredsSecret : SecretKeySelector
  GcpCredsSecret : Option Ptr
  ServiceAccountName : String
  GoogleCloudProject : String
  Bucket : String
  EventTypes : Option Slice
  ObjectNamePrefix : String
  CustomAttributes : Option Ptr
  PayloadFormat : String
  Sink : ObjectReference
deriving DecidableEq, Repr

/-- Type `GCSStatus` of gcs_types.go. -/
structure GCSStatus where
  Status : Status
  NotificationID : String
  Topic : String
  SinkURI : String
deriving DecidableEq, Repr

/-- Type `GCS` of gcs_types.go. -/
structure GCS where
  TypeMeta : TypeMeta
  ObjectMeta : ObjectMeta
  Spec : GCSSpec
  Status : GCSStatus
deriving DecidableEq, Repr

/-- Type `GCSList` of gcs_types.go. -/
structure GCSList where
  TypeMeta : TypeMeta
  ListMeta : ListMeta
  Items : Option Slice
deriving DecidableEq, Repr

/-- One heap object: the backing array of a `[]string`, a `map[string]string`
(its entries in iteration order, keys distinct), the target of a `*bool`,
`*int64`, `*metav1.Time` or `*SecretKeySelector`, or the backing array of a
`[]Condition` or `[]GCS`. -/
inductive Cell where
  | strs (xs : List String)
  | smap (kv : List (String × String))
  | flag (b : Bool)
  | int64 (n : Int)
  | time (t : Int)
  | secret (s : SecretKeySelector)
  | conds (cs : List Condition)
  | gcss (xs : List GCS)
deriving DecidableEq, Repr

/-- The heap: cell `p` lives at index `p`; allocation appends. -/
abbrev Heap := List Cell

def Cell.asStrs : Cell → Option (List String)
  | .strs xs => some xs
  | _ => none

def Cell.asMap : Cell → Option (List (String × String))
  | .smap kv => some kv
  | _ => none

def Cell.asFlag : Cell → Option Bool
  | .flag b => some b
  | _ => none

def Cell.asInt64 : Cell → Option Int
  | .int64 n => some n
  | _ => none

def Cell.asTime : Cell → Option Int
  | .time t => some t
  | _ => none

def Cell.asSecret : Cell → Option SecretKeySelector
  | .secret s => some s
  | _ => none

def Cell.asConds : Cell → Option (List Condition)
  | .conds cs => some cs
  | _ => none

def Cell.asGcss : Cell → Option (List GCS)
  | .gcss xs => some xs
  | _ => none

/-- Typed dereference `*p`; `none` is a fault (dangling or ill-typed). -/
def load {α : Type} (proj : Cell → Option α) (h : Heap) (p : Ptr) : Option α :=
  h[p]? >>= proj

/-- Allocation of a fresh cell (`new`, `make`): the new address is the old
heap size. -/
def alloc (h : Heap) (c : Cell) : Heap × Ptr :=
  (h ++ [c], h.length)

/-- Assignment `*p = c`; `none` is a fault. -/
def store (h : Heap) (p : Ptr) (c : Cell) : Option Heap :=
  if p < h.length then some (h.set p c) else none

/-- The elements a slice header denotes in its backing array. -/
def window {α : Type} (s : Slice) (a : List α) : Option (List α) :=
  if s.off + s.len ≤ a.length then some ((a.drop s.off).take s.len) else none

/-- Read of a whole slice; `none` is a fault. -/
def loadSlice {α : Type} (proj : Cell → Option (List α)) (h : Heap) (s : Slice) :
    Option (List α) :=
  load proj h s.arr >>= window s

/-- Go builtin `copy(dst, src)`: the first `min (len dst) (len src)` elements
of `dst` are overwritten. -/
def goCopy {α : Type} (dst src : List α) : List α :=
  src.take (min dst.length src.length) ++ dst.drop (min dst.length src.length)

/-- Map assignment `m[k] = v`. -/
def mapInsert : List (String × String) → String → String → List (String × String)
  | [], k, v => [(k, v)]
  | (k1, v1) :: rest, k, v =>
    if k1 = k then (k, v) :: rest else (k1, v1) :: mapInsert rest k v

/-- Map lookup `m[k]`. -/
def mapLookup : List (String × String) → String → Option String
  | [], _ => none
  | (k1, v1) :: rest, k => if k1 = k then some v1 else mapLookup rest k

/-- Go builtin `delete(m, k)`. -/
def mapDelete (m : List (String × String)) (k : String) : List (String × String) :=
  m.filter (fun kv => kv.1 ≠ k)

/-! ## Generated deep copy (zz_generated.deepcopy.go) -/

/-- A guarded copy `if in.F != nil { ... }`: a nil reference stays nil. -/
def copyOpt {P : Type} (f : Heap → P → Option (Heap × P)) (h : Heap) :
    Option P → Option (Heap × Option P)
  | none => some (h, none)
  | some p => (f h p).map (fun r => (r.1, some r.2))

/-- Copy of a pointer to a scalar: `*out = new(T); **out = **in`. -/
def copyBox {α : Type} (proj : Cell → Option α) (inj : α → Cell) (zero : α)
    (h : Heap) (p : Ptr) : Option (Heap × Ptr) := do
  let (h1, q) := alloc h (inj zero)
  let v ← load proj h1 p
  let h2 ← store h1 q (inj v)
  some (h2, q)

/-- Copy of a slice of values: `*out = make([]T, len(*in)); copy(*out, *in)`
(for `[]Condition` the generated loop assigns element by element, each
`Condition.DeepCopyInto` being a plain assignment). -/
def copySlice {α : Type} (proj : Cell → Option (List α)) (inj : List α → Cell) (zero : α)
    (h : Heap) (s : Slice) : Option (Heap × Slice) := do
  let (h1, q) := alloc h (inj (List.replicate s.len zero))
  let src ← loadSlice proj h1 s
  let h2 ← store h1 q (inj (goCopy (List.replicate s.len zero) src))
  some (h2, { arr := q, off := 0, len := s.len })

/-- Copy of a map: `*out = make(map[string]string, len(*in))` followed by
`for key, val := range *in { (*out)[key] = val }`. -/
def copyMap (h : Heap) (p : Ptr) : Option (Heap × Ptr) := do
  let (h1, q) := alloc h (Cell.smap [])
  let src ← load Cell.asMap h1 p
  let h2 ← store h1 q (Cell.smap (src.foldl (fun m kv => mapInsert m kv.1 kv.2) []))
  some (h2, q)

/-- Generated `SecretKeySelector.DeepCopyInto` of k8s.io/api/core/v1:
`*out = *in`, then a fresh `bool` when `Optional` is set. -/
def SecretKeySelector.DeepCopyInto (h : Heap) (inp : SecretKeySelector) :
    Option (Heap × SecretKeySelector) := do
  let out := inp
  let (h, o) ← copyOpt (copyBox Cell.asFlag Cell.flag false) h inp.Optional
  some (h, { out with Optional := o })

/-- Body of `if in.GcpCredsSecret != nil`:
`*out = new(v1.SecretKeySelector); (*in).DeepCopyInto(*out)`. -/
def copySecretPtr (h : Heap) (p : Ptr) : Option (Heap × Ptr) := do
  let (h1, q) := alloc h (Cell.secret { Name := "", Key := "", Optional := none })
  let src ← load Cell.asSecret h1 p
  let (h2, v) ← SecretKeySelector.DeepCopyInto h1 src
  let h3 ← store h2 q (Cell.secret v)
  some (h3, q)

/-- Generated `ObjectMeta.DeepCopyInto` of k8s.io/apimachinery, on the modelled
fields: `*out = *in`, then each reference field is duplicated. -/
def ObjectMeta.DeepCopyInto (h : Heap) (inp : ObjectMeta) : Option (Heap × ObjectMeta) := do
  let out := inp
  let (h, dt) ← copyOpt (copyBox Cell.asTime Cell.time 0) h inp.DeletionTimestamp
  let out := { out with DeletionTimestamp := dt }
  let (h, dg) ← copyOpt (copyBox Cell.asInt64 Cell.int64 0) h inp.DeletionGracePeriodSeconds
  let out := { out with DeletionGracePeriodSeconds := dg }
  let (h, lb) ← copyOpt copyMap h inp.Labels
  let out := { out with Labels := lb }
  let (h, an) ← copyOpt copyMap h inp.Annotations
  let out := { out with Annotations := an }
  let (h, fz) ← copyOpt (copySlice Cell.asStrs Cell.strs "") h inp.Finalizers
  let out := { out with Finalizers := fz }
  some (h, out)

/-- The zero `Condition`. -/
def Condition.zero : Condition :=
  { Type_ := "", Status := "", Severity := "", LastTransitionTime := 0, Reason := "",
    Message := "" }

/-- Generated `Status.DeepCopyInto` of knative.dev/pkg duck/v1beta1:
`*out = *in`, then a fresh condition slice. -/
def Status.DeepCopyInto (h : Heap) (inp : Status) : Option (Heap × Status) := do
  let out := inp
  let (h, cs) ← copyOpt (copySlice Cell.asConds Cell.conds Condition.zero) h inp.Conditions
  some (h, { out with Conditions := cs })

/-- Function `GCSSpec.DeepCopyInto` (zz_generated.deepcopy.go:90). -/
def GCSSpec.DeepCopyInto (h : Heap) (inp : GCSSpec) : Option (Heap × GCSSpec) := do
  let out := inp
  let (h, s) ← SecretKeySelector.DeepCopyInto h inp.GCSCredsSecret
  let out := { out with GCSCredsSecret := s }
  let (h, g) ← copyOpt copySecretPtr h inp.GcpCredsSecret
  let out := { out with GcpCredsSecret := g }
  let (h, e) ← copyOpt (copySlice Cell.asStrs Cell.strs "") h inp.EventTypes
  let out := { out with EventTypes := e }
  let (h, m) ← copyOpt copyMap h inp.CustomAttributes
  let out := { out with CustomAttributes := m }
  let out := { out with Sink := inp.Sink }
  some (h, out)

/-- Function `GCSSpec.DeepCopy` (zz_generated.deepcopy.go:115). A `*GCSSpec`
is the struct it points to, or `none` for nil; `new(GCSSpec)` is a struct of
its own, so the result is returned by value. -/
def GCSSpec.DeepCopy (h : Heap) : Option GCSSpec → Option (Heap × Option GCSSpec)
  | none => some (h, none)
  | some inp => (GCSSpec.DeepCopyInto h inp).map (fun r => (r.1, some r.2))

/-- Function `GCSStatus.DeepCopyInto` (zz_generated.deepcopy.go:125). -/
def GCSStatus.DeepCopyInto (h : Heap) (inp : GCSStatus) : Option (Heap × GCSStatus) := do
  let out := inp
  let (h, s) ← Status.DeepCopyInto h inp.Status
  some (h, { out with Status := s })

/-- Function `GCSStatus.DeepCopy` (zz_generated.deepcopy.go:132). -/
def GCSStatus.DeepCopy (h : Heap) : Option GCSStatus → Option (Heap × Option GCSStatus)
  | none => some (h, none)
  | some inp => (GCSStatus.DeepCopyInto h inp).map (fun r => (r.1, some r.2))

/-- Function `GCS.DeepCopyInto` (zz_generated.deepcopy.go:29). -/
def GCS.DeepCopyInto (h : Heap) (inp : GCS) : Option (Heap × GCS) := do
  let out := inp
  let out := { out with TypeMeta := inp.TypeMeta }
  let (h, m) ← ObjectMeta.DeepCopyInto h inp.ObjectMeta
  let out := { out with ObjectMeta := m }
  let (h, s) ← GCSSpec.DeepCopyInto h inp.Spec
  let out := { out with Spec := s }
  let (h, st) ← GCSStatus.DeepCopyInto h inp.Status
  let out := { out with Status := st }
  some (h, out)

/-- Function `GCS.DeepCopy` (zz_generated.deepcopy.go:39). -/
def GCS.DeepCopy (h : Heap) : Option GCS → Option (Heap × Option GCS)
  | none => some (h, none)
  | some inp => (GCS.DeepCopyInto h inp).map (fun r => (r.1, some r.2))

/-- Function `GCS.DeepCopyObject` (zz_generated.deepcopy.go:49): the copy as a
`runtime.Object`, nil when `DeepCopy` is nil. -/
def GCS.DeepCopyObject (h : Heap) (inp : Option GCS) : Option (Heap × Option GCS) :=
  (GCS.DeepCopy h inp).map (fun r =>
    match r.2 with
    | some c => (r.1, some c)
    | none => (r.1, none))

/-- Element read `s[i]`; `none` is a fault (index out of range). -/
def loadElem {α : Type} (proj : Cell → Option (List α)) (h : Heap) (s : Slice) (i : Nat) :
    Option α := do
  let a ← load proj h s.arr
  if i < s.len ∧ s.off + s.len ≤ a.length then a[s.off + i]? else none

/-- Element write `s[i] = x`; `none` is a fault (index out of range). -/
def storeElem {α : Type} (proj : Cell → Option (List α)) (inj : List α → Cell) (h : Heap)
    (s : Slice) (i : Nat) (x : α) : Option Heap := do
  let a ← load proj h s.arr
  if i < s.len ∧ s.off + s.len ≤ a.length then store h s.arr (inj (a.set (s.off + i) x))
  else none

/-- The zero `GCS`, as `make([]GCS, n)` fills its array. -/
def GCS.zero : GCS :=
  { TypeMeta := { Kind := "", APIVersion := "" }
    ObjectMeta :=
      { Name := "", GenerateName := "", Namespace := "", SelfLink := "", UID := "",
        ResourceVersion := "", Generation := 0, CreationTimestamp := 0,
        DeletionTimestamp := none, DeletionGracePeriodSeconds := none, Labels := none,
        Annotations := none, Finalizers := none, ClusterName := "" }
    Spec :=
      { GCSCredsSecret := { Name := "", Key := "", Optional := none }
        GcpCredsSecret := none, ServiceAccountName := "", GoogleCloudProject := "",
        Bucket := "", EventTypes := none, ObjectNamePrefix := "", CustomAttributes := none,
        PayloadFormat := ""
        Sink :=
          { Kind := "", Namespace := "", Name := "", UID := "", APIVersion := "",
            ResourceVersion := "", FieldPath := "" } }
    Status :=
      { Status := { ObservedGeneration := 0, Conditions := none }
        NotificationID := "", Topic := "", SinkURI := "" } }

/-- The loop `for i := range *in { (*in)[i].DeepCopyInto(&(*out)[i]) }` of
`GCSList.DeepCopyInto`, with `k` iterations left from index `i`. -/
def GCSList.copyItems (inS outS : Slice) : Nat → Nat → Heap → Option Heap
  | 0, _, h => some h
  | k + 1, i, h => do
    let x ← loadElem Cell.asGcss h inS i
    let (h1, y) ← GCS.DeepCopyInto h x
    let h2 ← storeElem Cell.asGcss Cell.gcss h1 outS i y
    GCSList.copyItems inS outS k (i + 1) h2

/-- Function `GCSList.DeepCopyInto` (zz_generated.deepcopy.go:57). -/
def GCSList.DeepCopyInto (h : Heap) (inp : GCSList) : Option (Heap × GCSList) :=
  let out := inp
  let out := { out with TypeMeta := inp.TypeMeta }
  let out := { out with ListMeta := inp.ListMeta }
  match inp.Items with
  | none => some (h, out)
  | some s =>
    let (h1, q) := alloc h (Cell.gcss (List.replicate s.len GCS.zero))
    let outS : Slice := { arr := q, off := 0, len := s.len }
    (GCSList.copyItems s outS s.len 0 h1).map (fun h2 => (h2, { out with Items := some outS }))

/-- Function `GCSList.DeepCopy` (zz_generated.deepcopy.go:72). -/
def GCSList.DeepCopy (h : Heap) : Option GCSList → Option (Heap × Option GCSList)
  | none => some (h, none)
  | some inp => (GCSList.DeepCopyInto h inp).map (fun r => (r.1, some r.2))

/-- Function `GCSList.DeepCopyObject` (zz_generated.deepcopy.go:82). -/
def GCSList.DeepCopyObject (h : Heap) (inp : Option GCSList) :
    Option (Heap × Option GCSList) :=
  (GCSList.DeepCopy h inp).map (fun r =>
    match r.2 with
    | some c => (r.1, some c)
    | none => (r.1, none))

/-! ## Values: what a resource denotes in a heap -/

/-- Value of a `SecretKeySelector`. -/
structure SecretVal where
  Name : String
  Key : String
  Optional : Option Bool
deriving DecidableEq, Repr

/-- Value of an `ObjectMeta`: references replaced by what they refer to. -/
structure ObjectMetaVal where
  Name : String
  GenerateName : String
  Namespace : String
  SelfLink : String
  UID : String
  ResourceVersion : String
  Generation : Int
  CreationTimestamp : Int
  DeletionTimestamp : Option Int
  DeletionGracePeriodSeconds : Option Int
  Labels : Option (List (String × String))
  Annotations : Option (List (String × String))
  Finalizers : Option (List String)
  ClusterName : String
deriving DecidableEq, Repr

/-- Value of a `duckv1beta1.Status`. -/
structure StatusVal where
  ObservedGeneration : Int
  Conditions : Option (List Condition)
deriving DecidableEq, Repr

/-- Value of a `GCSSpec`. -/
structure GCSSpecVal where
  GCSCredsSecret : SecretVal
  GcpCredsSecret : Option SecretVal
  ServiceAccountName : String
  GoogleCloudProject : String
  Bucket : String
  EventTypes : Option (List String)
  ObjectNamePrefix : String
  CustomAttributes : Option (List (String × String))
  PayloadFormat : String
  Sink : ObjectReference
deriving DecidableEq, Repr

/-- Value of a `GCSStatus`. -/
structure GCSStatusVal where
  Status : StatusVal
  NotificationID : String
  Topic : String
  SinkURI : String
deriving DecidableEq, Repr

/-- Value of a `GCS`. -/
structure GCSVal where
  TypeMeta : TypeMeta
  ObjectMeta : ObjectMetaVal
  Spec : GCSSpecVal
  Status : GCSStatusVal
deriving DecidableEq, Repr

/-- Value of a `GCSList`. -/
structure GCSListVal where
  TypeMeta : TypeMeta
  ListMeta : ListMeta
  Items : Option (List GCSVal)
deriving DecidableEq, Repr

/-- Cells of `h` at the addresses in `[lo, hi)` are the same in `h2`. -/
def Agree (lo hi : Nat) (h h2 : Heap) : Prop :=
  ∀ p, lo ≤ p → p < hi → h2[p]? = h[p]?

/-- Dereference that only follows addresses in `[lo, hi)`. -/
def loadIn {α : Type} (lo hi : Nat) (proj : Cell → Option α) (h : Heap) (p : Ptr) :
    Option α :=
  if lo ≤ p ∧ p < hi then load proj h p else none

/-- Value of an optional reference: nil denotes `none`. -/
def optVal {P V : Type} (f : P → Option V) : Option P → Option (Option V)
  | none => some none
  | some p => (f p).map some

/-- Value of a slice whose backing array lies in `[lo, hi)`. -/
def sliceIn {α : Type} (lo hi : Nat) (proj : Cell → Option (List α)) (h : Heap)
    (s : Slice) : Option (List α) :=
  loadIn lo hi proj h s.arr >>= window s

/-- Value of a map object in `[lo, hi)`: its entries, whose keys are distinct. -/
def mapIn (lo hi : Nat) (h : Heap) (p : Ptr) : Option (List (String × String)) :=
  loadIn lo hi Cell.asMap h p >>= fun m =>
    if (m.map Prod.fst).Nodup then some m else none

/-- Value of a `SecretKeySelector` all of whose storage lies in `[lo, hi)`. -/
def SecretKeySelector.valIn (lo hi : Nat) (h : Heap) (s : SecretKeySelector) :
    Option SecretVal :=
  (optVal (loadIn lo hi Cell.asFlag h) s.Optional).map fun o =>
    { Name := s.Name, Key := s.Key, Optional := o }

/-- Value behind a `*SecretKeySelector`. -/
def secretPtrIn (lo hi : Nat) (h : Heap) (p : Ptr) : Option SecretVal :=
  loadIn lo hi Cell.asSecret h p >>= SecretKeySelector.valIn lo hi h

/-- Value of an `ObjectMeta` all of whose storage lies in `[lo, hi)`. -/
def ObjectMeta.valIn (lo hi : Nat) (h : Heap) (m : ObjectMeta) : Option ObjectMetaVal := do
  let dt ← optVal (loadIn lo hi Cell.asTime h) m.DeletionTimestamp
  let dg ← optVal (loadIn lo hi Cell.asInt64 h) m.DeletionGracePeriodSeconds
  let lb ← optVal (mapIn lo hi h) m.Labels
  let an ← optVal (mapIn lo hi h) m.Annotations
  let fz ← optVal (sliceIn lo hi Cell.asStrs h) m.Finalizers
  some
    { Name := m.Name, GenerateName := m.GenerateName, Namespace := m.Namespace,
      SelfLink := m.SelfLink, UID := m.UID, ResourceVersion := m.ResourceVersion,
      Generation := m.Generation, CreationTimestamp := m.CreationTimestamp,
      DeletionTimestamp := dt, DeletionGracePeriodSeconds := dg, Labels := lb,
      Annotations := an, Finalizers := fz, ClusterName := m.ClusterName }

/-- Value of a `duckv1beta1.Status`. -/
def Status.valIn (lo hi : Nat) (h : Heap) (s : Status) : Option StatusVal :=
  (optVal (sliceIn lo hi Cell.asConds h) s.Conditions).map fun cs =>
    { ObservedGeneration := s.ObservedGeneration, Conditions := cs }

/-- Value of a `GCSSpec` all of whose storage lies in `[lo, hi)`. -/
def GCSSpec.valIn (lo hi : Nat) (h : Heap) (s : GCSSpec) : Option GCSSpecVal := do
  let c ← SecretKeySelector.valIn lo hi h s.GCSCredsSecret
  let g ← optVal (secretPtrIn lo hi h) s.GcpCredsSecret
  let e ← optVal (sliceIn lo hi Cell.asStrs h) s.EventTypes
  let a ← optVal (mapIn lo hi h) s.CustomAttributes
  some
    { GCSCredsSecret := c, GcpCredsSecret := g, ServiceAccountName := s.ServiceAccountName,
      GoogleCloudProject := s.GoogleCloudProject, Bucket := s.Bucket, EventTypes := e,
      ObjectNamePrefix := s.ObjectNamePrefix, CustomAttributes := a,
      PayloadFormat := s.PayloadFormat, Sink := s.Sink }

/-- Value of a `GCSStatus`. -/
def GCSStatus.valIn (lo hi : Nat) (h : Heap) (s : GCSStatus) : Option GCSStatusVal :=
  (Status.valIn lo hi h s.Status).map fun st =>
    { Status := st, NotificationID := s.NotificationID, Topic := s.Topic,
      SinkURI := s.SinkURI }

/-- Value of a `GCS` all of whose storage lies in `[lo, hi)`. -/
def GCS.valIn (lo hi : Nat) (h : Heap) (g : GCS) : Option GCSVal := do
  let m ← ObjectMeta.valIn lo hi h g.ObjectMeta
  let s ← GCSSpec.valIn lo hi h g.Spec
  let st ← GCSStatus.valIn lo hi h g.Status
  some { TypeMeta := g.TypeMeta, ObjectMeta := m, Spec := s, Status := st }

/-- All results of `f` on a list, if none fails. -/
def mapOpt {α β : Type} (f : α → Option β) : List α → Option (List β)
  | [] => some []
  | x :: xs => do
    let y ← f x
    let ys ← mapOpt f xs
    some (y :: ys)

/-- Values of the items of a `[]GCS` whose array, and what its items refer to,
lie in `[lo, hi)`. -/
def itemsIn (lo hi : Nat) (h : Heap) (s : Slice) : Option (List GCSVal) :=
  sliceIn lo hi Cell.asGcss h s >>= mapOpt (GCS.valIn lo hi h)

/-- Value of a `GCSList` all of whose storage lies in `[lo, hi)`. -/
def GCSList.valIn (lo hi : Nat) (h : Heap) (l : GCSList) : Option GCSListVal :=
  (optVal (itemsIn lo hi h) l.Items).map fun xs =>
    { TypeMeta := l.TypeMeta, ListMeta := l.ListMeta, Items := xs }

/-- Value of a well-formed `GCS` in heap `h`; `none` when a reference of the
resource is dangling or ill-typed, which a Go value never is. -/
def GCS.val (h : Heap) (g : GCS) : Option GCSVal :=
  GCS.valIn 0 h.length h g

/-- Value of a well-formed `GCSList` in heap `h`. -/
def GCSList.val (h : Heap) (l : GCSList) : Option GCSListVal :=
  GCSList.valIn 0 h.length h l

/-! ## Condition sets (gcs_types.go:93-110) -/

/-- Modelled from the spec: the generic condition-aggregation library the spec
names as the collaborator that supplies the Ready roll-up (package `apis` of
knative.dev/pkg), which is not among the sources. A condition set is a happy
condition type, the aggregate, and the types of its dependents, the
sub-conditions. -/
structure ConditionSet where
  happy : String
  dependents : List String
deriving DecidableEq, Repr

/-- Constant `apis.ConditionReady`. -/
def ConditionReady : String := "Ready"

/-- Constant `GCSConditionReady` (gcs_types.go:95). -/
def GCSConditionReady : String := ConditionReady

/-- Constant `PullSubscriptionReady` (gcs_types.go:98). -/
def PullSubscriptionReady : String := "PullSubscriptionReady"

/-- Constant `PubSubTopicReady` (gcs_types.go:101). -/
def PubSubTopicReady : String := "PubSubTopicReady"

/-- Constant `GCSReady` (gcs_types.go:104). -/
def GCSReady : String := "GCSReady"

/-- Constants `corev1.ConditionTrue`, `ConditionFalse`, `ConditionUnknown`. -/
def ConditionTrue : String := "True"

def ConditionFalse : String := "False"

def ConditionUnknown : String := "Unknown"

/-- Constants `apis.ConditionSeverityError` and `ConditionSeverityInfo`. -/
def ConditionSeverityError : String := ""

def ConditionSeverityInfo : String := "Info"

/-- Modelled from the spec: `apis.NewLivingConditionSet` of the missing
library: `Ready` is the happy condition, the arguments are its dependents,
a repeated type or `Ready` itself being skipped. -/
def NewLivingConditionSet (d : List String) : ConditionSet :=
  { happy := ConditionReady
    dependents :=
      d.foldl (fun deps t => if t = ConditionReady ∨ t ∈ deps then deps else deps ++ [t]) [] }

/-- Variable `gcsSourceCondSet` (gcs_types.go:107). -/
def gcsSourceCondSet : ConditionSet :=
  NewLivingConditionSet [PullSubscriptionReady, PubSubTopicReady, GCSReady]

/-- Modelled from the spec: `GetConditions` of the managed status. -/
def StatusVal.conds (st : StatusVal) : List Condition :=
  st.Conditions.getD []

/-- Modelled from the spec: `GetCondition`, the condition of the given type
(the first one, read in list order), nil if there is none. -/
def GetCondition (st : StatusVal) (t : String) : Option Condition :=
  st.conds.find? (fun c => c.Type_ == t)

/-- Modelled from the spec: `(*Condition).IsTrue`, false on nil. -/
def IsTrue : Option Condition → Bool
  | none => false
  | some c => c.Status == ConditionTrue

/-- Modelled from the spec: `(*Condition).IsFalse`, false on nil. -/
def IsFalse : Option Condition → Bool
  | none => false
  | some c => c.Status == ConditionFalse

/-- Modelled from the spec: `(*Condition).IsUnknown`, true on nil. -/
def IsUnknown : Option Condition → Bool
  | none => true
  | some c => c.Status == ConditionUnknown

/-- Modelled from the spec: `IsHappy`, the happy condition is set and True. -/
def IsHappy (r : ConditionSet) (st : StatusVal) : Bool :=
  IsTrue (GetCondition st r.happy)

/-- Modelled from the spec: lexicographic order on lists of character codes,
for the order of condition types. -/
def codesLt : List Nat → List Nat → Bool
  | _, [] => false
  | [], _ :: _ => true
  | a :: as, b :: bs => decide (a < b) || (a == b && codesLt as bs)

/-- Modelled from the spec: Go's `<` on strings, lexicographic on the encoded
characters, by which the missing library orders condition types. -/
def strLt (a b : String) : Bool :=
  codesLt (a.data.map Char.toNat) (b.data.map Char.toNat)

/-- Modelled from the spec: insertion of a condition into a list ordered by
type name, before the first condition whose type is not smaller. -/
def insertCond (c : Condition) : List Condition → List Condition
  | [] => [c]
  | d :: ds => if strLt d.Type_ c.Type_ then d :: insertCond c ds else c :: d :: ds

/-- Modelled from the spec: the "ordered condition list" of a status, kept
ordered by type name (an insertion sort; the types of a managed status are
distinct, so the order is unique). -/
def sortConds : List Condition → List Condition
  | [] => []
  | c :: cs => insertCond c (sortConds cs)

/-- Modelled from the spec: `SetCondition` of the missing library. The
condition of type `new.Type_` is replaced by `new`, stamped with the clock
reading `now`, and the list is stored back sorted; when a stored condition
differs from `new` in nothing but its transition time, nothing is stored. -/
def SetCondition (now : Int) (st : StatusVal) (new : Condition) : StatusVal :=
  if st.conds.any (fun c =>
      c.Type_ == new.Type_ &&
        decide ({ new with LastTransitionTime := c.LastTransitionTime } = c)) then st
  else
    { st with
      Conditions := some (sortConds
        (st.conds.filter (fun c => c.Type_ != new.Type_) ++
          [{ new with LastTransitionTime := now }])) }

/-- Modelled from the spec: severity of a condition type, `Error` for the happy
condition and its dependents, `Info` for any other. -/
def severity (r : ConditionSet) (t : String) : String :=
  if t ∈ r.dependents ∨ t = r.happy then ConditionSeverityError else ConditionSeverityInfo

/-- Modelled from the spec: `MarkTrue` of the missing library: condition `t`
becomes True, and the aggregate becomes True once every sub-condition is
True (the AND gate of the spec). -/
def MarkTrue (r : ConditionSet) (now : Int) (t : String) (st : StatusVal) : StatusVal :=
  let st1 := SetCondition now st
    { Condition.zero with Type_ := t, Status := ConditionTrue, Severity := severity r t }
  if r.dependents.all (fun d => IsTrue (GetCondition st1 d)) then
    SetCondition now st1
      { Condition.zero with
        Type_ := r.happy, Status := ConditionTrue, Severity := severity r r.happy }
  else st1

/-- Modelled from the spec: `MarkFalse` of the missing library: condition `t`
becomes False, and with it the aggregate when `t` is one of the
sub-conditions. -/
def MarkFalse (r : ConditionSet) (now : Int) (t reason message : String) (st : StatusVal) :
    StatusVal :=
  let types := [t] ++ (r.dependents.filter (fun d => d == t)).map (fun _ => r.happy)
  types.foldl (fun s ty =>
    SetCondition now s
      { Type_ := ty, Status := ConditionFalse, Severity := severity r ty,
        LastTransitionTime := 0, Reason := reason, Message := message }) st

/-- Modelled from the spec: the pass over the sub-conditions in `MarkUnknown`:
a False sub-condition forces the aggregate False and ends the pass;
otherwise, when `t` was seen among the sub-conditions, the aggregate becomes
Unknown. -/
def markUnknownLoop (r : ConditionSet) (now : Int) (t reason message : String) :
    List String → Bool → StatusVal → StatusVal
  | [], isDependent, st =>
    if isDependent then
      SetCondition now st
        { Type_ := r.happy, Status := ConditionUnknown, Severity := severity r r.happy,
          LastTransitionTime := 0, Reason := reason, Message := message }
    else st
  | d :: ds, isDependent, st =>
    if IsFalse (GetCondition st d) then
      if !IsFalse (GetCondition st r.happy) then MarkFalse r now r.happy reason message st
      else st
    else markUnknownLoop r now t reason message ds (isDependent || d == t) st

/-- Modelled from the spec: `MarkUnknown` of the missing library: condition
`t` becomes Unknown and the aggregate stops being True: it becomes Unknown,
or False when a sub-condition is False. -/
def MarkUnknown (r : ConditionSet) (now : Int) (t reason message : String) (st : StatusVal) :
    StatusVal :=
  markUnknownLoop r now t reason message r.dependents false
    (SetCondition now st
      { Type_ := t, Status := ConditionUnknown, Severity := severity r t,
        LastTransitionTime := 0, Reason := reason, Message := message })

/-- Modelled from the spec: `InitializeConditions`: the happy condition, when
unset, becomes Unknown; every unset dependent becomes True when the happy
condition is True and Unknown otherwise. -/
def InitializeConditions (r : ConditionSet) (now : Int) (st : StatusVal) : StatusVal :=
  let happy := GetCondition st r.happy
  let st1 :=
    match happy with
    | none =>
      SetCondition now st
        { Condition.zero with
          Type_ := r.happy, Status := ConditionUnknown, Severity := ConditionSeverityError }
    | some _ => st
  let status := if IsTrue happy then ConditionTrue else ConditionUnknown
  r.dependents.foldl (fun s t =>
    match GetCondition s t with
    | some _ => s
    | none =>
      SetCondition now s
        { Condition.zero with
          Type_ := t, Status := status, Severity := ConditionSeverityError }) st1

/-- Statuses a condition set manages: the status with no conditions, and
whatever the manager makes of a managed status by initialising it or by
marking one of the dependents True, False or Unknown. -/
inductive Managed (r : ConditionSet) : StatusVal → Prop where
  | fresh (g : Int) : Managed r { ObservedGeneration := g, Conditions := none }
  | init (now : Int) (st : StatusVal) : Managed r st → Managed r (InitializeConditions r now st)
  | markTrue (now : Int) (t : String) (st : StatusVal) :
      t ∈ r.dependents → Managed r st → Managed r (MarkTrue r now t st)
  | markFalse (now : Int) (t reason message : String) (st : StatusVal) :
      t ∈ r.dependents → Managed r st → Managed r (MarkFalse r now t reason message st)
  | markUnknown (now : Int) (t reason message : String) (st : StatusVal) :
      t ∈ r.dependents → Managed r st → Managed r (MarkUnknown r now t reason message st)

/-- The roll-up invariant of a managed status: condition types are distinct,
and the happy condition is True exactly when every dependent is True. -/
def Rollup (r : ConditionSet) (st : StatusVal) : Prop :=
  (st.conds.map Condition.Type_).Nodup ∧
    (IsHappy r st = true ↔ ∀ d ∈ r.dependents, IsTrue (GetCondition st d) = true)

/-! ## Storage and its fixture builders (pkg/reconciler/testing/storage.go)

The builders are used on values, so a `Storage` is modelled by value: each
reference field holds what it refers to. The condition-marking builders read
the clock through the condition manager; that reading is their first
argument `now`. -/

/-- Type `metav1.GroupVersionKind`. -/
structure GroupVersionKind where
  Group : String
  Version : String
  Kind : String
deriving DecidableEq, Repr

/-- Type `duckv1.Destination` of knative.dev/pkg, by value. -/
structure Destination where
  Ref : Option ObjectReference
  URI : Option String
deriving DecidableEq, Repr

/-- Modelled from the spec: `StorageSpec` (storage_types.go is not among the
sources). The fields are those the spec lists for the resource (credential
reference, project, bucket, event types, object-name prefix, custom
attributes, payload format, sink) under the names storage.go uses. -/
structure StorageSpec where
  Secret : Option SecretVal
  Project : String
  Bucket : String
  EventTypes : Option (List String)
  ObjectNamePrefix : String
  CustomAttributes : Option (List (String × String))
  PayloadFormat : String
  Sink : Destination
deriving DecidableEq, Repr

/-- Modelled from the spec: `StorageStatus` (storage_types.go is not among the
sources): the embedded generic status, the sink URI, and the notification,
topic and project identifiers storage.go writes. -/
structure StorageStatus where
  Status : StatusVal
  SinkURI : Option String
  NotificationID : String
  TopicID : String
  ProjectID : String
deriving DecidableEq, Repr

/-- Modelled from the spec: `Storage` (storage_types.go is not among the
sources), shaped like `GCS`. -/
structure Storage where
  TypeMeta : TypeMeta
  ObjectMeta : ObjectMetaVal
  Spec : StorageSpec
  Status : StorageStatus
deriving DecidableEq, Repr

/-- Modelled from the spec: `StorageList` (storage_types.go is not among the
sources), shaped like `GCSList`. -/
structure StorageList where
  TypeMeta : TypeMeta
  ListMeta : ListMeta
  Items : Option (List Storage)
deriving DecidableEq, Repr

/-- The zero `Storage`. -/
def Storage.zero : Storage :=
  { TypeMeta := { Kind := "", APIVersion := "" }
    ObjectMeta :=
      { Name := "", GenerateName := "", Namespace := "", SelfLink := "", UID := "",
        ResourceVersion := "", Generation := 0, CreationTimestamp := 0,
        DeletionTimestamp := none, DeletionGracePeriodSeconds := none, Labels := none,
        Annotations := none, Finalizers := none, ClusterName := "" }
    Spec :=
      { Secret := none, Project := "", Bucket := "", EventTypes := none,
        ObjectNamePrefix := "", CustomAttributes := none, PayloadFormat := ""
        Sink := { Ref := none, URI := none } }
    Status :=
      { Status := { ObservedGeneration := 0, Conditions := none }
        SinkURI := none, NotificationID := "", TopicID := "", ProjectID := "" } }

/-- Modelled from the spec: topic readiness, one of the three sub-conditions
of a `Storage` ("subscription readiness, topic readiness, notification
readiness"). -/
def TopicReady : String := "TopicReady"

/-- Modelled from the spec: notification readiness. -/
def NotificationReady : String := "NotificationReady"

/-- Modelled from the spec: the condition set of `Storage` (storage_lifecycle.go
is not among the sources): `Ready` over subscription, topic and notification
readiness. -/
def storageCondSet : ConditionSet :=
  NewLivingConditionSet [PullSubscriptionReady, TopicReady, NotificationReady]

/-- Modelled from the spec: `StorageStatus.InitializeConditions`. `now` is the
clock reading the condition manager stamps transitions with. -/
def StorageStatus.InitializeConditions (now : Int) (s : StorageStatus) : StorageStatus :=
  { s with Status := KnativeGcp.InitializeConditions storageCondSet now s.Status }

/-- Modelled from the spec: `StorageStatus.MarkTopicFailed`, topic readiness
becomes False. -/
def StorageStatus.MarkTopicFailed (now : Int) (reason message : String) (s : StorageStatus) :
    StorageStatus :=
  { s with Status := MarkFalse storageCondSet now TopicReady reason message s.Status }

/-- Modelled from the spec: `StorageStatus.MarkTopicUnknown`. -/
def StorageStatus.MarkTopicUnknown (now : Int) (reason message : String) (s : StorageStatus) :
    StorageStatus :=
  { s with Status := MarkUnknown storageCondSet now TopicReady reason message s.Status }

/-- Modelled from the spec: `StorageStatus.MarkTopicReady`, topic readiness
becomes True. -/
def StorageStatus.MarkTopicReady (now : Int) (s : StorageStatus) : StorageStatus :=
  { s with Status := MarkTrue storageCondSet now TopicReady s.Status }

/-- Modelled from the spec: `StorageStatus.MarkPullSubscriptionFailed`. -/
def StorageStatus.MarkPullSubscriptionFailed (now : Int) (reason message : String)
    (s : StorageStatus) : StorageStatus :=
  { s with
    Status := MarkFalse storageCondSet now PullSubscriptionReady reason message s.Status }

/-- Modelled from the spec: `StorageStatus.MarkPullSubscriptionUnknown`. -/
def StorageStatus.MarkPullSubscriptionUnknown (now : Int) (reason message : String)
    (s : StorageStatus) : StorageStatus :=
  { s with
    Status := MarkUnknown storageCondSet now PullSubscriptionReady reason message s.Status }

/-- Modelled from the spec: `StorageStatus.MarkPullSubscriptionReady`. -/
def StorageStatus.MarkPullSubscriptionReady (now : Int) (s : StorageStatus) : StorageStatus :=
  { s with Status := MarkTrue storageCondSet now PullSubscriptionReady s.Status }

/-- Modelled from the spec: `StorageStatus.MarkNotificationNotReady`. -/
def StorageStatus.MarkNotificationNotReady (now : Int) (reason message : String)
    (s : StorageStatus) : StorageStatus :=
  { s with Status := MarkFalse storageCondSet now NotificationReady reason message s.Status }

/-- Modelled from the spec: `StorageStatus.MarkNotificationReady`: notification
readiness becomes True and the notification identifier is recorded. -/
def StorageStatus.MarkNotificationReady (now : Int) (notificationID : String)
    (s : StorageStatus) : StorageStatus :=
  { s with
    NotificationID := notificationID
    Status := MarkTrue storageCondSet now NotificationReady s.Status }

/-- Type `StorageOption` (storage.go:33). -/
abbrev StorageOption := Storage → Storage

/-- Function `NewStorage` (storage.go:36). `setDefaults` stands for
`Storage.SetDefaults`, whose logic the spec leaves external. -/
def NewStorage (setDefaults : Storage → Storage) (name namespace_ : String)
    (so : List StorageOption) : Storage :=
  let s : Storage :=
    { Storage.zero with
      ObjectMeta :=
        { Storage.zero.ObjectMeta with
          Name := name, Namespace := namespace_, UID := "test-storage-uid" } }
  let s := so.foldl (fun s opt => opt s) s
  setDefaults s

/-- Function `WithStorageBucket` (storage.go:51). -/
def WithStorageBucket (bucket : String) : StorageOption :=
  fun s => { s with Spec := { s.Spec with Bucket := bucket } }

/-- Function `WithStorageProject` (storage.go:57). -/
def WithStorageProject (project : String) : StorageOption :=
  fun s => { s with Spec := { s.Spec with Project := project } }

/-- Function `WithStorageEventTypes` (storage.go:63). -/
def WithStorageEventTypes (eventTypes : Option (List String)) : StorageOption :=
  fun s => { s with Spec := { s.Spec with EventTypes := eventTypes } }

/-- Function `WithStorageSink` (storage.go:69). `apiVersion` is the helper of
the same package, defined outside the sources. -/
def WithStorageSink (apiVersion : GroupVersionKind → String) (gvk : GroupVersionKind)
    (name : String) : StorageOption :=
  fun s =>
    { s with
      Spec :=
        { s.Spec with
          Sink :=
            { Ref := some
                { Kind := gvk.Kind, Namespace := "", Name := name, UID := "",
                  APIVersion := apiVersion gvk, ResourceVersion := "", FieldPath := "" }
              URI := none } } }

/-- Function `WithInitStorageConditions` (storage.go:82). -/
def WithInitStorageConditions (now : Int) : StorageOption :=
  fun s => { s with Status := s.Status.InitializeConditions now }

/-- Function `WithStorageTopicFailed` (storage.go:88). -/
def WithStorageTopicFailed (now : Int) (reason message : String) : StorageOption :=
  fun s => { s with Status := s.Status.MarkTopicFailed now reason message }

/-- Function `WithStorageTopicUnknown` (storage.go:96). -/
def WithStorageTopicUnknown (now : Int) (reason message : String) : StorageOption :=
  fun s => { s with Status := s.Status.MarkTopicUnknown now reason message }

/-- Function `WithStorageTopicReady` (storage.go:104): `MarkTopicReady()`, then
`TopicID` is assigned. -/
def WithStorageTopicReady (now : Int) (topicID : String) : StorageOption :=
  fun s =>
    let s := { s with Status := s.Status.MarkTopicReady now }
    { s with Status := { s.Status with TopicID := topicID } }

/-- Function `WithStorageTopicID` (storage.go:111). -/
def WithStorageTopicID (topicID : String) : StorageOption :=
  fun s => { s with Status := { s.Status with TopicID := topicID } }

/-- Function `WithStoragePullSubscriptionFailed` (storage.go:119). -/
def WithStoragePullSubscriptionFailed (now : Int) (reason message : String) : StorageOption :=
  fun s => { s with Status := s.Status.MarkPullSubscriptionFailed now reason message }

/-- Function `WithStoragePullSubscriptionUnknown` (storage.go:127). -/
def WithStoragePullSubscriptionUnknown (now : Int) (reason message : String) : StorageOption :=
  fun s => { s with Status := s.Status.MarkPullSubscriptionUnknown now reason message }

/-- Function `WithStoragePullSubscriptionReady` (storage.go:135). -/
def WithStoragePullSubscriptionReady (now : Int) : StorageOption :=
  fun s => { s with Status := s.Status.MarkPullSubscriptionReady now }

/-- Function `WithStorageNotificationNotReady` (storage.go:143). -/
def WithStorageNotificationNotReady (now : Int) (reason message : String) : StorageOption :=
  fun s => { s with Status := s.Status.MarkNotificationNotReady now reason message }

/-- Function `WithStorageNotificationReady` (storage.go:151). -/
def WithStorageNotificationReady (now : Int) (notificationID : String) : StorageOption :=
  fun s => { s with Status := s.Status.MarkNotificationReady now notificationID }

/-- Function `WithStorageSinkURI` (storage.go:158). -/
def WithStorageSinkURI (url : Option String) : StorageOption :=
  fun s => { s with Status := { s.Status with SinkURI := url } }

/-- Function `WithStorageNotificationID` (storage.go:165). -/
def WithStorageNotificationID (notificationID : String) : StorageOption :=
  fun s => { s with Status := { s.Status with NotificationID := notificationID } }

/-- Function `WithStorageProjectID` (storage.go:172). -/
def WithStorageProjectID (projectID : String) : StorageOption :=
  fun s => { s with Status := { s.Status with ProjectID := projectID } }

/-- Function `WithStorageFinalizers` (storage.go:178). -/
def WithStorageFinalizers (finalizers : Option (List String)) : StorageOption :=
  fun s => { s with ObjectMeta := { s.ObjectMeta with Finalizers := finalizers } }

/-- Function `WithStorageStatusObservedGeneration` (storage.go:184). -/
def WithStorageStatusObservedGeneration (generation : Int) : StorageOption :=
  fun s =>
    { s with
      Status := { s.Status with Status := { s.Status.Status with ObservedGeneration := generation } } }

/-- Function `WithStorageObjectMetaGeneration` (storage.go:190). -/
def WithStorageObjectMetaGeneration (generation : Int) : StorageOption :=
  fun s => { s with ObjectMeta := { s.ObjectMeta with Generation := generation } }

/-- Function `WithDeletionTimestamp` (storage.go:196): the timestamp is
`time.Unix(1e9, 0)`. -/
def WithDeletionTimestamp : StorageOption :=
  fun s => { s with ObjectMeta := { s.ObjectMeta with DeletionTimestamp := some 1000000000 } }

/-- The builders of storage.go that assign one field, with their arguments. -/
inductive FieldOption where
  | bucket (bucket : String)
  | project (project : String)
  | eventTypes (eventTypes : Option (List String))
  | sink (gvk : GroupVersionKind) (name : String)
  | topicID (topicID : String)
  | sinkURI (url : Option String)
  | notificationID (notificationID : String)
  | projectID (projectID : String)
  | finalizers (finalizers : Option (List String))
  | statusObservedGeneration (generation : Int)
  | objectMetaGeneration (generation : Int)
  | deletionTimestamp
deriving DecidableEq, Repr

/-- The `StorageOption` a field builder returns. -/
def FieldOption.apply (apiVersion : GroupVersionKind → String) : FieldOption → StorageOption
  | .bucket b => WithStorageBucket b
  | .project p => WithStorageProject p
  | .eventTypes e => WithStorageEventTypes e
  | .sink gvk name => WithStorageSink apiVersion gvk name
  | .topicID t => WithStorageTopicID t
  | .sinkURI u => WithStorageSinkURI u
  | .notificationID n => WithStorageNotificationID n
  | .projectID p => WithStorageProjectID p
  | .finalizers f => WithStorageFinalizers f
  | .statusObservedGeneration g => WithStorageStatusObservedGeneration g
  | .objectMetaGeneration g => WithStorageObjectMetaGeneration g
  | .deletionTimestamp => WithDeletionTimestamp

/-- The field a field builder assigns. -/
def FieldOption.field : FieldOption → String
  | .bucket _ => "Spec.Bucket"
  | .project _ => "Spec.Project"
  | .eventTypes _ => "Spec.EventTypes"
  | .sink _ _ => "Spec.Sink"
  | .topicID _ => "Status.TopicID"
  | .sinkURI _ => "Status.SinkURI"
  | .notificationID _ => "Status.NotificationID"
  | .projectID _ => "Status.ProjectID"
  | .finalizers _ => "ObjectMeta.Finalizers"
  | .statusObservedGeneration _ => "Status.Status.ObservedGeneration"
  | .objectMetaGeneration _ => "ObjectMeta.Generation"
  | .deletionTimestamp => "ObjectMeta.DeletionTimestamp"

/-- The name of a field, when its two values differ. -/
def diff {α : Type} [DecidableEq α] (name : String) (x y : α) : List String :=
  if x = y then [] else [name]

/-- The fields in which two `Storage` values differ. -/
def changedFields (a b : Storage) : List String :=
  diff "TypeMeta" a.TypeMeta b.TypeMeta ++
  diff "ObjectMeta.Name" a.ObjectMeta.Name b.ObjectMeta.Name ++
  diff "ObjectMeta.GenerateName" a.ObjectMeta.GenerateName b.ObjectMeta.GenerateName ++
  diff "ObjectMeta.Namespace" a.ObjectMeta.Namespace b.ObjectMeta.Namespace ++
  diff "ObjectMeta.SelfLink" a.ObjectMeta.SelfLink b.ObjectMeta.SelfLink ++
  diff "ObjectMeta.UID" a.ObjectMeta.UID b.ObjectMeta.UID ++
  diff "ObjectMeta.ResourceVersion" a.ObjectMeta.ResourceVersion b.ObjectMeta.ResourceVersion ++
  diff "ObjectMeta.Generation" a.ObjectMeta.Generation b.ObjectMeta.Generation ++
  diff "ObjectMeta.CreationTimestamp" a.ObjectMeta.CreationTimestamp
    b.ObjectMeta.CreationTimestamp ++
  diff "ObjectMeta.DeletionTimestamp" a.ObjectMeta.DeletionTimestamp
    b.ObjectMeta.DeletionTimestamp ++
  diff "ObjectMeta.DeletionGracePeriodSeconds" a.ObjectMeta.DeletionGracePeriodSeconds
    b.ObjectMeta.DeletionGracePeriodSeconds ++
  diff "ObjectMeta.Labels" a.ObjectMeta.Labels b.ObjectMeta.Labels ++
  diff "ObjectMeta.Annotations" a.ObjectMeta.Annotations b.ObjectMeta.Annotations ++
  diff "ObjectMeta.Finalizers" a.ObjectMeta.Finalizers b.ObjectMeta.Finalizers ++
  diff "ObjectMeta.ClusterName" a.ObjectMeta.ClusterName b.ObjectMeta.ClusterName ++
  diff "Spec.Secret" a.Spec.Secret b.Spec.Secret ++
  diff "Spec.Project" a.Spec.Project b.Spec.Project ++
  diff "Spec.Bucket" a.Spec.Bucket b.Spec.Bucket ++
  diff "Spec.EventTypes" a.Spec.EventTypes b.Spec.EventTypes ++
  diff "Spec.ObjectNamePrefix" a.Spec.ObjectNamePrefix b.Spec.ObjectNamePrefix ++
  diff "Spec.CustomAttributes" a.Spec.CustomAttributes b.Spec.CustomAttributes ++
  diff "Spec.PayloadFormat" a.Spec.PayloadFormat b.Spec.PayloadFormat ++
  diff "Spec.Sink" a.Spec.Sink b.Spec.Sink ++
  diff "Status.Status.ObservedGeneration" a.Status.Status.ObservedGeneration
    b.Status.Status.ObservedGeneration ++
  diff "Status.Status.Conditions" a.Status.Status.Conditions b.Status.Status.Conditions ++
  diff "Status.SinkURI" a.Status.SinkURI b.Status.SinkURI ++
  diff "Status.NotificationID" a.Status.NotificationID b.Status.NotificationID ++
  diff "Status.TopicID" a.Status.TopicID b.Status.TopicID ++
  diff "Status.ProjectID" a.Status.ProjectID b.Status.ProjectID

/-! ## Fake client (fake_storage.go)

The tracker `c.Fake` of the client is client-go's `testing.Fake`, a library
type: its invocation log and reaction chain are modelled as that library
documents them. `Watch` (fake_storage.go:75) goes through `InvokesWatch` and
is not modelled. -/

/-- Type `schema.GroupVersionResource`. -/
structure GroupVersionResource where
  Group : String
  Version : String
  Resource : String
deriving DecidableEq, Repr

/-- Variable `storagesResource` (fake_storage.go:37). -/
def storagesResource : GroupVersionResource :=
  { Group := "events.cloud.google.com", Version := "v1alpha1", Resource := "storages" }

/-- Variable `storagesKind` (fake_storage.go:39). -/
def storagesKind : GroupVersionKind :=
  { Group := "events.cloud.google.com", Version := "v1alpha1", Kind := "Storage" }

/-- Type `metav1.ListOptions`: the selectors and the resource version. -/
structure ListOptions where
  LabelSelector : String
  FieldSelector : String
  ResourceVersion : String
deriving DecidableEq, Repr

/-- Type `metav1.GetOptions`. -/
structure GetOptions where
  ResourceVersion : String
deriving DecidableEq, Repr

/-- Type `metav1.DeleteOptions`. -/
structure DeleteOptions where
  GracePeriodSeconds : Option Int
deriving DecidableEq, Repr

/-- A `[]byte`. -/
abbrev Bytes := List Nat

/-- A `[]string` by value (variadic arguments). -/
abbrev Strings := List String

/-- An `error` value, by its message. `Option Error` is a Go `error`, `none`
being nil. -/
abbrev Error := String

/-- A `runtime.Object` by dynamic type: a `*Storage`, a `*StorageList`, or an
object of another kind. -/
inductive Object where
  | storage (s : Storage)
  | storageList (l : StorageList)
  | other (kind : String)
deriving DecidableEq, Repr

/-- An action of client-go's `testing` package, by the constructor that built
it and the arguments it was given. -/
inductive Action where
  | get (resource : GroupVersionResource) (ns name : String)
  | list (resource : GroupVersionResource) (kind : GroupVersionKind) (ns : String)
      (opts : ListOptions)
  | create (resource : GroupVersionResource) (ns : String) (object : Option Storage)
  | update (resource : GroupVersionResource) (ns : String) (object : Option Storage)
  | updateSubresource (resource : GroupVersionResource) (subresource ns : String)
      (object : Option Storage)
  | delete (resource : GroupVersionResource) (ns name : String)
  | deleteCollection (resource : GroupVersionResource) (ns : String) (opts : ListOptions)
  | patchSubresource (resource : GroupVersionResource) (ns name pt : String)
      (data : List Nat) (subresources : List String)
deriving DecidableEq, Repr

/-- Method `GetVerb` of an action, as the constructors of client-go set it. -/
def Action.verb : Action → String
  | .get _ _ _ => "get"
  | .list _ _ _ _ => "list"
  | .create _ _ _ => "create"
  | .update _ _ _ => "update"
  | .updateSubresource _ _ _ _ => "update"
  | .delete _ _ _ => "delete"
  | .deleteCollection _ _ _ => "delete-collection"
  | .patchSubresource _ _ _ _ _ _ => "patch"

/-- Method `GetResource` of an action. -/
def Action.resource : Action → GroupVersionResource
  | .get r _ _ => r
  | .list r _ _ _ => r
  | .create r _ _ => r
  | .update r _ _ => r
  | .updateSubresource r _ _ _ => r
  | .delete r _ _ => r
  | .deleteCollection r _ _ => r
  | .patchSubresource r _ _ _ _ _ => r

/-- Method `GetNamespace` of an action. -/
def Action.ns : Action → String
  | .get _ n _ => n
  | .list _ _ n _ => n
  | .create _ n _ => n
  | .update _ n _ => n
  | .updateSubresource _ _ n _ => n
  | .delete _ n _ => n
  | .deleteCollection _ n _ => n
  | .patchSubresource _ n _ _ _ _ => n

/-- The elements of a path: the runs of characters between its slashes. -/
def pathElements : List Char → List (List Char)
  | [] => [[]]
  | c :: cs =>
    match pathElements cs with
    | [] => [[c]]
    | e :: es => if c = '/' then [] :: e :: es else (c :: e) :: es

/-- The loop of Go's `path.Clean` over the elements of the path, `out` being
the elements written so far, last first: an empty element and `.` are dropped;
`..` takes back the last element written unless there is none or it is a
`..`, in which case it is dropped in a rooted path and written otherwise;
any other element is written. -/
def pathCleanLoop (rooted : Bool) : List (List Char) → List (List Char) → List (List Char)
  | out, [] => out.reverse
  | out, e :: es =>
    if e = [] ∨ e = ['.'] then pathCleanLoop rooted out es
    else if e = ['.', '.'] then
      match out with
      | top :: rest =>
        if top ≠ ['.', '.'] then pathCleanLoop rooted rest es
        else if rooted then pathCleanLoop rooted out es
        else pathCleanLoop rooted (e :: out) es
      | [] =>
        if rooted then pathCleanLoop rooted out es
        else pathCleanLoop rooted (e :: out) es
    else pathCleanLoop rooted (e :: out) es

/-- Go's `path.Clean`: the shortest equivalent path by lexical processing
(`/` once between elements, kept in front of a rooted path; `.` for an empty
result). -/
def pathClean (path : String) : String :=
  let rooted : Bool := path.data.head? = some '/'
  let out : String :=
    String.mk ((if rooted then ['/'] else []) ++
      ['/'].intercalate (pathCleanLoop rooted [] (pathElements path.data)))
  if out = "" then "." else out

/-- Go's `path.Join`: the elements from the first non-empty one on, joined
with `/` and cleaned; the empty string when every element is empty. -/
def pathJoin (elem : List String) : String :=
  match elem.dropWhile (fun e => e == "") with
  | [] => ""
  | es => pathClean ("/".intercalate es)

/-- Method `GetSubresource` of an action: the subresource given to
`NewUpdateSubresourceAction`; for `NewPatchSubresourceAction`,
`path.Join(subresources...)`. -/
def Action.subresource : Action → String
  | .updateSubresource _ sub _ _ => sub
  | .patchSubresource _ _ _ _ _ subs => pathJoin subs
  | _ => ""

/-- A reactor of client-go's `testing.Fake`: whether it handles an action, and
its reaction (new reactor state, handled, returned object, error). The state
`σ` is whatever the reactors of the chain keep between calls. -/
structure Reactor (σ : Type) where
  Handles : Action → Bool
  React : σ → Action → σ × Bool × Option Object × Option Error

/-- Type `testing.Fake` of client-go: the invocation log and the reaction
chain with its state. -/
structure Fake (σ : Type) where
  actions : List Action
  state : σ
  ReactionChain : List (Reactor σ)

/-- The loop over the reaction chain in `Fake.Invokes`: the first reactor that
handles the action decides; with none, the default object and no error. -/
def runChain {σ : Type} : List (Reactor σ) → σ → Action → Object →
    σ × Option Object × Option Error
  | [], st, _, defaultReturnObj => (st, some defaultReturnObj, none)
  | r :: rs, st, a, d =>
    if !r.Handles a then runChain rs st a d
    else
      match r.React st a with
      | (st2, handled, ret, err) =>
        if !handled then runChain rs st2 a d else (st2, ret, err)

/-- Method `Fake.Invokes` of client-go: the action is appended to the log,
then the reaction chain produces the object and the error. -/
def Fake.Invokes {σ : Type} (f : Fake σ) (action : Action) (defaultReturnObj : Object) :
    Fake σ × Option Object × Option Error :=
  match runChain f.ReactionChain f.state action defaultReturnObj with
  | (st, obj, err) => ({ f with actions := f.actions ++ [action], state := st }, obj, err)

/-- A `labels.Selector`, by its method `Matches` on a label set. -/
structure Selector where
  Matches : List (String × String) → Bool

/-- Function `labels.Everything`: the selector that matches every label set. -/
def Everything : Selector :=
  { Matches := fun _ => true }

/-- Function `testing.NewListAction` of client-go. It calls
`ExtractFromListOptions` on the options, which panics on a label or field
selector it cannot parse: `none` is that panic. `ExtractFromListOptions` is a
parameter, with `none` for its panic, `some none` for a nil label selector
and `some (some l)` for the label selector `l`. -/
def NewListAction (ExtractFromListOptions : ListOptions → Option (Option Selector))
    (resource : GroupVersionResource) (kind : GroupVersionKind) (ns : String)
    (opts : ListOptions) : Option Action :=
  match ExtractFromListOptions opts with
  | none => none
  | some _ => some (Action.list resource kind ns opts)

/-- Function `testing.NewDeleteCollectionAction` of client-go. It calls
`ExtractFromListOptions` as `NewListAction` does; `none` is the panic. -/
def NewDeleteCollectionAction (ExtractFromListOptions : ListOptions → Option (Option Selector))
    (resource : GroupVersionResource) (ns : String) (opts : ListOptions) : Option Action :=
  match ExtractFromListOptions opts with
  | none => none
  | some _ => some (Action.deleteCollection resource ns opts)

/-- Type `FakeStorages` (fake_storage.go:32). The shared `*FakeEventsV1alpha1`
is passed in and handed back by every operation. -/
structure FakeStorages (σ : Type) where
  Fake : Fake σ
  ns : String

/-- What a client operation hands back: a typed result and an error, or a
panic (of the type assertion `obj.(*T)` on an object of another type, or of
the library on list options it cannot parse). -/
inductive Outcome (α : Type) where
  | panic
  | ret (result : Option α) (err : Option Error)
deriving DecidableEq, Repr

/-- What an operation that returns only an error hands back: the error, or a
panic. -/
inductive ErrOutcome where
  | panic
  | ret (err : Option Error)
deriving DecidableEq, Repr

/-- The zero `StorageList`. -/
def StorageList.zero : StorageList :=
  { TypeMeta := { Kind := "", APIVersion := "" }
    ListMeta := { SelfLink := "", ResourceVersion := "", Continue := "" }
    Items := none }

/-- The tail shared by `Get`, `Create`, `Update`, `UpdateStatus` and `Patch`:
`if obj == nil { return nil, err }; return obj.(*v1alpha1.Storage), err`. -/
def asStorage (obj : Option Object) (err : Option Error) : Outcome Storage :=
  match obj with
  | none => Outcome.ret none err
  | some (Object.storage s) => Outcome.ret (some s) err
  | some _ => Outcome.panic

/-- Function `FakeStorages.Get` (fake_storage.go:42). -/
def FakeStorages.Get {σ : Type} (c : FakeStorages σ) (name : String) (_options : GetOptions) :
    FakeStorages σ × Outcome Storage :=
  match c.Fake.Invokes (Action.get storagesResource c.ns name) (Object.storage Storage.zero) with
  | (fake, obj, err) => ({ c with Fake := fake }, asStorage obj err)

/-- Go builtin `append(items, item)` on a possibly nil slice. -/
def goAppend {α : Type} (items : Option (List α)) (item : α) : Option (List α) :=
  some (items.getD [] ++ [item])

/-- The loop of `FakeStorages.List`: a new list with the `ListMeta` of `l` and
the items of `l` the selector matches, appended in order. -/
def filterList (label : Selector) (l : StorageList) : StorageList :=
  let list : StorageList := { StorageList.zero with ListMeta := l.ListMeta }
  (l.Items.getD []).foldl (fun (list : StorageList) item =>
    if label.Matches (item.ObjectMeta.Labels.getD []) then
      { list with Items := goAppend list.Items item }
    else list) list

/-- The tail of `FakeStorages.List` after the invocation (fake_storage.go:57-71).
`ExtractFromListOptions` is the function of client-go's `testing` package, a
parameter: `none` is its panic on options it cannot parse, `some none` a nil
label selector. -/
def asStorageList (ExtractFromListOptions : ListOptions → Option (Option Selector))
    (opts : ListOptions) (obj : Option Object) (err : Option Error) : Outcome StorageList :=
  match obj with
  | none => Outcome.ret none err
  | some o =>
    match ExtractFromListOptions opts with
    | none => Outcome.panic
    | some extracted =>
      let label :=
        match extracted with
        | none => Everything
        | some l => l
      match o with
      | Object.storageList l => Outcome.ret (some (filterList label l)) err
      | _ => Outcome.panic

/-- Function `FakeStorages.List` (fake_storage.go:53). The action is built
before `Invokes` is called: when `NewListAction` panics, nothing is invoked
and the client is as it was. -/
def FakeStorages.List {σ : Type} (ExtractFromListOptions : ListOptions → Option (Option Selector))
    (c : FakeStorages σ) (opts : ListOptions) : FakeStorages σ × Outcome StorageList :=
  match NewListAction ExtractFromListOptions storagesResource storagesKind c.ns opts with
  | none => (c, Outcome.panic)
  | some action =>
    match c.Fake.Invokes action (Object.storageList StorageList.zero) with
    | (fake, obj, err) =>
      ({ c with Fake := fake }, asStorageList ExtractFromListOptions opts obj err)

/-- Function `FakeStorages.Create` (fake_storage.go:82). -/
def FakeStorages.Create {σ : Type} (c : FakeStorages σ) (storage : Option Storage) :
    FakeStorages σ × Outcome Storage :=
  match c.Fake.Invokes (Action.create storagesResource c.ns storage)
      (Object.storage Storage.zero) with
  | (fake, obj, err) => ({ c with Fake := fake }, asStorage obj err)

/-- Function `FakeStorages.Update` (fake_storage.go:93). -/
def FakeStorages.Update {σ : Type} (c : FakeStorages σ) (storage : Option Storage) :
    FakeStorages σ × Outcome Storage :=
  match c.Fake.Invokes (Action.update storagesResource c.ns storage)
      (Object.storage Storage.zero) with
  | (fake, obj, err) => ({ c with Fake := fake }, asStorage obj err)

/-- Function `FakeStorages.UpdateStatus` (fake_storage.go:105). -/
def FakeStorages.UpdateStatus {σ : Type} (c : FakeStorages σ) (storage : Option Storage) :
    FakeStorages σ × Outcome Storage :=
  match c.Fake.Invokes (Action.updateSubresource storagesResource "status" c.ns storage)
      (Object.storage Storage.zero) with
  | (fake, obj, err) => ({ c with Fake := fake }, asStorage obj err)

/-- Function `FakeStorages.Delete` (fake_storage.go:116). -/
def FakeStorages.Delete {σ : Type} (c : FakeStorages σ) (name : String)
    (_options : Option DeleteOptions) : FakeStorages σ × Option Error :=
  match c.Fake.Invokes (Action.delete storagesResource c.ns name)
      (Object.storage Storage.zero) with
  | (fake, _, err) => ({ c with Fake := fake }, err)

/-- Function `FakeStorages.DeleteCollection` (fake_storage.go:124). When
`NewDeleteCollectionAction` panics, nothing is invoked and the client is as it
was. -/
def FakeStorages.DeleteCollection {σ : Type}
    (ExtractFromListOptions : ListOptions → Option (Option Selector)) (c : FakeStorages σ)
    (_options : Option DeleteOptions) (listOptions : ListOptions) :
    FakeStorages σ × ErrOutcome :=
  match NewDeleteCollectionAction ExtractFromListOptions storagesResource c.ns listOptions with
  | none => (c, ErrOutcome.panic)
  | some action =>
    match c.Fake.Invokes action (Object.storageList StorageList.zero) with
    | (fake, _, err) => ({ c with Fake := fake }, ErrOutcome.ret err)

/-- Function `FakeStorages.Patch` (fake_storage.go:132). -/
def FakeStorages.Patch {σ : Type} (c : FakeStorages σ) (name pt : String) (data : Bytes)
    (subresources : Strings) : FakeStorages σ × Outcome Storage :=
  match c.Fake.Invokes (Action.patchSubresource storagesResource c.ns name pt data subresources)
      (Object.storage Storage.zero) with
  | (fake, obj, err) => ({ c with Fake := fake }, asStorage obj err)

/-- A sample `Storage` with one label. -/
def sampleStorage (name app : String) : Storage :=
  { Storage.zero with
    ObjectMeta :=
      { Storage.zero.ObjectMeta with
        Name := name, Namespace := "ns", Labels := some [("app", app)] } }

/-- A sample list as a tracker returns it: two items with different labels. -/
def sampleStorageList : StorageList :=
  { TypeMeta := { Kind := "", APIVersion := "" }
    ListMeta := { SelfLink := "", ResourceVersion := "12", Continue := "" }
    Items := some [sampleStorage "one" "a", sampleStorage "two" "b"] }

/-- A sample client whose only reactor answers every action with
`sampleStorageList` and no error. -/
def sampleListClient : FakeStorages Unit :=
  { Fake :=
      { actions := []
        state := ()
        ReactionChain :=
          [{ Handles := fun _ => true
             React := fun st _ => (st, true, some (Object.storageList sampleStorageList), none) }] }
    ns := "ns" }

/-- An ASCII letter or digit. -/
def isLetterOrDigit (c : Char) : Bool :=
  (48 ≤ c.toNat && c.toNat ≤ 57) || (65 ≤ c.toNat && c.toNat ≤ 90) ||
    (97 ≤ c.toNat && c.toNat ≤ 122)

/-- The parts of a string between its commas. -/
def commaParts : List Char → List (List Char)
  | [] => [[]]
  | c :: cs =>
    match commaParts cs with
    | [] => [[c]]
    | e :: es => if c = ',' then [] :: e :: es else (c :: e) :: es

/-- A sample of `labels.Parse` on label selector strings of three shapes: the
empty string, which selects everything; one requirement `key`, which selects
the label sets that have the key; and one requirement `key=value`, which
selects the label sets that have the key with that value. A key is 1 to 63
letters and digits, a value 0 to 63 letters and digits. Every other string is
taken as one the library cannot parse, as `!!` is. -/
def sampleParse (selector : String) : Option Selector :=
  if selector = "" then some Everything
  else
    let key := selector.data.takeWhile isLetterOrDigit
    if key = [] ∨ 63 < key.length then none
    else
      match selector.data.dropWhile isLetterOrDigit with
      | [] => some { Matches := fun ls => (mapLookup ls (String.mk key)).isSome }
      | '=' :: value =>
        if value.all isLetterOrDigit ∧ value.length ≤ 63 then
          some { Matches := fun ls => mapLookup ls (String.mk key) == some (String.mk value) }
        else none
      | _ => none

/-- A sample of `fields.ParseSelector` on field selector strings without a
backslash: such a string parses when each of its non-empty parts between
commas holds a `=`. A string with a backslash is taken as one the library
cannot parse. -/
def sampleFieldParses (selector : String) : Bool :=
  !selector.data.contains (Char.ofNat 92) &&
    (commaParts selector.data).all (fun part => part == [] || part.contains '=')

/-- A sample selector extraction, `ExtractFromListOptions` on the option
values that `sampleParse` and `sampleFieldParses` cover: the label selector of
the options, or the panic when the label selector or the field selector does
not parse. -/
def sampleExtract (opts : ListOptions) : Option (Option Selector) :=
  match sampleParse opts.LabelSelector with
  | none => none
  | some label => if sampleFieldParses opts.FieldSelector then some (some label) else none

/-- Operation result `c2` comes from client `c` by exactly one invocation of
the tracker, with action `a` (default object `d`) of the given verb and
subresource on resource `storages` in the namespace of the client. -/
def InvokesOnce {σ : Type} (c : FakeStorages σ) (a : Action) (d : Object)
    (verb sub : String) (c2 : FakeStorages σ) : Prop :=
  a.verb = verb ∧ a.subresource = sub ∧ a.resource = storagesResource ∧ a.ns = c.ns ∧
    c2.ns = c.ns ∧ c2.Fake = (c.Fake.Invokes a d).1 ∧
    c2.Fake.actions = c.Fake.actions ++ [a]

/-- Modelled from the spec: the "in-memory object tracker" behind the fake
client (the object tracker of client-go, which the constructor of the fake
clientset installs as the reactor; neither is among the sources). It holds
the stored `Storage` objects, at most one for a namespace and name. -/
structure Tracker where
  objects : List Storage
deriving DecidableEq, Repr

/-- Modelled from the spec: whether a stored object has the given namespace
and name. -/
def sameKey (ns name : String) (s : Storage) : Bool :=
  s.ObjectMeta.Namespace == ns && s.ObjectMeta.Name == name

/-- Modelled from the spec: the error for a name that is not stored. -/
def notFound (name : String) : Error :=
  "storages \"" ++ name ++ "\" not found"

/-- Modelled from the spec: tracker `Get`, the stored object or a not-found
error. -/
def Tracker.Get (t : Tracker) (ns name : String) : Option Storage × Option Error :=
  match t.objects.find? (sameKey ns name) with
  | some s => (some s, none)
  | none => (none, some (notFound name))

/-- Modelled from the spec: tracker `List`, the stored objects of a namespace
(of every namespace for the empty namespace). -/
def Tracker.List (t : Tracker) (ns : String) : StorageList :=
  { StorageList.zero with
    Items := some (t.objects.filter (fun s => ns == "" || s.ObjectMeta.Namespace == ns)) }

/-- Modelled from the spec: an object without a namespace gets the namespace
of the request. -/
def propagateNamespace (obj : Storage) (ns : String) : Storage :=
  if obj.ObjectMeta.Namespace = "" then
    { obj with ObjectMeta := { obj.ObjectMeta with Namespace := ns } }
  else obj

/-- Modelled from the spec: tracker `add`: the namespace of the request is
given to an object without one; `Create` refuses a stored name, `Update`
(`replaceExisting`) replaces the stored object and refuses an unknown name. -/
def Tracker.add (t : Tracker) (obj : Storage) (ns : String) (replaceExisting : Bool) :
    Tracker × Option Error :=
  let obj : Storage := propagateNamespace obj ns
  if ns ≠ obj.ObjectMeta.Namespace then (t, some "request namespace does not match object namespace")
  else if t.objects.any (sameKey obj.ObjectMeta.Namespace obj.ObjectMeta.Name) then
    if replaceExisting then
      ({ objects := t.objects.map (fun s =>
          if sameKey obj.ObjectMeta.Namespace obj.ObjectMeta.Name s then obj else s) }, none)
    else (t, some ("storages \"" ++ obj.ObjectMeta.Name ++ "\" already exists"))
  else if replaceExisting then (t, some (notFound obj.ObjectMeta.Name))
  else ({ objects := t.objects ++ [obj] }, none)

/-- Modelled from the spec: tracker `Delete`: the stored object of that
namespace and name is removed; a name that is not stored is an error. -/
def Tracker.Delete (t : Tracker) (ns name : String) : Tracker × Option Error :=
  if t.objects.any (sameKey ns name) then
    ({ objects := t.objects.eraseP (sameKey ns name) }, none)
  else (t, some (notFound name))

/-- Modelled from the spec: what `Create` and `Update` answer: the error of
`add`, or the object as stored. -/
def Tracker.addAndGet (t : Tracker) (object : Option Storage) (ns : String)
    (replaceExisting : Bool) : Tracker × Bool × Option Object × Option Error :=
  match object with
  | none => (t, true, none, some "object does not implement the Object interfaces")
  | some obj =>
    match t.add obj ns replaceExisting with
    | (t2, some e) => (t2, true, none, some e)
    | (t2, none) =>
      match t2.Get ns obj.ObjectMeta.Name with
      | (o, e) => (t2, true, o.map Object.storage, e)

/-- Modelled from the spec: the reaction of the object tracker to the actions
of the fake client: get, list, create, update (also of a subresource) and
delete act on the store; no other action is handled. -/
def ObjectReaction : Reactor Tracker :=
  { Handles := fun _ => true
    React := fun t a =>
      match a with
      | Action.list _ _ ns _ => (t, true, some (Object.storageList (t.List ns)), none)
      | Action.get _ ns name =>
        match t.Get ns name with
        | (o, e) => (t, true, o.map Object.storage, e)
      | Action.create _ ns object => t.addAndGet object ns false
      | Action.update _ ns object => t.addAndGet object ns true
      | Action.updateSubresource _ _ ns object => t.addAndGet object ns true
      | Action.delete _ ns name =>
        match t.Delete ns name with
        | (t2, e) => (t2, true, none, e)
      | _ => (t, false, none, some "no reaction implemented") }

/-- Modelled from the spec: a fake client over the object tracker: its
reaction chain is the reaction of the tracker, and the store holds at most
one object for a namespace and name. -/
def OverTracker (c : FakeStorages Tracker) : Prop :=
  c.Fake.ReactionChain = [ObjectReaction] ∧
    (c.Fake.state.objects.map (fun s => (s.ObjectMeta.Namespace, s.ObjectMeta.Name))).Nodup

/-- An action that cannot store an object of the given name: anything but a
create of an object of that name. -/
def keepsAbsent (name : String) : Action → Bool
  | Action.create _ _ (some obj) => obj.ObjectMeta.Name != name
  | _ => true

/-- Client `c2` is reached from `c` by further invocations, none of which
creates an object named `name`. -/
inductive Later (name : String) (c : FakeStorages Tracker) : FakeStorages Tracker → Prop where
  | now : Later name c c
  | step (c1 : FakeStorages Tracker) (a : Action) (d : Object) :
      Later name c c1 → keepsAbsent name a = true →
      Later name c { c1 with Fake := (c1.Fake.Invokes a d).1 }

/-- A sample client over a tracker that stores two objects. -/
def sampleTrackerClient : FakeStorages Tracker :=
  { Fake :=
      { actions := []
        state := { objects := [sampleStorage "one" "a", sampleStorage "two" "b"] }
        ReactionChain := [ObjectReaction] }
    ns := "ns" }

/-- A sample `Storage` named `one` without a namespace. -/
def sampleStorageNoNamespace : Storage :=
  { Storage.zero with
    ObjectMeta := { Storage.zero.ObjectMeta with Name := "one", Namespace := "" } }

/-- A sample client with the empty namespace, over a tracker that stores an
object named `one` without a namespace and an object named `one` in namespace
`ns`. -/
def sampleNoNamespaceClient : FakeStorages Tracker :=
  { Fake :=
      { actions := []
        state := { objects := [sampleStorageNoNamespace, sampleStorage "one" "a"] }
        ReactionChain := [ObjectReaction] }
    ns := "" }

/-- List options with the given label selector and nothing else. -/
def labelOptions (selector : String) : ListOptions :=
  { LabelSelector := selector, FieldSelector := "", ResourceVersion := "" }

/-- A sample `GCS` for heap `sampleHeap`: every optional reference is set. -/
def sampleGCS : GCS :=
  { GCS.zero with
    TypeMeta := { Kind := "GCS", APIVersion := "events.cloud.google.com/v1alpha1" }
    ObjectMeta :=
      { GCS.zero.ObjectMeta with
        Name := "src", Namespace := "ns", Generation := 1
        Labels := some 4, Finalizers := some { arr := 0, off := 1, len := 1 } }
    Spec :=
      { GCS.zero.Spec with
        GCSCredsSecret := { Name := "creds", Key := "key.json", Optional := some 2 }
        GcpCredsSecret := some 3
        Bucket := "bucket"
        EventTypes := some { arr := 0, off := 0, len := 2 }
        CustomAttributes := some 1 }
    Status :=
      { GCS.zero.Status with
        Status := { ObservedGeneration := 1, Conditions := some { arr := 5, off := 0, len := 1 } }
        Topic := "t1" } }

/-- A sample heap: a string array, two maps, a flag, a secret, a condition
array and an array of two `GCS` (`sampleGCS` and the zero value). -/
def sampleHeap : Heap :=
  [ Cell.strs ["finalize", "archive"],
    Cell.smap [("team", "a"), ("env", "test")],
    Cell.flag true,
    Cell.secret { Name := "poll", Key := "key.json", Optional := none },
    Cell.smap [],
    Cell.conds [{ Condition.zero with Type_ := "Ready", Status := "True" }],
    Cell.gcss [sampleGCS, GCS.zero] ]

/-- A sample `GCSList` over `sampleHeap`. -/
def sampleList : GCSList :=
  { TypeMeta := { Kind := "GCSList", APIVersion := "events.cloud.google.com/v1alpha1" }
    ListMeta := { SelfLink := "", ResourceVersion := "7", Continue := "" }
    Items := some { arr := 6, off := 0, len := 2 } }

/-- Value of a well-formed `GCSSpec` in heap `h`. -/
def GCSSpec.val (h : Heap) (s : GCSSpec) : Option GCSSpecVal :=
  GCSSpec.valIn 0 h.length h s

/-- Value of a well-formed `GCSStatus` in heap `h`. -/
def GCSStatus.val (h : Heap) (s : GCSStatus) : Option GCSStatusVal :=
  GCSStatus.valIn 0 h.length h s

/-- A sample heap of empty objects: an empty string array, an empty map, an
empty condition array and an empty `GCS` array. -/
def emptiesHeap : Heap :=
  [Cell.strs [], Cell.smap [], Cell.conds [], Cell.gcss []]

/-- A sample `GCS` over `emptiesHeap`: `GcpCredsSecret` is nil, `EventTypes`,
`CustomAttributes` and the conditions are non-nil and empty. -/
def emptiesGCS : GCS :=
  { GCS.zero with
    Spec :=
      { GCS.zero.Spec with
        GcpCredsSecret := none
        EventTypes := some { arr := 0, off := 0, len := 0 }
        CustomAttributes := some 1 }
    Status :=
      { GCS.zero.Status with
        Status := { ObservedGeneration := 0, Conditions := some { arr := 2, off := 0, len := 0 } } } }

/-- A sample `GCSList` over `emptiesHeap` whose `Items` is non-nil and empty. -/
def emptiesList : GCSList :=
  { TypeMeta := { Kind := "", APIVersion := "" }
    ListMeta := { SelfLink := "", ResourceVersion := "", Continue := "" }
    Items := some { arr := 3, off := 0, len := 0 } }

/-- A write through one of the references of a resource `r`:
`r.Spec.EventTypes[i] = x`, `r.Spec.CustomAttributes[k] = v` (insert or
change), `delete(r.Spec.CustomAttributes, k)`, `*r.Spec.GcpCredsSecret = s`,
`*r.Spec.GcpCredsSecret.Optional = b`. -/
inductive Mutation where
  | setEventType (i : Nat) (x : String)
  | setAttribute (k v : String)
  | deleteAttribute (k : String)
  | setGcpCredsSecret (s : SecretKeySelector)
  | setGcpCredsOptional (b : Bool)
deriving DecidableEq, Repr

/-- Effect of a mutation through resource `r` on the heap; `none` is a Go
panic (index out of range, assignment to an entry of a nil map, nil
dereference). `delete` on a nil map does nothing. -/
def mutate (h : Heap) (r : GCS) : Mutation → Option Heap
  | .setEventType i x =>
    match r.Spec.EventTypes with
    | none => none
    | some s => storeElem Cell.asStrs Cell.strs h s i x
  | .setAttribute k v =>
    match r.Spec.CustomAttributes with
    | none => none
    | some p => load Cell.asMap h p >>= fun m => store h p (Cell.smap (mapInsert m k v))
  | .deleteAttribute k =>
    match r.Spec.CustomAttributes with
    | none => some h
    | some p => load Cell.asMap h p >>= fun m => store h p (Cell.smap (mapDelete m k))
  | .setGcpCredsSecret s =>
    match r.Spec.GcpCredsSecret with
    | none => none
    | some p => load Cell.asSecret h p >>= fun _ => store h p (Cell.secret s)
  | .setGcpCredsOptional b =>
    match r.Spec.GcpCredsSecret with
    | none => none
    | some p =>
      load Cell.asSecret h p >>= fun s =>
        match s.Optional with
        | none => none
        | some q => load Cell.asFlag h q >>= fun _ => store h q (Cell.flag b)

/-- What a copy routine owes: run in heap `h` on a reference of value `v`, it
returns, leaves every cell of `h` as it was, and its result has value `v`
using only cells allocated by the call. -/
def CopySpec {T V : Type} (valIn : Nat → Nat → Heap → T → Option V) (h : Heap) (v : V)
    (r : Option (Heap × T)) : Prop :=
  ∃ h2 y, r = some (h2, y) ∧ h.length ≤ h2.length ∧ Agree 0 h.length h h2 ∧
    valIn h.length h2.length h2 y = some v

/-- A value function is stable: a value read from cells in `[lo, hi)` is read
again from any heap with the same cells there, in any wider range. -/
def Transports {T V : Type} (F : Nat → Nat → Heap → T → Option V) : Prop :=
  ∀ (lo hi lo2 hi2 : Nat) (h h2 : Heap) (x : T) (v : V),
    F lo hi h x = some v → Agree lo hi h h2 → lo2 ≤ lo → hi ≤ hi2 → F lo2 hi2 h2 x = some v

/-- Heap `h2` extends `h`: it is at least as large and has the cells of `h`
unchanged. -/
def Ext (h h2 : Heap) : Prop :=
  h.length ≤ h2.length ∧ Agree 0 h.length h h2

/-! # Theorems -/

/-! ## Heap primitives -/

theorem agree_refl (lo hi : Nat) (h : Heap) : Agree lo hi h h :=
  fun _ _ _ => rfl

theorem agree_trans {lo hi : Nat} {h1 h2 h3 : Heap} (a : Agree lo hi h1 h2)
    (b : Agree lo hi h2 h3) : Agree lo hi h1 h3 :=
  fun p h1p h2p => (b p h1p h2p).trans (a p h1p h2p)

theorem agree_sub {lo hi lo2 hi2 : Nat} {h1 h2 : Heap} (a : Agree lo hi h1 h2)
    (hlo : lo ≤ lo2) (hhi : hi2 ≤ hi) : Agree lo2 hi2 h1 h2 :=
  fun p h1p h2p => a p (le_trans hlo h1p) (lt_of_lt_of_le h2p hhi)

theorem agree_alloc (lo : Nat) (h : Heap) (c : Cell) : Agree lo h.length h (alloc h c).1 := by
  intro p _ hp
  simp [alloc, List.getElem?_append_left hp]

theorem agree_store {h h2 : Heap} {p : Nat} {c : Cell} (hs : store h p c = some h2)
    (lo hi : Nat) (hout : p < lo ∨ hi ≤ p) : Agree lo hi h h2 := by
  intro q hq1 hq2
  unfold store at hs
  split at hs
  · cases hs
    have : p ≠ q := by omega
    simp [List.getElem?_set, this]
  · cases hs

theorem store_length {h h2 : Heap} {p : Nat} {c : Cell} (hs : store h p c = some h2) :
    h2.length = h.length := by
  unfold store at hs
  split at hs
  · cases hs; simp
  · cases hs

theorem loadIn_agree {α : Type} {lo hi : Nat} {h h2 : Heap} (a : Agree lo hi h h2)
    (proj : Cell → Option α) (p : Nat) : loadIn lo hi proj h2 p = loadIn lo hi proj h p := by
  unfold loadIn
  split
  · rename_i hp
    simp [load, a p hp.1 hp.2]
  · rfl

theorem loadIn_mono {α : Type} {lo hi lo2 hi2 : Nat} {h : Heap} {proj : Cell → Option α}
    {p : Nat} {v : α} (hv : loadIn lo hi proj h p = some v) (hlo : lo2 ≤ lo) (hhi : hi ≤ hi2) :
    loadIn lo2 hi2 proj h p = some v := by
  unfold loadIn at hv ⊢
  split at hv
  · rename_i hp
    rw [if_pos ⟨le_trans hlo hp.1, lt_of_lt_of_le hp.2 hhi⟩]
    exact hv
  · cases hv

theorem loadIn_lt {α : Type} {lo hi : Nat} {h : Heap} {proj : Cell → Option α}
    {p : Nat} {v : α} (hv : loadIn lo hi proj h p = some v) :
    lo ≤ p ∧ p < hi ∧ p < h.length ∧ load proj h p = some v := by
  unfold loadIn at hv
  split at hv
  · rename_i hp
    refine ⟨hp.1, hp.2, ?_, hv⟩
    by_contra hge
    simp [load, List.getElem?_eq_none (Nat.le_of_not_lt hge)] at hv
  · cases hv

theorem load_alloc_old {α : Type} (proj : Cell → Option α) (h : Heap) (c : Cell) {p : Nat}
    (hp : p < h.length) : load proj (h ++ [c]) p = load proj h p := by
  simp [load, List.getElem?_append_left hp]

theorem store_alloc (h : Heap) (c c2 : Cell) :
    store (h ++ [c]) h.length c2 = some (h ++ [c2]) := by
  simp [store]

theorem load_new {α : Type} (proj : Cell → Option α) (h : Heap) (c : Cell) :
    load proj (h ++ [c]) h.length = proj c := by
  simp [load]

theorem agree_append (lo : Nat) (h : Heap) (e : List Cell) :
    Agree lo h.length h (h ++ e) := by
  intro p _ hp
  simp [List.getElem?_append_left hp]

theorem window_length {α : Type} {s : Slice} {a v : List α} (hw : window s a = some v) :
    v.length = s.len := by
  unfold window at hw
  split at hw
  · cases hw
    simp
    omega
  · cases hw

theorem goCopy_replicate {α : Type} (zero : α) (v : List α) :
    goCopy (List.replicate v.length zero) v = v := by
  simp [goCopy]

theorem window_fresh {α : Type} (q : Nat) (v : List α) :
    window { arr := q, off := 0, len := v.length } v = some v := by
  simp [window]

theorem optVal_congr {P V : Type} {f g : P → Option V} (hfg : ∀ p, g p = f p)
    (o : Option P) : optVal g o = optVal f o := by
  cases o <;> simp [optVal, hfg]

theorem optVal_mono {P V : Type} {f g : P → Option V}
    (hfg : ∀ p v, f p = some v → g p = some v) {o : Option P} {v : Option V}
    (hv : optVal f o = some v) : optVal g o = some v := by
  cases o with
  | none => simpa [optVal] using hv
  | some p =>
    cases hf : f p with
    | none => simp [optVal, hf] at hv
    | some a =>
      simp only [optVal, hf, Option.map_some', Option.some.injEq] at hv
      subst hv
      simp [optVal, hfg p a hf]

theorem copyBox_spec {α : Type} (proj : Cell → Option α) (inj : α → Cell)
    (hinj : ∀ x, proj (inj x) = some x) (zero : α) (h : Heap) (p : Nat) (v : α)
    (hv : loadIn 0 h.length proj h p = some v) :
    CopySpec (fun lo hi h => loadIn lo hi proj h) h v (copyBox proj inj zero h p) := by
  obtain ⟨_, hp, _, hl⟩ := loadIn_lt hv
  refine ⟨h ++ [inj v], h.length, ?_, by simp, agree_append 0 h _, ?_⟩
  · simp only [copyBox, alloc]
    rw [load_alloc_old proj h _ hp, hl]
    simp [store_alloc]
  · simp [loadIn, load_new, hinj]

theorem copySlice_spec {α : Type} (proj : Cell → Option (List α)) (inj : List α → Cell)
    (hinj : ∀ x, proj (inj x) = some x) (zero : α) (h : Heap) (s : Slice) (v : List α)
    (hv : sliceIn 0 h.length proj h s = some v) :
    CopySpec (fun lo hi h => sliceIn lo hi proj h) h v (copySlice proj inj zero h s) := by
  simp only [sliceIn, Option.bind_eq_bind, Option.bind_eq_some] at hv
  obtain ⟨a, ha, hw⟩ := hv
  obtain ⟨_, hp, _, hl⟩ := loadIn_lt ha
  have hlen := window_length hw
  refine ⟨h ++ [inj v], { arr := h.length, off := 0, len := s.len }, ?_, by simp,
    agree_append 0 h _, ?_⟩
  · simp only [copySlice, loadSlice, alloc]
    rw [load_alloc_old proj h _ hp, hl]
    simp only [Option.bind_eq_bind, Option.some_bind, hw, store_alloc]
    rw [← hlen, goCopy_replicate]
  · simp only [sliceIn, loadIn, load_new, hinj]
    rw [← hlen]
    simp [window_fresh]

theorem mapInsert_fresh (m : List (String × String)) (k v : String)
    (hk : k ∉ m.map Prod.fst) : mapInsert m k v = m ++ [(k, v)] := by
  induction m with
  | nil => rfl
  | cons e rest ih =>
    obtain ⟨k1, v1⟩ := e
    simp only [List.map_cons, List.mem_cons, not_or] at hk
    have hne : ¬ k1 = k := fun heq => hk.1 heq.symm
    simp [mapInsert, hne, ih hk.2]

theorem foldl_mapInsert (l acc : List (String × String))
    (hn : ((acc ++ l).map Prod.fst).Nodup) :
    l.foldl (fun m kv => mapInsert m kv.1 kv.2) acc = acc ++ l := by
  induction l generalizing acc with
  | nil => simp
  | cons e rest ih =>
    have hk : e.1 ∉ acc.map Prod.fst := by
      intro hmem
      rw [List.map_append, List.map_cons] at hn
      have hd := (List.nodup_append.mp hn).2.2
      exact hd hmem (List.mem_cons_self _ _)
    simp only [List.foldl_cons]
    rw [mapInsert_fresh acc e.1 e.2 hk]
    have hn2 : (((acc ++ [(e.1, e.2)]) ++ rest).map Prod.fst).Nodup := by
      simpa using hn
    simpa using ih (acc ++ [(e.1, e.2)]) hn2

theorem copyMap_spec (h : Heap) (p : Nat) (v : List (String × String))
    (hv : mapIn 0 h.length h p = some v) : CopySpec mapIn h v (copyMap h p) := by
  simp only [mapIn, Option.bind_eq_bind, Option.bind_eq_some] at hv
  obtain ⟨a, ha, hnd⟩ := hv
  obtain ⟨_, hp, _, hl⟩ := loadIn_lt ha
  split at hnd
  · rename_i hnodup
    cases hnd
    have hfold := foldl_mapInsert v [] (by simpa using hnodup)
    refine ⟨h ++ [Cell.smap v], h.length, ?_, by simp, agree_append 0 h _, ?_⟩
    · simp only [copyMap, alloc]
      rw [load_alloc_old Cell.asMap h _ hp, hl]
      simp [store_alloc, hfold]
    · simp [mapIn, loadIn, load_new, Cell.asMap, hnodup]
  · cases hnd

theorem copyOpt_spec {P V : Type} (valIn : Nat → Nat → Heap → P → Option V)
    (f : Heap → P → Option (Heap × P)) (h : Heap)
    (hf : ∀ p v, valIn 0 h.length h p = some v → CopySpec valIn h v (f h p))
    (o : Option P) (v : Option V) (hv : optVal (valIn 0 h.length h) o = some v) :
    CopySpec (fun lo hi h => optVal (valIn lo hi h)) h v (copyOpt f h o) := by
  cases o with
  | none =>
    simp only [optVal, Option.some.injEq] at hv
    subst hv
    exact ⟨h, none, rfl, le_refl _, agree_refl _ _ _, rfl⟩
  | some p =>
    cases hp : valIn 0 h.length h p with
    | none => simp [optVal, hp] at hv
    | some a =>
      simp only [optVal, hp, Option.map_some', Option.some.injEq] at hv
      subst hv
      obtain ⟨h2, y, hr, hlen, hag, hval⟩ := hf p a hp
      exact ⟨h2, some y, by simp [copyOpt, hr], hlen, hag, by simp [optVal, hval]⟩

theorem sliceIn_agree {α : Type} {lo hi : Nat} {h h2 : Heap} (a : Agree lo hi h h2)
    (proj : Cell → Option (List α)) (s : Slice) :
    sliceIn lo hi proj h2 s = sliceIn lo hi proj h s := by
  simp [sliceIn, loadIn_agree a]

theorem sliceIn_mono {α : Type} {lo hi lo2 hi2 : Nat} {h : Heap}
    {proj : Cell → Option (List α)} {s : Slice} {v : List α}
    (hv : sliceIn lo hi proj h s = some v) (hlo : lo2 ≤ lo) (hhi : hi ≤ hi2) :
    sliceIn lo2 hi2 proj h s = some v := by
  simp only [sliceIn, Option.bind_eq_bind, Option.bind_eq_some] at hv ⊢
  obtain ⟨a, ha, hw⟩ := hv
  exact ⟨a, loadIn_mono ha hlo hhi, hw⟩

theorem mapIn_agree {lo hi : Nat} {h h2 : Heap} (a : Agree lo hi h h2) (p : Nat) :
    mapIn lo hi h2 p = mapIn lo hi h p := by
  simp [mapIn, loadIn_agree a]

theorem mapIn_mono {lo hi lo2 hi2 : Nat} {h : Heap} {p : Nat} {v : List (String × String)}
    (hv : mapIn lo hi h p = some v) (hlo : lo2 ≤ lo) (hhi : hi ≤ hi2) :
    mapIn lo2 hi2 h p = some v := by
  simp only [mapIn, Option.bind_eq_bind, Option.bind_eq_some] at hv ⊢
  obtain ⟨a, ha, hw⟩ := hv
  exact ⟨a, loadIn_mono ha hlo hhi, hw⟩

theorem transports_loadIn {α : Type} (proj : Cell → Option α) :
    Transports (fun lo hi h => loadIn lo hi proj h) := by
  intro lo hi lo2 hi2 h h2 x v hv hag hlo hhi
  beta_reduce at hv ⊢
  rw [← loadIn_agree hag] at hv
  exact loadIn_mono hv hlo hhi

theorem transports_sliceIn {α : Type} (proj : Cell → Option (List α)) :
    Transports (fun lo hi h => sliceIn lo hi proj h) := by
  intro lo hi lo2 hi2 h h2 x v hv hag hlo hhi
  beta_reduce at hv ⊢
  rw [← sliceIn_agree hag] at hv
  exact sliceIn_mono hv hlo hhi

theorem transports_mapIn : Transports mapIn := by
  intro lo hi lo2 hi2 h h2 x v hv hag hlo hhi
  rw [← mapIn_agree hag] at hv
  exact mapIn_mono hv hlo hhi

theorem transports_opt {P V : Type} {F : Nat → Nat → Heap → P → Option V}
    (tF : Transports F) : Transports (fun lo hi h => optVal (F lo hi h)) := by
  intro lo hi lo2 hi2 h h2 x v hv hag hlo hhi
  exact optVal_mono (fun p w hw => tF lo hi lo2 hi2 h h2 p w hw hag hlo hhi) hv

theorem map_eq_some_imp {α β : Type} {f : α → β} {x : Option α} {b : β}
    (hx : x.map f = some b) : ∃ a, x = some a ∧ f a = b := by
  cases x with
  | none => simp at hx
  | some a => exact ⟨a, rfl, by simpa using hx⟩

theorem transports_secret : Transports SecretKeySelector.valIn := by
  intro lo hi lo2 hi2 h h2 x v hv hag hlo hhi
  obtain ⟨o, ho, rfl⟩ := map_eq_some_imp hv
  have ho2 := transports_opt (transports_loadIn Cell.asFlag) lo hi lo2 hi2 h h2 _ _ ho hag hlo hhi
  beta_reduce at ho2
  simp only [SecretKeySelector.valIn]
  rw [ho2]
  rfl

theorem transports_secretPtr : Transports secretPtrIn := by
  intro lo hi lo2 hi2 h h2 x v hv hag hlo hhi
  simp only [secretPtrIn, Option.bind_eq_bind, Option.bind_eq_some] at hv ⊢
  obtain ⟨s, hs, hsv⟩ := hv
  exact ⟨s, transports_loadIn Cell.asSecret lo hi lo2 hi2 h h2 _ _ hs hag hlo hhi,
    transports_secret lo hi lo2 hi2 h h2 _ _ hsv hag hlo hhi⟩

theorem secretCopy_spec (h : Heap) (s : SecretKeySelector) (v : SecretVal)
    (hv : SecretKeySelector.valIn 0 h.length h s = some v) :
    CopySpec SecretKeySelector.valIn h v (SecretKeySelector.DeepCopyInto h s) := by
  obtain ⟨o, ho, rfl⟩ := map_eq_some_imp hv
  obtain ⟨h1, y1, hr1, hlen1, hag1, hval1⟩ :=
    copyOpt_spec (fun lo hi h => loadIn lo hi Cell.asFlag h)
      (copyBox Cell.asFlag Cell.flag false) h
      (fun p w hw => copyBox_spec Cell.asFlag Cell.flag (fun _ => rfl) false h p w hw)
      s.Optional o ho
  beta_reduce at hval1
  refine ⟨h1, { s with Optional := y1 }, ?_, hlen1, hag1, ?_⟩
  · simp [SecretKeySelector.DeepCopyInto, hr1]
  · simp only [SecretKeySelector.valIn]
    rw [hval1]
    rfl

theorem copySecretPtr_spec (h : Heap) (p : Nat) (v : SecretVal)
    (hv : secretPtrIn 0 h.length h p = some v) :
    CopySpec secretPtrIn h v (copySecretPtr h p) := by
  simp only [secretPtrIn, Option.bind_eq_bind, Option.bind_eq_some] at hv
  obtain ⟨s, hs, hsv⟩ := hv
  obtain ⟨_, hp, _, hl⟩ := loadIn_lt hs
  let z : Cell := Cell.secret { Name := "", Key := "", Optional := none }
  have hsv1 : SecretKeySelector.valIn 0 (h ++ [z]).length (h ++ [z]) s = some v :=
    transports_secret 0 h.length 0 _ h _ s v hsv (agree_append 0 h _) (le_refl _) (by simp)
  obtain ⟨h2, y, hr, hlen, hag, hval⟩ := secretCopy_spec (h ++ [z]) s v hsv1
  have hq : h.length < h2.length := by
    have : (h ++ [z]).length = h.length + 1 := by simp
    omega
  have hst : store h2 h.length (Cell.secret y) = some (h2.set h.length (Cell.secret y)) := by
    simp [store, hq]
  refine ⟨h2.set h.length (Cell.secret y), h.length, ?_, by simp; omega, ?_, ?_⟩
  · simp only [copySecretPtr, alloc]
    rw [load_alloc_old Cell.asSecret h _ hp, hl]
    simp [hr, hst]
  · exact agree_trans (agree_trans (agree_append 0 h [z])
      (agree_sub hag (le_refl _) (by simp))) (agree_store hst 0 h.length (Or.inr (le_refl _)))
  · have hy : SecretKeySelector.valIn h.length (h2.set h.length (Cell.secret y)).length
        (h2.set h.length (Cell.secret y)) y = some v :=
      transports_secret _ _ _ _ h2 _ y v hval
        (agree_store hst _ _ (Or.inl (by simp))) (by simp) (by simp)
    simp only [List.length_set] at hy
    simp only [secretPtrIn, loadIn, load]
    simp [hq, Cell.asSecret, hy]

theorem Ext.refl (h : Heap) : Ext h h :=
  ⟨le_refl _, agree_refl _ _ _⟩

theorem Ext.trans {h1 h2 h3 : Heap} (a : Ext h1 h2) (b : Ext h2 h3) : Ext h1 h3 :=
  ⟨le_trans a.1 b.1, agree_trans a.2 (agree_sub b.2 (le_refl _) a.1)⟩

/-- An input of the caller keeps its value in an extended heap. -/
theorem Transports.input {T V : Type} {F : Nat → Nat → Heap → T → Option V}
    (tF : Transports F) {h h2 : Heap} {x : T} {v : V} (hv : F 0 h.length h x = some v)
    (e : Ext h h2) : F 0 h2.length h2 x = some v :=
  tF 0 h.length 0 h2.length h h2 x v hv e.2 (le_refl _) e.1

/-- A freshly built result keeps its value, and stays fresh for an earlier
heap, in an extended heap. -/
theorem Transports.output {T V : Type} {F : Nat → Nat → Heap → T → Option V}
    (tF : Transports F) {h0 h1 h2 h3 : Heap} {y : T} {v : V}
    (hv : F h1.length h2.length h2 y = some v) (e01 : Ext h0 h1) (e23 : Ext h2 h3) :
    F h0.length h3.length h3 y = some v :=
  tF h1.length h2.length h0.length h3.length h2 h3 y v hv
    (agree_sub e23.2 (Nat.zero_le _) (le_refl _)) e01.1 e23.1

theorem transports_objectMeta : Transports ObjectMeta.valIn := by
  intro lo hi lo2 hi2 h h2 x v hv hag hlo hhi
  simp only [ObjectMeta.valIn, Option.bind_eq_bind, Option.bind_eq_some,
    Option.some.injEq] at hv
  obtain ⟨dt, hdt, dg, hdg, lb, hlb, an, han, fz, hfz, rfl⟩ := hv
  have w1 := transports_opt (transports_loadIn Cell.asTime) lo hi lo2 hi2 h h2 _ _ hdt hag hlo hhi
  have w2 := transports_opt (transports_loadIn Cell.asInt64) lo hi lo2 hi2 h h2 _ _ hdg hag hlo hhi
  have w3 := transports_opt transports_mapIn lo hi lo2 hi2 h h2 _ _ hlb hag hlo hhi
  have w4 := transports_opt transports_mapIn lo hi lo2 hi2 h h2 _ _ han hag hlo hhi
  have w5 := transports_opt (transports_sliceIn Cell.asStrs) lo hi lo2 hi2 h h2 _ _ hfz hag hlo hhi
  beta_reduce at w1 w2 w3 w4 w5
  simp [ObjectMeta.valIn, w1, w2, w3, w4, w5]

theorem objectMetaCopy_spec (h : Heap) (m : ObjectMeta) (v : ObjectMetaVal)
    (hv : ObjectMeta.valIn 0 h.length h m = some v) :
    CopySpec ObjectMeta.valIn h v (ObjectMeta.DeepCopyInto h m) := by
  simp only [ObjectMeta.valIn, Option.bind_eq_bind, Option.bind_eq_some,
    Option.some.injEq] at hv
  obtain ⟨dt, hdt, dg, hdg, lb, hlb, an, han, fz, hfz, rfl⟩ := hv
  have tT := transports_opt (transports_loadIn Cell.asTime)
  have tI := transports_opt (transports_loadIn Cell.asInt64)
  have tM := transports_opt transports_mapIn
  have tS := transports_opt (transports_sliceIn Cell.asStrs)
  obtain ⟨h1, y1, hr1, hl1, ha1, hv1⟩ :=
    copyOpt_spec (fun lo hi h => loadIn lo hi Cell.asTime h) (copyBox Cell.asTime Cell.time 0) h
      (fun p w hw => copyBox_spec Cell.asTime Cell.time (fun _ => rfl) 0 h p w hw) _ dt hdt
  have e1 : Ext h h1 := ⟨hl1, ha1⟩
  obtain ⟨h2, y2, hr2, hl2, ha2, hv2⟩ :=
    copyOpt_spec (fun lo hi h => loadIn lo hi Cell.asInt64 h)
      (copyBox Cell.asInt64 Cell.int64 0) h1
      (fun p w hw => copyBox_spec Cell.asInt64 Cell.int64 (fun _ => rfl) 0 h1 p w hw) _ dg
      (tI.input hdg e1)
  have e2 : Ext h1 h2 := ⟨hl2, ha2⟩
  obtain ⟨h3, y3, hr3, hl3, ha3, hv3⟩ :=
    copyOpt_spec mapIn copyMap h2 (fun p w hw => copyMap_spec h2 p w hw) _ lb
      (tM.input hlb (e1.trans e2))
  have e3 : Ext h2 h3 := ⟨hl3, ha3⟩
  obtain ⟨h4, y4, hr4, hl4, ha4, hv4⟩ :=
    copyOpt_spec mapIn copyMap h3 (fun p w hw => copyMap_spec h3 p w hw) _ an
      (tM.input han ((e1.trans e2).trans e3))
  have e4 : Ext h3 h4 := ⟨hl4, ha4⟩
  obtain ⟨h5, y5, hr5, hl5, ha5, hv5⟩ :=
    copyOpt_spec (fun lo hi h => sliceIn lo hi Cell.asStrs h)
      (copySlice Cell.asStrs Cell.strs "") h4
      (fun p w hw => copySlice_spec Cell.asStrs Cell.strs (fun _ => rfl) "" h4 p w hw) _ fz
      (tS.input hfz (((e1.trans e2).trans e3).trans e4))
  have e5 : Ext h4 h5 := ⟨hl5, ha5⟩
  have w1 := tT.output hv1 (Ext.refl h) (((e2.trans e3).trans e4).trans e5)
  have w2 := tI.output hv2 e1 ((e3.trans e4).trans e5)
  have w3 := tM.output hv3 (e1.trans e2) (e4.trans e5)
  have w4 := tM.output hv4 ((e1.trans e2).trans e3) e5
  have w5 := tS.output hv5 (((e1.trans e2).trans e3).trans e4) (Ext.refl h5)
  beta_reduce at w1 w2 w3 w4 w5
  have eAll := (((e1.trans e2).trans e3).trans e4).trans e5
  refine ⟨h5,
    { m with
      DeletionTimestamp := y1
      DeletionGracePeriodSeconds := y2
      Labels := y3
      Annotations := y4
      Finalizers := y5 }, ?_, eAll.1, eAll.2, ?_⟩
  · simp only [ObjectMeta.DeepCopyInto, hr1, hr2, hr3, hr4, hr5, Option.bind_eq_bind,
      Option.some_bind]
  · simp [ObjectMeta.valIn, w1, w2, w3, w4, w5]

theorem transports_status : Transports Status.valIn := by
  intro lo hi lo2 hi2 h h2 x v hv hag hlo hhi
  obtain ⟨cs, hcs, rfl⟩ := map_eq_some_imp hv
  have w1 := transports_opt (transports_sliceIn Cell.asConds) lo hi lo2 hi2 h h2 _ _ hcs
    hag hlo hhi
  beta_reduce at w1
  simp [Status.valIn, w1]

theorem statusCopy_spec (h : Heap) (s : Status) (v : StatusVal)
    (hv : Status.valIn 0 h.length h s = some v) :
    CopySpec Status.valIn h v (Status.DeepCopyInto h s) := by
  obtain ⟨cs, hcs, rfl⟩ := map_eq_some_imp hv
  obtain ⟨h1, y1, hr1, hl1, ha1, hv1⟩ :=
    copyOpt_spec (fun lo hi h => sliceIn lo hi Cell.asConds h)
      (copySlice Cell.asConds Cell.conds Condition.zero) h
      (fun p w hw =>
        copySlice_spec Cell.asConds Cell.conds (fun _ => rfl) Condition.zero h p w hw)
      _ cs hcs
  beta_reduce at hv1
  refine ⟨h1, { s with Conditions := y1 }, ?_, hl1, ha1, ?_⟩
  · simp [Status.DeepCopyInto, hr1]
  · simp [Status.valIn, hv1]

theorem transports_gcsStatus : Transports GCSStatus.valIn := by
  intro lo hi lo2 hi2 h h2 x v hv hag hlo hhi
  obtain ⟨st, hst, rfl⟩ := map_eq_some_imp hv
  have w1 := transports_status lo hi lo2 hi2 h h2 _ _ hst hag hlo hhi
  simp [GCSStatus.valIn, w1]

theorem gcsStatusCopy_spec (h : Heap) (s : GCSStatus) (v : GCSStatusVal)
    (hv : GCSStatus.valIn 0 h.length h s = some v) :
    CopySpec GCSStatus.valIn h v (GCSStatus.DeepCopyInto h s) := by
  obtain ⟨st, hst, rfl⟩ := map_eq_some_imp hv
  obtain ⟨h1, y1, hr1, hl1, ha1, hv1⟩ := statusCopy_spec h s.Status st hst
  refine ⟨h1, { s with Status := y1 }, ?_, hl1, ha1, ?_⟩
  · simp [GCSStatus.DeepCopyInto, hr1]
  · simp [GCSStatus.valIn, hv1]

theorem transports_gcsSpec : Transports GCSSpec.valIn := by
  intro lo hi lo2 hi2 h h2 x v hv hag hlo hhi
  simp only [GCSSpec.valIn, Option.bind_eq_bind, Option.bind_eq_some,
    Option.some.injEq] at hv
  obtain ⟨c, hc, g, hg, e, he, a, ha, rfl⟩ := hv
  have w1 := transports_secret lo hi lo2 hi2 h h2 _ _ hc hag hlo hhi
  have w2 := transports_opt transports_secretPtr lo hi lo2 hi2 h h2 _ _ hg hag hlo hhi
  have w3 := transports_opt (transports_sliceIn Cell.asStrs) lo hi lo2 hi2 h h2 _ _ he
    hag hlo hhi
  have w4 := transports_opt transports_mapIn lo hi lo2 hi2 h h2 _ _ ha hag hlo hhi
  beta_reduce at w2 w3 w4
  simp [GCSSpec.valIn, w1, w2, w3, w4]

theorem gcsSpecCopy_spec (h : Heap) (s : GCSSpec) (v : GCSSpecVal)
    (hv : GCSSpec.valIn 0 h.length h s = some v) :
    CopySpec GCSSpec.valIn h v (GCSSpec.DeepCopyInto h s) := by
  simp only [GCSSpec.valIn, Option.bind_eq_bind, Option.bind_eq_some,
    Option.some.injEq] at hv
  obtain ⟨c, hc, g, hg, e, he, a, ha, rfl⟩ := hv
  have tC := transports_secret
  have tG := transports_opt transports_secretPtr
  have tM := transports_opt transports_mapIn
  have tS := transports_opt (transports_sliceIn Cell.asStrs)
  obtain ⟨h1, y1, hr1, hl1, ha1, hv1⟩ := secretCopy_spec h s.GCSCredsSecret c hc
  have e1 : Ext h h1 := ⟨hl1, ha1⟩
  obtain ⟨h2, y2, hr2, hl2, ha2, hv2⟩ :=
    copyOpt_spec secretPtrIn copySecretPtr h1 (fun p w hw => copySecretPtr_spec h1 p w hw) _ g
      (tG.input hg e1)
  have e2 : Ext h1 h2 := ⟨hl2, ha2⟩
  obtain ⟨h3, y3, hr3, hl3, ha3, hv3⟩ :=
    copyOpt_spec (fun lo hi h => sliceIn lo hi Cell.asStrs h)
      (copySlice Cell.asStrs Cell.strs "") h2
      (fun p w hw => copySlice_spec Cell.asStrs Cell.strs (fun _ => rfl) "" h2 p w hw) _ e
      (tS.input he (e1.trans e2))
  have e3 : Ext h2 h3 := ⟨hl3, ha3⟩
  obtain ⟨h4, y4, hr4, hl4, ha4, hv4⟩ :=
    copyOpt_spec mapIn copyMap h3 (fun p w hw => copyMap_spec h3 p w hw) _ a
      (tM.input ha ((e1.trans e2).trans e3))
  have e4 : Ext h3 h4 := ⟨hl4, ha4⟩
  have w1 := tC.output hv1 (Ext.refl h) ((e2.trans e3).trans e4)
  have w2 := tG.output hv2 e1 (e3.trans e4)
  have w3 := tS.output hv3 (e1.trans e2) e4
  have w4 := tM.output hv4 ((e1.trans e2).trans e3) (Ext.refl h4)
  beta_reduce at w1 w2 w3 w4
  have eAll := ((e1.trans e2).trans e3).trans e4
  refine ⟨h4,
    { s with
      GCSCredsSecret := y1
      GcpCredsSecret := y2
      EventTypes := y3
      CustomAttributes := y4 }, ?_, eAll.1, eAll.2, ?_⟩
  · simp only [GCSSpec.DeepCopyInto, hr1, hr2, hr3, hr4, Option.bind_eq_bind,
      Option.some_bind]
  · simp [GCSSpec.valIn, w1, w2, w3, w4]

theorem transports_gcs : Transports GCS.valIn := by
  intro lo hi lo2 hi2 h h2 x v hv hag hlo hhi
  simp only [GCS.valIn, Option.bind_eq_bind, Option.bind_eq_some, Option.some.injEq] at hv
  obtain ⟨m, hm, s, hs, st, hst, rfl⟩ := hv
  have w1 := transports_objectMeta lo hi lo2 hi2 h h2 _ _ hm hag hlo hhi
  have w2 := transports_gcsSpec lo hi lo2 hi2 h h2 _ _ hs hag hlo hhi
  have w3 := transports_gcsStatus lo hi lo2 hi2 h h2 _ _ hst hag hlo hhi
  simp [GCS.valIn, w1, w2, w3]

theorem gcsCopy_spec (h : Heap) (g : GCS) (v : GCSVal)
    (hv : GCS.valIn 0 h.length h g = some v) :
    CopySpec GCS.valIn h v (GCS.DeepCopyInto h g) := by
  simp only [GCS.valIn, Option.bind_eq_bind, Option.bind_eq_some, Option.some.injEq] at hv
  obtain ⟨m, hm, s, hs, st, hst, rfl⟩ := hv
  obtain ⟨h1, y1, hr1, hl1, ha1, hv1⟩ := objectMetaCopy_spec h g.ObjectMeta m hm
  have e1 : Ext h h1 := ⟨hl1, ha1⟩
  obtain ⟨h2, y2, hr2, hl2, ha2, hv2⟩ :=
    gcsSpecCopy_spec h1 g.Spec s (transports_gcsSpec.input hs e1)
  have e2 : Ext h1 h2 := ⟨hl2, ha2⟩
  obtain ⟨h3, y3, hr3, hl3, ha3, hv3⟩ :=
    gcsStatusCopy_spec h2 g.Status st (transports_gcsStatus.input hst (e1.trans e2))
  have e3 : Ext h2 h3 := ⟨hl3, ha3⟩
  have w1 := transports_objectMeta.output hv1 (Ext.refl h) (e2.trans e3)
  have w2 := transports_gcsSpec.output hv2 e1 e3
  have w3 := transports_gcsStatus.output hv3 (e1.trans e2) (Ext.refl h3)
  have eAll := (e1.trans e2).trans e3
  refine ⟨h3, { g with ObjectMeta := y1, Spec := y2, Status := y3 }, ?_, eAll.1, eAll.2, ?_⟩
  · simp only [GCS.DeepCopyInto, hr1, hr2, hr3, Option.bind_eq_bind, Option.some_bind]
  · simp [GCS.valIn, w1, w2, w3]

theorem mapOpt_imp {α β : Type} {f g : α → Option β}
    (hfg : ∀ x v, f x = some v → g x = some v) :
    ∀ {l : List α} {vs : List β}, mapOpt f l = some vs → mapOpt g l = some vs := by
  intro l
  induction l with
  | nil => intro vs hv; simpa [mapOpt] using hv
  | cons x xs ih =>
    intro vs hv
    simp only [mapOpt, Option.bind_eq_bind, Option.bind_eq_some, Option.some.injEq] at hv
    obtain ⟨y, hy, ys, hys, rfl⟩ := hv
    simp [mapOpt, hfg x y hy, ih hys]

theorem mapOpt_snoc {α β : Type} {f : α → Option β} :
    ∀ {l : List α} {vs : List β} {y : α} {v : β}, mapOpt f l = some vs → f y = some v →
      mapOpt f (l ++ [y]) = some (vs ++ [v]) := by
  intro l
  induction l with
  | nil =>
    intro vs y v hv hy
    simp only [mapOpt, Option.some.injEq] at hv
    subst hv
    simp [mapOpt, hy]
  | cons x xs ih =>
    intro vs y v hv hy
    simp only [mapOpt, Option.bind_eq_bind, Option.bind_eq_some, Option.some.injEq] at hv
    obtain ⟨w, hw, ws, hws, rfl⟩ := hv
    simp [mapOpt, hw, ih hws hy]

theorem mapOpt_length {α β : Type} {f : α → Option β} :
    ∀ {l : List α} {vs : List β}, mapOpt f l = some vs → vs.length = l.length := by
  intro l
  induction l with
  | nil =>
    intro vs hv
    simp only [mapOpt, Option.some.injEq] at hv
    subst hv
    rfl
  | cons x xs ih =>
    intro vs hv
    simp only [mapOpt, Option.bind_eq_bind, Option.bind_eq_some, Option.some.injEq] at hv
    obtain ⟨w, hw, ws, hws, rfl⟩ := hv
    simp [ih hws]

theorem mapOpt_getElem {α β : Type} {f : α → Option β} :
    ∀ {l : List α} {vs : List β}, mapOpt f l = some vs →
      ∀ (i : Nat) (x : α), l[i]? = some x → ∃ v, vs[i]? = some v ∧ f x = some v := by
  intro l
  induction l with
  | nil => intro vs _ i x hx; simp at hx
  | cons y ys ih =>
    intro vs hv i x hx
    simp only [mapOpt, Option.bind_eq_bind, Option.bind_eq_some, Option.some.injEq] at hv
    obtain ⟨w, hw, ws, hws, rfl⟩ := hv
    cases i with
    | zero =>
      simp only [List.getElem?_cons_zero, Option.some.injEq] at hx
      subst hx
      exact ⟨w, by simp, hw⟩
    | succ j =>
      simp only [List.getElem?_cons_succ] at hx
      obtain ⟨v, hv1, hv2⟩ := ih hws j x hx
      exact ⟨v, by simpa using hv1, hv2⟩

theorem window_getElem {α : Type} {s : Slice} {a xs : List α} (hw : window s a = some xs)
    {i : Nat} (hi : i < s.len) : a[s.off + i]? = xs[i]? := by
  unfold window at hw
  split at hw
  · cases hw
    rw [List.getElem?_take_of_lt hi, List.getElem?_drop]
  · cases hw

theorem window_ok {α : Type} {s : Slice} {a xs : List α} (hw : window s a = some xs) :
    s.off + s.len ≤ a.length := by
  unfold window at hw
  split at hw
  · assumption
  · cases hw

theorem load_agree {α : Type} {lo hi : Nat} {h h2 : Heap} (a : Agree lo hi h h2)
    (proj : Cell → Option α) {p : Nat} (hlo : lo ≤ p) (hhi : p < hi) :
    load proj h2 p = load proj h p := by
  simp [load, a p hlo hhi]

theorem set_done {α : Type} (done : List α) (y z : α) (k : Nat) :
    (done ++ List.replicate (k + 1) z).set done.length y = (done ++ [y]) ++ List.replicate k z := by
  induction done with
  | nil => simp [List.replicate_succ]
  | cons d ds ih => simpa using ih

/-- The copy loop of `GCSList.DeepCopyInto`: with `pre` already copied into
`done` and `rest` still to go, the loop finishes and fills the output array
with copies that have the values of the source items. -/
theorem copyItems_spec (h : Heap) (s : Slice) (a xs : List GCS)
    (ha : load Cell.asGcss h s.arr = some a) (hs : s.arr < h.length)
    (hw : window s a = some xs) :
    ∀ (rest : List GCS) (vrest : List GCSVal) (pre done : List GCS) (vpre : List GCSVal)
      (hc : Heap),
      xs = pre ++ rest →
      mapOpt (GCS.valIn 0 h.length h) rest = some vrest →
      done.length = pre.length →
      h.length + 1 ≤ hc.length →
      Agree 0 h.length h hc →
      hc[h.length]? = some (Cell.gcss (done ++ List.replicate rest.length GCS.zero)) →
      mapOpt (GCS.valIn (h.length + 1) hc.length hc) done = some vpre →
      ∃ hf donef,
        GCSList.copyItems s { arr := h.length, off := 0, len := s.len } rest.length
            pre.length hc = some hf ∧
          hc.length ≤ hf.length ∧ Agree 0 h.length h hf ∧
          hf[h.length]? = some (Cell.gcss donef) ∧ donef.length = xs.length ∧
          mapOpt (GCS.valIn (h.length + 1) hf.length hf) donef = some (vpre ++ vrest) := by
  intro rest
  induction rest with
  | nil =>
    intro vrest pre done vpre hc hxs hvr hdl hlen hag hcell hdone
    simp only [mapOpt, Option.some.injEq] at hvr
    subst hvr
    refine ⟨hc, done, rfl, le_refl _, hag, ?_, ?_, ?_⟩
    · simpa using hcell
    · simp [hxs, hdl]
    · simpa using hdone
  | cons x rest ih =>
    intro vrest pre done vpre hc hxs hvr hdl hlen hag hcell hdone
    simp only [mapOpt, Option.bind_eq_bind, Option.bind_eq_some, Option.some.injEq] at hvr
    obtain ⟨v, hv, vrest2, hvrest, rfl⟩ := hvr
    have hxl : xs.length = s.len := window_length hw
    have hi : pre.length < s.len := by
      rw [← hxl, hxs]
      simp
    have hxi : xs[pre.length]? = some x := by
      rw [hxs, List.getElem?_append_right (le_refl _)]
      simp
    have hle : loadElem Cell.asGcss hc s pre.length = some x := by
      simp only [loadElem]
      rw [load_agree hag Cell.asGcss (Nat.zero_le _) hs, ha]
      simp [hi, window_ok hw, window_getElem hw hi, hxi]
    have hvx : GCS.valIn 0 hc.length hc x = some v :=
      transports_gcs 0 h.length 0 hc.length h hc x v hv hag (le_refl _) (by omega)
    obtain ⟨h1, y, hr, hl1, ha1, hv1⟩ := gcsCopy_spec hc x v hvx
    have hn1 : h.length < h1.length := by omega
    have hcell1 : load Cell.asGcss h1 h.length =
        some (done ++ List.replicate (rest.length + 1) GCS.zero) := by
      rw [load_agree ha1 Cell.asGcss (Nat.zero_le _) (by omega)]
      simp [load, hcell, Cell.asGcss]
    have hst : store h1 h.length (Cell.gcss ((done ++ [y]) ++ List.replicate rest.length GCS.zero))
        = some (h1.set h.length
            (Cell.gcss ((done ++ [y]) ++ List.replicate rest.length GCS.zero))) := by
      simp [store, hn1]
    have hse : storeElem Cell.asGcss Cell.gcss h1 { arr := h.length, off := 0, len := s.len }
        pre.length y = some (h1.set h.length
            (Cell.gcss ((done ++ [y]) ++ List.replicate rest.length GCS.zero))) := by
      simp only [storeElem, hcell1, Option.bind_eq_bind, Option.some_bind]
      have hlen0 : (done ++ List.replicate (rest.length + 1) GCS.zero).length = s.len := by
        rw [← hxl, hxs]
        simp [hdl]
      rw [if_pos ⟨hi, by omega⟩, Nat.zero_add, ← hdl, set_done, hst]
    obtain ⟨hf, donef, hrun, hlf, haf, hcf, hdf, hvf⟩ :=
      ih vrest2 (pre ++ [x]) (done ++ [y]) (vpre ++ [v])
        (h1.set h.length (Cell.gcss ((done ++ [y]) ++ List.replicate rest.length GCS.zero)))
        (by simp [hxs]) hvrest (by simp [hdl]) (by simp; omega)
        (agree_trans hag (agree_trans (agree_sub ha1 (le_refl _) (by omega))
          (agree_store hst 0 h.length (Or.inr (le_refl _)))))
        (by simp [hn1])
        (mapOpt_snoc
          (mapOpt_imp (fun z w hz =>
            transports_gcs (h.length + 1) hc.length (h.length + 1) _ hc _ z w hz
              (agree_trans (agree_sub ha1 (Nat.zero_le _) (le_refl _))
                (agree_store hst _ _ (Or.inl (Nat.lt_succ_self _))))
              (le_refl _) (by simp; omega)) hdone)
          (transports_gcs hc.length h1.length (h.length + 1) _ h1 _ y v hv1
            (agree_store hst _ _ (Or.inl (by omega))) (by omega) (by simp)))
    refine ⟨hf, donef, ?_, ?_, haf, hcf, hdf, ?_⟩
    · simp only [List.length_cons, GCSList.copyItems, hle, hr, hse, Option.bind_eq_bind,
        Option.some_bind]
      simpa using hrun
    · simp only [List.length_set] at hlf
      omega
    · simpa using hvf

theorem transports_items : Transports itemsIn := by
  intro lo hi lo2 hi2 h h2 x v hv hag hlo hhi
  simp only [itemsIn, Option.bind_eq_bind, Option.bind_eq_some] at hv ⊢
  obtain ⟨xs, hxs, hvs⟩ := hv
  exact ⟨xs, transports_sliceIn Cell.asGcss lo hi lo2 hi2 h h2 _ _ hxs hag hlo hhi,
    mapOpt_imp (fun z w hz => transports_gcs lo hi lo2 hi2 h h2 z w hz hag hlo hhi) hvs⟩

theorem transports_gcsList : Transports GCSList.valIn := by
  intro lo hi lo2 hi2 h h2 x v hv hag hlo hhi
  obtain ⟨xs, hxs, rfl⟩ := map_eq_some_imp hv
  have w1 := transports_opt transports_items lo hi lo2 hi2 h h2 _ _ hxs hag hlo hhi
  beta_reduce at w1
  simp [GCSList.valIn, w1]

theorem gcsListCopy_spec (h : Heap) (l : GCSList) (v : GCSListVal)
    (hv : GCSList.valIn 0 h.length h l = some v) :
    CopySpec GCSList.valIn h v (GCSList.DeepCopyInto h l) := by
  obtain ⟨ovs, hovs, rfl⟩ := map_eq_some_imp hv
  cases hI : l.Items with
  | none =>
    rw [hI] at hovs
    simp only [optVal, Option.some.injEq] at hovs
    subst hovs
    refine ⟨h, l, ?_, le_refl _, agree_refl _ _ _, ?_⟩
    · cases l
      simp_all [GCSList.DeepCopyInto]
    · simp [GCSList.valIn, hI, optVal]
  | some s =>
    rw [hI] at hovs
    obtain ⟨vs, hvs, rfl⟩ := map_eq_some_imp hovs
    simp only [itemsIn, sliceIn, Option.bind_eq_bind, Option.bind_eq_some] at hvs
    obtain ⟨xs, ⟨a, ha, hw⟩, hxv⟩ := hvs
    obtain ⟨_, hp, _, hl⟩ := loadIn_lt ha
    have hxl : xs.length = s.len := window_length hw
    obtain ⟨hf, donef, hrun, hlf, haf, hcf, hdf, hvf⟩ :=
      copyItems_spec h s a xs hl hp hw xs vs [] [] []
        (h ++ [Cell.gcss (List.replicate s.len GCS.zero)]) rfl hxv rfl (by simp)
        (agree_append 0 h _) (by simp [hxl]) rfl
    have hnf : h.length < hf.length := by
      have : (h ++ [Cell.gcss (List.replicate s.len GCS.zero)]).length = h.length + 1 := by
        simp
      omega
    refine ⟨hf, { l with Items := some { arr := h.length, off := 0, len := s.len } }, ?_,
      by omega, haf, ?_⟩
    · simp only [GCSList.DeepCopyInto, hI, alloc]
      simp only [List.length_nil, hxl] at hrun
      rw [hrun]
      rfl
    · have hvals : mapOpt (GCS.valIn h.length hf.length hf) donef = some vs :=
        mapOpt_imp (fun z w hz =>
          transports_gcs (h.length + 1) hf.length h.length hf.length hf hf z w hz
            (agree_refl _ _ _) (Nat.le_succ _) (le_refl _)) (by simpa using hvf)
      have hwin : window { arr := h.length, off := 0, len := s.len } donef = some donef := by
        rw [← hxl, ← hdf]
        exact window_fresh _ _
      simp only [GCSList.valIn, optVal, itemsIn, sliceIn, loadIn, load]
      simp [hnf, hcf, Cell.asGcss, hwin, hvals]

/-- The copy of a list has as many items as the list. -/
theorem GCSList.copy_len {h h2 : Heap} {l l2 : GCSList}
    (hc : GCSList.DeepCopyInto h l = some (h2, l2)) :
    l2.Items.map Slice.len = l.Items.map Slice.len := by
  unfold GCSList.DeepCopyInto at hc
  cases hI : l.Items with
  | none =>
    simp only [hI, Option.some.injEq, Prod.mk.injEq] at hc
    rw [← hc.2]
  | some s =>
    simp only [hI] at hc
    obtain ⟨hf, _, hfe⟩ := map_eq_some_imp hc
    simp only [Prod.mk.injEq] at hfe
    rw [← hfe.2]
    rfl

/-- The value of a resource tells which of its optional references are nil. -/
theorem GCS.val_nil {lo hi : Nat} {h : Heap} {g : GCS} {v : GCSVal}
    (hv : GCS.valIn lo hi h g = some v) :
    (g.Spec.GcpCredsSecret = none ↔ v.Spec.GcpCredsSecret = none) ∧
      (g.Spec.EventTypes = none ↔ v.Spec.EventTypes = none) ∧
      (g.Spec.CustomAttributes = none ↔ v.Spec.CustomAttributes = none) := by
  simp only [GCS.valIn, GCSSpec.valIn, Option.bind_eq_bind, Option.bind_eq_some,
    Option.some.injEq] at hv
  obtain ⟨m, _, s, ⟨c, _, gc, hgc, e, he, a, ha, rfl⟩, st, _, rfl⟩ := hv
  refine ⟨?_, ?_, ?_⟩
  · cases hx : g.Spec.GcpCredsSecret with
    | none => rw [hx] at hgc; simp only [optVal, Option.some.injEq] at hgc; simp [← hgc]
    | some p =>
      rw [hx] at hgc
      obtain ⟨w, _, rfl⟩ := map_eq_some_imp hgc
      simp
  · cases hx : g.Spec.EventTypes with
    | none => rw [hx] at he; simp only [optVal, Option.some.injEq] at he; simp [← he]
    | some p =>
      rw [hx] at he
      obtain ⟨w, _, rfl⟩ := map_eq_some_imp he
      simp
  · cases hx : g.Spec.CustomAttributes with
    | none => rw [hx] at ha; simp only [optVal, Option.some.injEq] at ha; simp [← ha]
    | some p =>
      rw [hx] at ha
      obtain ⟨w, _, rfl⟩ := map_eq_some_imp ha
      simp

/-! ## Deep copy: equality by value -/

/-- C1: for a well-formed `GCS` resource `R` of value `v` (heap `h`), and a
well-formed `GCSList` `L` of value `w`, `DeepCopy` returns a non-nil copy `C`
whose value is `v` again (so `TypeMeta`, `ObjectMeta`, `Status` and every
`Spec` field are equal by value, `R` itself keeping its value), a nil
`GcpCredsSecret` / `EventTypes` / `CustomAttributes` stays nil and a non-nil
one stays non-nil; the copy of `L` has value `w` (items equal one by one) and
the same number of items. -/
theorem gcs_deepCopy_equal_by_value (h : Heap) (R : GCS) (v : GCSVal) (L : GCSList)
    (w : GCSListVal) (hR : GCS.val h R = some v) (hL : GCSList.val h L = some w) :
    (∃ h2 C, GCS.DeepCopy h (some R) = some (h2, some C) ∧
        GCS.val h2 C = some v ∧ GCS.val h2 R = some v ∧
        (C.Spec.GcpCredsSecret = none ↔ R.Spec.GcpCredsSecret = none) ∧
        (C.Spec.EventTypes = none ↔ R.Spec.EventTypes = none) ∧
        (C.Spec.CustomAttributes = none ↔ R.Spec.CustomAttributes = none)) ∧
      (∃ h2 L2, GCSList.DeepCopy h (some L) = some (h2, some L2) ∧
        GCSList.val h2 L2 = some w ∧ GCSList.val h2 L = some w ∧
        L2.Items.map Slice.len = L.Items.map Slice.len) := by
  constructor
  · obtain ⟨h2, C, hc, hl, ha, hv⟩ := gcsCopy_spec h R v hR
    have hC : GCS.val h2 C = some v :=
      transports_gcs _ _ 0 _ h2 h2 C v hv (agree_refl _ _ _) (Nat.zero_le _) (le_refl _)
    have hR2 : GCS.val h2 R = some v := transports_gcs.input hR ⟨hl, ha⟩
    have n1 := GCS.val_nil hR
    have n2 := GCS.val_nil hv
    refine ⟨h2, C, by simp [GCS.DeepCopy, hc], hC, hR2, ?_, ?_, ?_⟩
    · exact n2.1.trans n1.1.symm
    · exact n2.2.1.trans n1.2.1.symm
    · exact n2.2.2.trans n1.2.2.symm
  · obtain ⟨h2, L2, hc, hl, ha, hv⟩ := gcsListCopy_spec h L w hL
    have hL2 : GCSList.val h2 L2 = some w :=
      transports_gcsList _ _ 0 _ h2 h2 L2 w hv (agree_refl _ _ _) (Nat.zero_le _) (le_refl _)
    exact ⟨h2, L2, by simp [GCSList.DeepCopy, hc], hL2,
      transports_gcsList.input hL ⟨hl, ha⟩, GCSList.copy_len hc⟩

theorem gcs_deepCopy_equal_by_value_witness :
    ∃ v w, GCS.val sampleHeap sampleGCS = some v ∧ GCSList.val sampleHeap sampleList = some w ∧
      ((∃ h2 C, GCS.DeepCopy sampleHeap (some sampleGCS) = some (h2, some C) ∧
          GCS.val h2 C = some v ∧ GCS.val h2 sampleGCS = some v ∧
          (C.Spec.GcpCredsSecret = none ↔ sampleGCS.Spec.GcpCredsSecret = none) ∧
          (C.Spec.EventTypes = none ↔ sampleGCS.Spec.EventTypes = none) ∧
          (C.Spec.CustomAttributes = none ↔ sampleGCS.Spec.CustomAttributes = none)) ∧
        (∃ h2 L2, GCSList.DeepCopy sampleHeap (some sampleList) = some (h2, some L2) ∧
          GCSList.val h2 L2 = some w ∧ GCSList.val h2 sampleList = some w ∧
          L2.Items.map Slice.len = sampleList.Items.map Slice.len)) :=
  ⟨_, _, rfl, rfl,
    gcs_deepCopy_equal_by_value sampleHeap sampleGCS _ sampleList _ rfl rfl⟩

/-! ## Deep copy: no shared storage -/

theorem store_of_storeElem {α : Type} {proj : Cell → Option (List α)} {inj : List α → Cell}
    {h h3 : Heap} {s : Slice} {i : Nat} {x : α}
    (hs : storeElem proj inj h s i x = some h3) : ∃ c, store h s.arr c = some h3 := by
  simp only [storeElem, Option.bind_eq_bind, Option.bind_eq_some] at hs
  obtain ⟨a, _, ha⟩ := hs
  split at ha
  · exact ⟨_, ha⟩
  · cases ha

theorem optVal_some {P V : Type} {f : P → Option V} {p : P} {v : Option V}
    (hv : optVal f (some p) = some v) : ∃ w, f p = some w := by
  obtain ⟨w, hw, _⟩ := map_eq_some_imp hv
  exact ⟨w, hw⟩

/-- A mutation through a resource whose storage lies in `[lo, hi)` writes at
most one cell, at an address in `[lo, hi)`. -/
theorem mutate_footprint {lo hi : Nat} {h h3 : Heap} {x : GCS} {v : GCSVal} {m : Mutation}
    (hv : GCS.valIn lo hi h x = some v) (hm : mutate h x m = some h3) :
    h3 = h ∨ ∃ p c, lo ≤ p ∧ p < hi ∧ store h p c = some h3 := by
  simp only [GCS.valIn, GCSSpec.valIn, Option.bind_eq_bind, Option.bind_eq_some,
    Option.some.injEq] at hv
  obtain ⟨_, _, _, ⟨_, _, gc, hgc, e, he, a, ha, _⟩, _, _, _⟩ := hv
  cases m with
  | setEventType i y =>
    simp only [mutate] at hm
    cases hx : x.Spec.EventTypes with
    | none => simp [hx] at hm
    | some s =>
      rw [hx] at hm he
      obtain ⟨w, hw⟩ := optVal_some he
      simp only [sliceIn, Option.bind_eq_bind, Option.bind_eq_some] at hw
      obtain ⟨arr, harr, _⟩ := hw
      obtain ⟨h1, h2, _, _⟩ := loadIn_lt harr
      obtain ⟨c, hc⟩ := store_of_storeElem hm
      exact Or.inr ⟨_, c, h1, h2, hc⟩
  | setAttribute k w =>
    simp only [mutate] at hm
    cases hx : x.Spec.CustomAttributes with
    | none => simp [hx] at hm
    | some p =>
      rw [hx] at hm ha
      obtain ⟨w2, hw⟩ := optVal_some ha
      simp only [mapIn, Option.bind_eq_bind, Option.bind_eq_some] at hw hm
      obtain ⟨mm, hmm, _⟩ := hw
      obtain ⟨h1, h2, _, _⟩ := loadIn_lt hmm
      obtain ⟨_, _, hst⟩ := hm
      exact Or.inr ⟨_, _, h1, h2, hst⟩
  | deleteAttribute k =>
    simp only [mutate] at hm
    cases hx : x.Spec.CustomAttributes with
    | none =>
      simp only [hx, Option.some.injEq] at hm
      exact Or.inl hm.symm
    | some p =>
      rw [hx] at hm ha
      obtain ⟨w2, hw⟩ := optVal_some ha
      simp only [mapIn, Option.bind_eq_bind, Option.bind_eq_some] at hw hm
      obtain ⟨mm, hmm, _⟩ := hw
      obtain ⟨h1, h2, _, _⟩ := loadIn_lt hmm
      obtain ⟨_, _, hst⟩ := hm
      exact Or.inr ⟨_, _, h1, h2, hst⟩
  | setGcpCredsSecret sec =>
    simp only [mutate] at hm
    cases hx : x.Spec.GcpCredsSecret with
    | none => simp [hx] at hm
    | some p =>
      rw [hx] at hm hgc
      obtain ⟨w2, hw⟩ := optVal_some hgc
      simp only [secretPtrIn, Option.bind_eq_bind, Option.bind_eq_some] at hw hm
      obtain ⟨mm, hmm, _⟩ := hw
      obtain ⟨h1, h2, _, _⟩ := loadIn_lt hmm
      obtain ⟨_, _, hst⟩ := hm
      exact Or.inr ⟨_, _, h1, h2, hst⟩
  | setGcpCredsOptional b =>
    simp only [mutate] at hm
    cases hx : x.Spec.GcpCredsSecret with
    | none => simp [hx] at hm
    | some p =>
      rw [hx] at hm hgc
      obtain ⟨w2, hw⟩ := optVal_some hgc
      simp only [secretPtrIn, Option.bind_eq_bind, Option.bind_eq_some] at hw hm
      obtain ⟨sec, hsec, hsv⟩ := hw
      obtain ⟨_, _, _, hload⟩ := loadIn_lt hsec
      obtain ⟨sec2, hsec2, hrest⟩ := hm
      rw [hload] at hsec2
      cases hsec2
      cases hq : sec.Optional with
      | none => simp [hq] at hrest
      | some q =>
        rw [hq] at hrest
        simp only [Option.bind_eq_bind, Option.bind_eq_some] at hrest
        obtain ⟨_, _, hst⟩ := hrest
        obtain ⟨o, ho, _⟩ := map_eq_some_imp hsv
        rw [hq] at ho
        obtain ⟨_, hflag⟩ := optVal_some ho
        obtain ⟨h1, h2, _, _⟩ := loadIn_lt hflag
        exact Or.inr ⟨_, _, h1, h2, hst⟩

/-- A value read outside the cells a mutation can write survives it. -/
theorem mutate_frame {lo hi lo2 hi2 : Nat} {h h3 : Heap} {x y : GCS} {v w : GCSVal}
    {m : Mutation} (hx : GCS.valIn lo hi h x = some v) (hm : mutate h x m = some h3)
    (hy : GCS.valIn lo2 hi2 h y = some w) (hdis : hi ≤ lo2 ∨ hi2 ≤ lo)
    (hle : hi2 ≤ h.length) : GCS.val h3 y = some w := by
  rcases mutate_footprint hx hm with rfl | ⟨p, c, hp1, hp2, hst⟩
  · exact transports_gcs lo2 hi2 0 _ h3 h3 y w hy (agree_refl _ _ _) (Nat.zero_le _) hle
  · have hag : Agree lo2 hi2 h h3 :=
      agree_store hst lo2 hi2 (by omega)
    exact transports_gcs lo2 hi2 0 _ h h3 y w hy hag (Nat.zero_le _)
      (by rw [store_length hst]; exact hle)

/-- C2: the copy `C` of a well-formed `GCS` resource `R` shares no mutable
storage with it. After any write through `C` (an element of
`C.Spec.EventTypes` overwritten, a key of `C.Spec.CustomAttributes` inserted,
changed or deleted, a store through `C.Spec.GcpCredsSecret` or through its
`Optional`) `R` still has
its value `v`, so its `EventTypes`, `CustomAttributes` and the secret its
`GcpCredsSecret` points to are unchanged; and after any such write through
`R` the copy still has the value `v`. -/
theorem gcs_deepCopy_shares_no_storage (h : Heap) (R : GCS) (v : GCSVal)
    (hR : GCS.val h R = some v) (h2 : Heap) (C : GCS)
    (hC : GCS.DeepCopy h (some R) = some (h2, some C))
    (m1 m2 : Mutation) (h3 h4 : Heap)
    (hm1 : mutate h2 C m1 = some h3) (hm2 : mutate h2 R m2 = some h4) :
    GCS.val h3 R = some v ∧ GCS.val h4 C = some v := by
  obtain ⟨h2b, Cb, hc, hl, ha, hv⟩ := gcsCopy_spec h R v hR
  simp only [GCS.DeepCopy, hc, Option.map_some', Option.some.injEq, Prod.mk.injEq] at hC
  obtain ⟨rfl, rfl⟩ := hC
  have hR2 : GCS.valIn 0 h.length h2b R = some v :=
    transports_gcs 0 h.length 0 h.length h h2b R v hR ha (le_refl _) (le_refl _)
  exact ⟨mutate_frame hv hm1 hR2 (Or.inr (le_refl _)) hl,
    mutate_frame hR2 hm2 hv (Or.inl (le_refl _)) (le_refl _)⟩

theorem gcs_deepCopy_shares_no_storage_witness :
    ∃ v h2 C h3 h4, GCS.val sampleHeap sampleGCS = some v ∧
      GCS.DeepCopy sampleHeap (some sampleGCS) = some (h2, some C) ∧
      mutate h2 C (Mutation.setEventType 0 "delete") = some h3 ∧
      mutate h2 sampleGCS (Mutation.setAttribute "team" "b") = some h4 ∧
      GCS.val h3 sampleGCS = some v ∧ GCS.val h4 C = some v :=
  ⟨_, _, _, _, _, rfl, rfl, rfl, rfl,
    gcs_deepCopy_shares_no_storage sampleHeap sampleGCS _ rfl _ _ rfl
      (Mutation.setEventType 0 "delete") (Mutation.setAttribute "team" "b") _ _ rfl rfl⟩

/-! ## Condition manager -/

theorem codesLt_irrefl (l : List Nat) : codesLt l l = false := by
  induction l with
  | nil => rfl
  | cons a as ih => simp [codesLt, ih]

theorem strLt_irrefl (a : String) : strLt a a = false :=
  codesLt_irrefl _

theorem find_insertCond (t : String) (c : Condition) (l : List Condition) :
    (insertCond c l).find? (fun x => x.Type_ == t) =
      if c.Type_ = t then some c else l.find? (fun x => x.Type_ == t) := by
  induction l with
  | nil =>
    by_cases hc : c.Type_ = t
    · simp [insertCond, hc]
    · simp [insertCond, hc]
  | cons d ds ih =>
    unfold insertCond
    split
    · rename_i hlt
      by_cases hd : d.Type_ = t
      · have hc : ¬ c.Type_ = t := by
          intro hc
          rw [hd, hc, strLt_irrefl] at hlt
          cases hlt
        rw [List.find?_cons_of_pos _ (by simpa using hd), if_neg hc,
          List.find?_cons_of_pos _ (by simpa using hd)]
      · rw [List.find?_cons_of_neg _ (by simpa using hd), ih,
          List.find?_cons_of_neg _ (by simpa using hd)]
    · by_cases hc : c.Type_ = t
      · rw [List.find?_cons_of_pos _ (by simpa using hc), if_pos hc]
      · rw [List.find?_cons_of_neg _ (by simpa using hc), if_neg hc]

theorem find_sortConds (t : String) (l : List Condition) :
    (sortConds l).find? (fun x => x.Type_ == t) = l.find? (fun x => x.Type_ == t) := by
  induction l with
  | nil => rfl
  | cons c cs ih =>
    simp only [sortConds, find_insertCond, ih]
    by_cases hc : c.Type_ = t
    · rw [List.find?_cons_of_pos _ (by simpa using hc), if_pos hc]
    · rw [List.find?_cons_of_neg _ (by simpa using hc), if_neg hc]

theorem perm_insertCond (c : Condition) (l : List Condition) :
    (insertCond c l).Perm (c :: l) := by
  induction l with
  | nil => exact List.Perm.refl _
  | cons d ds ih =>
    unfold insertCond
    split
    · exact ((List.Perm.cons d ih).trans (List.Perm.swap c d ds))
    · exact List.Perm.refl _

theorem perm_sortConds (l : List Condition) : (sortConds l).Perm l := by
  induction l with
  | nil => exact List.Perm.refl _
  | cons c cs ih => exact (perm_insertCond c _).trans (List.Perm.cons c ih)

theorem find_filter_ne (t u : String) (l : List Condition) (htu : t ≠ u) :
    (l.filter (fun c => c.Type_ != u)).find? (fun x => x.Type_ == t) =
      l.find? (fun x => x.Type_ == t) := by
  induction l with
  | nil => rfl
  | cons c cs ih =>
    by_cases hcu : c.Type_ = u
    · have hct : ¬ c.Type_ = t := fun hct => htu (hct.symm.trans hcu)
      rw [List.filter_cons_of_neg (by simpa using hcu),
        List.find?_cons_of_neg _ (by simpa using hct), ih]
    · rw [List.filter_cons_of_pos (by simpa using hcu)]
      by_cases hct : c.Type_ = t
      · rw [List.find?_cons_of_pos _ (by simpa using hct),
          List.find?_cons_of_pos _ (by simpa using hct)]
      · rw [List.find?_cons_of_neg _ (by simpa using hct),
          List.find?_cons_of_neg _ (by simpa using hct), ih]

theorem find_filter_self (u : String) (l : List Condition) :
    (l.filter (fun c => c.Type_ != u)).find? (fun x => x.Type_ == u) = none := by
  simp [List.find?_eq_none]

theorem conds_mk (g : Int) (l : List Condition) :
    StatusVal.conds { ObservedGeneration := g, Conditions := some l } = l :=
  rfl

theorem find_snoc_ne (t : String) (l : List Condition) (c : Condition) (hc : ¬ c.Type_ = t) :
    (l ++ [c]).find? (fun x => x.Type_ == t) = l.find? (fun x => x.Type_ == t) := by
  rw [List.find?_append, List.find?_cons_of_neg _ (by simpa using hc)]
  simp

theorem find_snoc_fresh (l : List Condition) (c : Condition)
    (hl : l.find? (fun x => x.Type_ == c.Type_) = none) :
    (l ++ [c]).find? (fun x => x.Type_ == c.Type_) = some c := by
  rw [List.find?_append, hl, List.find?_cons_of_pos _ (by simp)]
  rfl

theorem get_set_other (now : Int) (st : StatusVal) (new : Condition) (t : String)
    (ht : t ≠ new.Type_) : GetCondition (SetCondition now st new) t = GetCondition st t := by
  unfold SetCondition
  split
  · rfl
  · simp only [GetCondition, conds_mk, find_sortConds]
    rw [find_snoc_ne t _ { new with LastTransitionTime := now } (fun h => ht h.symm),
      find_filter_ne t new.Type_ _ ht]

theorem find_of_mem_nodup (l : List Condition) (c : Condition)
    (hn : (l.map Condition.Type_).Nodup) (hc : c ∈ l) :
    l.find? (fun x => x.Type_ == c.Type_) = some c := by
  induction l with
  | nil => cases hc
  | cons d ds ih =>
    simp only [List.map_cons, List.nodup_cons] at hn
    rcases List.mem_cons.mp hc with rfl | hmem
    · exact List.find?_cons_of_pos _ (by simp)
    · have hne : ¬ d.Type_ = c.Type_ := by
        intro heq
        exact hn.1 (heq ▸ List.mem_map_of_mem Condition.Type_ hmem)
      rw [List.find?_cons_of_neg _ (by simpa using hne)]
      exact ih hn.2 hmem

/-- After `SetCondition` a condition of the new type with the new status is
stored, whatever the status was. -/
theorem mem_set (now : Int) (st : StatusVal) (new : Condition) :
    ∃ c ∈ (SetCondition now st new).conds, c.Type_ = new.Type_ ∧ c.Status = new.Status := by
  unfold SetCondition
  split
  · rename_i hany
    simp only [List.any_eq_true, Bool.and_eq_true, beq_iff_eq, decide_eq_true_eq] at hany
    obtain ⟨c, hc, hty, heq⟩ := hany
    exact ⟨c, hc, hty, by rw [← heq]⟩
  · refine ⟨{ new with LastTransitionTime := now }, ?_, rfl, rfl⟩
    rw [conds_mk]
    exact (perm_sortConds _).mem_iff.mpr (by simp)

/-- With distinct condition types, `GetCondition` after `SetCondition` returns
a condition with the new status. -/
theorem get_set_same (now : Int) (st : StatusVal) (new : Condition)
    (hn : (st.conds.map Condition.Type_).Nodup) :
    ∃ c, GetCondition (SetCondition now st new) new.Type_ = some c ∧
      c.Status = new.Status := by
  unfold SetCondition
  split
  · rename_i hany
    simp only [List.any_eq_true, Bool.and_eq_true, beq_iff_eq, decide_eq_true_eq] at hany
    obtain ⟨c, hc, hty, heq⟩ := hany
    refine ⟨c, ?_, by rw [← heq]⟩
    rw [GetCondition, ← hty]
    exact find_of_mem_nodup _ c hn hc
  · refine ⟨{ new with LastTransitionTime := now }, ?_, rfl⟩
    simp only [GetCondition, conds_mk, find_sortConds]
    exact find_snoc_fresh _ { new with LastTransitionTime := now } (find_filter_self _ _)

theorem nodup_set (now : Int) (st : StatusVal) (new : Condition)
    (hn : (st.conds.map Condition.Type_).Nodup) :
    ((SetCondition now st new).conds.map Condition.Type_).Nodup := by
  unfold SetCondition
  split
  · exact hn
  · rw [conds_mk]
    refine ((perm_sortConds _).map Condition.Type_).nodup_iff.mpr ?_
    rw [List.map_append, List.nodup_append]
    refine ⟨(List.filter_sublist _).map Condition.Type_ |>.nodup hn, by simp, ?_⟩
    intro a ha hb
    simp only [List.map_cons, List.map_nil, List.mem_singleton] at hb
    subst hb
    simp only [List.mem_map, List.mem_filter, bne_iff_ne, ne_eq] at ha
    obtain ⟨c, ⟨_, hne⟩, heq⟩ := ha
    exact hne heq

theorem isTrue_of_status {c : Condition} {o : Option Condition} (ho : o = some c)
    (hs : c.Status ≠ ConditionTrue) : IsTrue o = false := by
  subst ho
  simpa [IsTrue] using hs

theorem isTrue_of_isFalse {o : Option Condition} (h : IsFalse o = true) : IsTrue o = false := by
  cases o with
  | none => rfl
  | some c =>
    simp only [IsFalse, beq_iff_eq] at h
    simp only [IsTrue, h]
    decide

theorem isTrue_set_other (now : Int) (st : StatusVal) (new : Condition) (t : String)
    (ht : t ≠ new.Type_) :
    IsTrue (GetCondition (SetCondition now st new) t) = IsTrue (GetCondition st t) := by
  rw [get_set_other now st new t ht]

/-- The loop of `MarkFalse`: every listed type ends False, every other type
is untouched. -/
theorem foldl_false_spec (r : ConditionSet) (now : Int) (reason message : String) :
    ∀ (tys : List String) (st : StatusVal), (st.conds.map Condition.Type_).Nodup →
      (((tys.foldl (fun s ty =>
          SetCondition now s
            { Type_ := ty, Status := ConditionFalse, Severity := severity r ty,
              LastTransitionTime := 0, Reason := reason, Message := message }) st).conds.map
          Condition.Type_).Nodup) ∧
      (∀ u, u ∉ tys →
        GetCondition (tys.foldl (fun s ty =>
          SetCondition now s
            { Type_ := ty, Status := ConditionFalse, Severity := severity r ty,
              LastTransitionTime := 0, Reason := reason, Message := message }) st) u =
          GetCondition st u) ∧
      (∀ u, u ∈ tys →
        IsFalse (GetCondition (tys.foldl (fun s ty =>
          SetCondition now s
            { Type_ := ty, Status := ConditionFalse, Severity := severity r ty,
              LastTransitionTime := 0, Reason := reason, Message := message }) st) u) = true) := by
  intro tys
  induction tys with
  | nil =>
    intro st hn
    exact ⟨hn, fun _ _ => rfl, fun _ hu => by cases hu⟩
  | cons ty rest ih =>
    intro st hn
    have hn1 := nodup_set now st
      { Type_ := ty, Status := ConditionFalse, Severity := severity r ty,
        LastTransitionTime := 0, Reason := reason, Message := message } hn
    obtain ⟨h1, h2, h3⟩ := ih _ hn1
    refine ⟨h1, ?_, ?_⟩
    · intro u hu
      simp only [List.mem_cons, not_or] at hu
      rw [List.foldl_cons, h2 u hu.2]
      exact get_set_other now st _ u hu.1
    · intro u hu
      rw [List.foldl_cons]
      by_cases hur : u ∈ rest
      · exact h3 u hur
      · have hut : u = ty := by
          rcases List.mem_cons.mp hu with h | h
          · exact h
          · exact absurd h hur
        rw [h2 u hur]
        obtain ⟨c, hc, hcs⟩ := get_set_same now st
          { Type_ := ty, Status := ConditionFalse, Severity := severity r ty,
            LastTransitionTime := 0, Reason := reason, Message := message } hn
        subst hut
        rw [hc]
        simp only [IsFalse, beq_iff_eq]
        exact hcs

theorem markFalse_spec (r : ConditionSet) (now : Int) (t reason message : String)
    (st : StatusVal) (hn : (st.conds.map Condition.Type_).Nodup) :
    ((MarkFalse r now t reason message st).conds.map Condition.Type_).Nodup ∧
      (∀ u, u ≠ t → u ≠ r.happy →
        GetCondition (MarkFalse r now t reason message st) u = GetCondition st u) ∧
      IsFalse (GetCondition (MarkFalse r now t reason message st) t) = true ∧
      (t ∈ r.dependents →
        IsFalse (GetCondition (MarkFalse r now t reason message st) r.happy) = true) := by
  obtain ⟨h1, h2, h3⟩ := foldl_false_spec r now reason message
    ([t] ++ (r.dependents.filter (fun d => d == t)).map (fun _ => r.happy)) st hn
  refine ⟨h1, ?_, ?_, ?_⟩
  · intro u hut huh
    apply h2
    simp only [List.singleton_append, List.mem_cons, List.mem_map, List.mem_filter, not_or]
    exact ⟨hut, fun ⟨_, _, he⟩ => huh he.symm⟩
  · apply h3
    simp
  · intro ht
    apply h3
    simp only [List.singleton_append, List.mem_cons, List.mem_map, List.mem_filter]
    exact Or.inr ⟨t, ⟨ht, by simp⟩, trivial⟩

theorem rollup_markTrue (r : ConditionSet) (hh : r.happy ∉ r.dependents) (now : Int)
    (t : String) (ht : t ∈ r.dependents) (st : StatusVal) (hinv : Rollup r st) :
    Rollup r (MarkTrue r now t st) := by
  obtain ⟨hn, hiff⟩ := hinv
  have hth : r.happy ≠ t := fun h => hh (h ▸ ht)
  have hn1 := nodup_set now st
    { Condition.zero with Type_ := t, Status := ConditionTrue, Severity := severity r t } hn
  obtain ⟨c, hc, hcs⟩ := get_set_same now st
    { Condition.zero with Type_ := t, Status := ConditionTrue, Severity := severity r t } hn
  unfold MarkTrue
  simp only
  split
  · rename_i hall
    simp only [List.all_eq_true] at hall
    refine ⟨nodup_set now _ _ hn1, ?_⟩
    obtain ⟨c2, hc2, hcs2⟩ := get_set_same now
      (SetCondition now st
        { Condition.zero with Type_ := t, Status := ConditionTrue, Severity := severity r t })
      { Condition.zero with
        Type_ := r.happy, Status := ConditionTrue, Severity := severity r r.happy } hn1
    constructor
    · intro _ d hd
      rw [isTrue_set_other now _ _ d (fun h : d = r.happy => hh (h ▸ hd))]
      exact hall d hd
    · intro _
      simp only [IsHappy]
      rw [hc2]
      simpa [IsTrue] using hcs2
  · rename_i hall
    refine ⟨hn1, ?_⟩
    have hhappy : IsHappy r (SetCondition now st
        { Condition.zero with Type_ := t, Status := ConditionTrue, Severity := severity r t }) =
        IsHappy r st := by
      simp only [IsHappy]
      exact isTrue_set_other now st _ r.happy hth
    constructor
    · intro hH
      exfalso
      apply hall
      simp only [List.all_eq_true]
      intro d hd
      by_cases hdt : d = t
      · subst hdt
        rw [hc]
        simpa [IsTrue] using hcs
      · rw [isTrue_set_other now st _ d hdt]
        exact (hiff.mp (hhappy ▸ hH)) d hd
    · intro hall2
      exfalso
      apply hall
      simp only [List.all_eq_true]
      exact hall2

theorem rollup_markFalse (r : ConditionSet) (now : Int)
    (t reason message : String) (ht : t ∈ r.dependents) (st : StatusVal) (hinv : Rollup r st) :
    Rollup r (MarkFalse r now t reason message st) := by
  obtain ⟨hn, _⟩ := hinv
  obtain ⟨h1, _, h3, h4⟩ := markFalse_spec r now t reason message st hn
  refine ⟨h1, ?_⟩
  constructor
  · intro hH
    simp only [IsHappy, isTrue_of_isFalse (h4 ht)] at hH
    cases hH
  · intro hall
    have := hall t ht
    rw [isTrue_of_isFalse h3] at this
    cases this

/-- The loop of `MarkUnknown` leaves the happy condition not True once `t` is
among the dependents it visits, and touches no other condition. -/
theorem markUnknownLoop_spec (r : ConditionSet) (now : Int)
    (t reason message : String) :
    ∀ (ds : List String) (isDep : Bool) (st : StatusVal),
      (st.conds.map Condition.Type_).Nodup →
      ((markUnknownLoop r now t reason message ds isDep st).conds.map Condition.Type_).Nodup ∧
      (∀ u, u ≠ r.happy →
        GetCondition (markUnknownLoop r now t reason message ds isDep st) u =
          GetCondition st u) ∧
      (isDep = true ∨ t ∈ ds →
        IsTrue (GetCondition (markUnknownLoop r now t reason message ds isDep st) r.happy) =
          false) := by
  intro ds
  induction ds with
  | nil =>
    intro isDep st hn
    unfold markUnknownLoop
    cases isDep with
    | false =>
      refine ⟨hn, fun _ _ => rfl, ?_⟩
      intro h
      rcases h with h | h
      · cases h
      · cases h
    | true =>
      simp only [if_true]
      refine ⟨nodup_set now st _ hn, fun u hu => get_set_other now st _ u hu, fun _ => ?_⟩
      obtain ⟨c, hc, hcs⟩ := get_set_same now st
        { Type_ := r.happy, Status := ConditionUnknown, Severity := severity r r.happy,
          LastTransitionTime := 0, Reason := reason, Message := message } hn
      have hcu : c.Status = ConditionUnknown := hcs
      exact isTrue_of_status hc (by rw [hcu]; decide)
  | cons d rest ih =>
    intro isDep st hn
    unfold markUnknownLoop
    split
    · split
      · obtain ⟨h1, h2, h3, _⟩ := markFalse_spec r now r.happy reason message st hn
        refine ⟨h1, fun u hu => h2 u hu hu, fun _ => isTrue_of_isFalse h3⟩
      · rename_i hnot
        refine ⟨hn, fun _ _ => rfl, fun _ => ?_⟩
        simp only [Bool.not_eq_true', Bool.not_eq_false] at hnot
        exact isTrue_of_isFalse hnot
    · obtain ⟨h1, h2, h3⟩ := ih (isDep || d == t) st hn
      refine ⟨h1, h2, fun h => h3 ?_⟩
      rcases h with h | h
      · exact Or.inl (by simp [h])
      · rcases List.mem_cons.mp h with h | h
        · exact Or.inl (by simp [h])
        · exact Or.inr h

theorem rollup_markUnknown (r : ConditionSet) (hh : r.happy ∉ r.dependents) (now : Int)
    (t reason message : String) (ht : t ∈ r.dependents) (st : StatusVal)
    (hinv : Rollup r st) : Rollup r (MarkUnknown r now t reason message st) := by
  obtain ⟨hn, _⟩ := hinv
  have hth : t ≠ r.happy := fun h => hh (h ▸ ht)
  have hn1 := nodup_set now st
    { Type_ := t, Status := ConditionUnknown, Severity := severity r t,
      LastTransitionTime := 0, Reason := reason, Message := message } hn
  obtain ⟨c, hc, hcs⟩ := get_set_same now st
    { Type_ := t, Status := ConditionUnknown, Severity := severity r t,
      LastTransitionTime := 0, Reason := reason, Message := message } hn
  obtain ⟨h1, h2, h3⟩ := markUnknownLoop_spec r now t reason message r.dependents false _ hn1
  unfold MarkUnknown
  refine ⟨h1, ?_⟩
  constructor
  · intro hH
    simp only [IsHappy, h3 (Or.inr ht)] at hH
    cases hH
  · intro hall
    have hcu : c.Status = ConditionUnknown := hcs
    have := hall t ht
    rw [h2 t hth, isTrue_of_status hc (by rw [hcu]; decide)] at this
    cases this

/-- The loop of `InitializeConditions`: a set condition is kept, an unset
dependent gets the given status, nothing else changes. -/
theorem initLoop_spec (now : Int) (status : String) :
    ∀ (ds : List String) (st : StatusVal), (st.conds.map Condition.Type_).Nodup →
      ((ds.foldl (fun s t =>
          match GetCondition s t with
          | some _ => s
          | none =>
            SetCondition now s
              { Condition.zero with
                Type_ := t, Status := status, Severity := ConditionSeverityError }) st).conds.map
          Condition.Type_).Nodup ∧
      (∀ u, (GetCondition st u ≠ none ∨ u ∉ ds) →
        GetCondition (ds.foldl (fun s t =>
          match GetCondition s t with
          | some _ => s
          | none =>
            SetCondition now s
              { Condition.zero with
                Type_ := t, Status := status, Severity := ConditionSeverityError }) st) u =
          GetCondition st u) ∧
      (∀ u, u ∈ ds → GetCondition st u = none →
        ∃ c, GetCondition (ds.foldl (fun s t =>
          match GetCondition s t with
          | some _ => s
          | none =>
            SetCondition now s
              { Condition.zero with
                Type_ := t, Status := status, Severity := ConditionSeverityError }) st) u =
            some c ∧ c.Status = status) := by
  intro ds
  induction ds with
  | nil =>
    intro st hn
    exact ⟨hn, fun _ _ => rfl, fun _ hu => by cases hu⟩
  | cons d rest ih =>
    intro st hn
    simp only [List.foldl_cons]
    cases hd : GetCondition st d with
    | some c0 =>
      simp only
      obtain ⟨h1, h2, h3⟩ := ih st hn
      refine ⟨h1, ?_, ?_⟩
      · intro u hu
        apply h2
        rcases hu with hu | hu
        · exact Or.inl hu
        · exact Or.inr (fun hmem => hu (List.mem_cons_of_mem _ hmem))
      · intro u hu hnone
        rcases List.mem_cons.mp hu with rfl | hmem
        · rw [hd] at hnone
          cases hnone
        · exact h3 u hmem hnone
    | none =>
      simp only
      have hn1 := nodup_set now st
        { Condition.zero with
          Type_ := d, Status := status, Severity := ConditionSeverityError } hn
      obtain ⟨c, hc, hcs⟩ := get_set_same now st
        { Condition.zero with
          Type_ := d, Status := status, Severity := ConditionSeverityError } hn
      obtain ⟨h1, h2, h3⟩ := ih _ hn1
      refine ⟨h1, ?_, ?_⟩
      · intro u hu
        have hud : u ≠ d := by
          rintro rfl
          rcases hu with hu | hu
          · exact hu hd
          · exact hu (List.mem_cons_self _ _)
        have hkeep := get_set_other now st
          { Condition.zero with
            Type_ := d, Status := status, Severity := ConditionSeverityError } u hud
        rw [← hkeep]
        apply h2
        rcases hu with hu | hu
        · exact Or.inl (by rw [hkeep]; exact hu)
        · exact Or.inr (fun hmem => hu (List.mem_cons_of_mem _ hmem))
      · intro u hu hnone
        by_cases hud : u = d
        · subst hud
          refine ⟨c, ?_, hcs⟩
          rw [← hc]
          apply h2
          left
          rw [hc]
          simp
        · have hkeep := get_set_other now st
            { Condition.zero with
              Type_ := d, Status := status, Severity := ConditionSeverityError } u hud
          have hmem : u ∈ rest := by
            rcases List.mem_cons.mp hu with h | h
            · exact absurd h hud
            · exact h
          exact h3 u hmem (by rw [hkeep]; exact hnone)

theorem rollup_initLoop (r : ConditionSet) (now : Int) (status : String)
    (st st1 : StatusVal) (hinv : Rollup r st)
    (hn1 : (st1.conds.map Condition.Type_).Nodup)
    (hdeps : ∀ d ∈ r.dependents, GetCondition st1 d = GetCondition st d)
    (hsome : GetCondition st1 r.happy ≠ none)
    (hT : IsTrue (GetCondition st1 r.happy) = IsTrue (GetCondition st r.happy))
    (hstat : IsHappy r st = false → status ≠ ConditionTrue) :
    Rollup r (r.dependents.foldl (fun s t =>
      match GetCondition s t with
      | some _ => s
      | none =>
        SetCondition now s
          { Condition.zero with
            Type_ := t, Status := status, Severity := ConditionSeverityError }) st1) := by
  obtain ⟨_, hiff⟩ := hinv
  obtain ⟨h1, h2, h3⟩ := initLoop_spec now status r.dependents st1 hn1
  refine ⟨h1, ?_⟩
  have hhappy : IsHappy r (r.dependents.foldl (fun s t =>
      match GetCondition s t with
      | some _ => s
      | none =>
        SetCondition now s
          { Condition.zero with
            Type_ := t, Status := status, Severity := ConditionSeverityError }) st1) =
      IsHappy r st := by
    simp only [IsHappy]
    rw [h2 r.happy (Or.inl hsome), hT]
  rw [hhappy]
  constructor
  · intro hH d hd
    have htrue := hiff.mp hH d hd
    have hne : GetCondition st1 d ≠ none := by
      rw [hdeps d hd]
      intro hnone
      rw [hnone] at htrue
      cases htrue
    rw [h2 d (Or.inl hne), hdeps d hd]
    exact htrue
  · intro hall
    by_contra hnH
    have hnH2 : IsHappy r st = false := by simpa using hnH
    apply hnH
    apply hiff.mpr
    intro d hd
    have hres := hall d hd
    cases hg : GetCondition st1 d with
    | none =>
      obtain ⟨c, hc, hcs⟩ := h3 d hd hg
      rw [isTrue_of_status hc (by rw [hcs]; exact hstat hnH2)] at hres
      cases hres
    | some c =>
      rw [h2 d (Or.inl (by rw [hg]; simp)), hdeps d hd] at hres
      exact hres

theorem rollup_init (r : ConditionSet) (hh : r.happy ∉ r.dependents) (now : Int)
    (st : StatusVal) (hinv : Rollup r st) : Rollup r (InitializeConditions r now st) := by
  unfold InitializeConditions
  simp only
  cases hH : GetCondition st r.happy with
  | none =>
    simp only
    obtain ⟨c, hc, hcs⟩ := get_set_same now st
      { Condition.zero with
        Type_ := r.happy, Status := ConditionUnknown, Severity := ConditionSeverityError }
      hinv.1
    have hcu : c.Status = ConditionUnknown := hcs
    refine rollup_initLoop r now _ st _ hinv (nodup_set now st _ hinv.1) ?_ ?_ ?_ ?_
    · intro d hd
      exact get_set_other now st _ d (fun h : d = r.happy => hh (h ▸ hd))
    · rw [hc]
      simp
    · rw [hH, isTrue_of_status hc (by rw [hcu]; decide)]
      rfl
    · intro _
      simp only [IsTrue]
      decide
  | some c0 =>
    simp only
    refine rollup_initLoop r now _ st st hinv hinv.1 (fun _ _ => rfl) ?_ rfl ?_
    · rw [hH]
      simp
    · intro hf
      simp only [IsHappy, hH] at hf
      rw [hf]
      decide

/-- Every managed status satisfies the roll-up invariant. -/
theorem managed_rollup (r : ConditionSet) (hh : r.happy ∉ r.dependents)
    (hne : r.dependents ≠ []) (st : StatusVal) (hm : Managed r st) : Rollup r st := by
  induction hm with
  | fresh g =>
    refine ⟨by simp [StatusVal.conds], ?_⟩
    constructor
    · intro h
      simp [IsHappy, GetCondition, StatusVal.conds, IsTrue] at h
    · intro h
      obtain ⟨d, hd⟩ := List.exists_mem_of_ne_nil _ hne
      have := h d hd
      simp [GetCondition, StatusVal.conds, IsTrue] at this
  | init now st _ ih => exact rollup_init r hh now st ih
  | markTrue now t st ht _ ih => exact rollup_markTrue r hh now t ht st ih
  | markFalse now t reason message st ht _ ih =>
    exact rollup_markFalse r now t reason message ht st ih
  | markUnknown now t reason message st ht _ ih =>
    exact rollup_markUnknown r hh now t reason message ht st ih

/-- C6: for the living condition set `gcsSourceCondSet` built from
`PullSubscriptionReady`, `PubSubTopicReady` and `GCSReady`, in every status
the set manages (built from the empty status by initialising and by marking
sub-conditions True, False or Unknown) the aggregate `Ready` condition is True
if and only if all three sub-conditions are True; it is not True whenever one
of them is False or Unknown. -/
theorem gcs_ready_iff_all_subconditions (st : StatusVal) (hm : Managed gcsSourceCondSet st) :
    (IsHappy gcsSourceCondSet st = true ↔
        (IsTrue (GetCondition st PullSubscriptionReady) = true ∧
          IsTrue (GetCondition st PubSubTopicReady) = true ∧
          IsTrue (GetCondition st GCSReady) = true)) ∧
      (∀ d ∈ [PullSubscriptionReady, PubSubTopicReady, GCSReady],
        (IsFalse (GetCondition st d) = true ∨ IsUnknown (GetCondition st d) = true) →
          IsHappy gcsSourceCondSet st = false) := by
  have hdeps : gcsSourceCondSet.dependents =
      [PullSubscriptionReady, PubSubTopicReady, GCSReady] := by decide
  have hinv := managed_rollup gcsSourceCondSet (by decide) (by decide) st hm
  have hiff : IsHappy gcsSourceCondSet st = true ↔
      (IsTrue (GetCondition st PullSubscriptionReady) = true ∧
        IsTrue (GetCondition st PubSubTopicReady) = true ∧
        IsTrue (GetCondition st GCSReady) = true) := by
    rw [hinv.2, hdeps]
    simp
  refine ⟨hiff, ?_⟩
  intro d hd hbad
  have hnot : IsTrue (GetCondition st d) = false := by
    rcases hbad with hf | hu
    · exact isTrue_of_isFalse hf
    · cases hg : GetCondition st d with
      | none => rfl
      | some c =>
        rw [hg] at hu
        simp only [IsUnknown, beq_iff_eq] at hu
        simp only [IsTrue, hu]
        decide
  cases hH : IsHappy gcsSourceCondSet st with
  | false => rfl
  | true =>
    have h3 := hiff.mp hH
    simp only [List.mem_cons, List.mem_singleton, List.not_mem_nil, or_false] at hd
    rcases hd with rfl | rfl | rfl
    · rw [h3.1] at hnot; cases hnot
    · rw [h3.2.1] at hnot; cases hnot
    · rw [h3.2.2] at hnot; cases hnot

theorem gcs_ready_iff_all_subconditions_witness :
    Managed gcsSourceCondSet
        (MarkTrue gcsSourceCondSet 3 GCSReady
          (MarkTrue gcsSourceCondSet 2 PubSubTopicReady
            (MarkTrue gcsSourceCondSet 1 PullSubscriptionReady
              { ObservedGeneration := 0, Conditions := none }))) ∧
      IsHappy gcsSourceCondSet
        (MarkTrue gcsSourceCondSet 3 GCSReady
          (MarkTrue gcsSourceCondSet 2 PubSubTopicReady
            (MarkTrue gcsSourceCondSet 1 PullSubscriptionReady
              { ObservedGeneration := 0, Conditions := none }))) = true ∧
      IsHappy gcsSourceCondSet
        (MarkTrue gcsSourceCondSet 2 PubSubTopicReady
          (MarkTrue gcsSourceCondSet 1 PullSubscriptionReady
            { ObservedGeneration := 0, Conditions := none })) = false :=
  have m0 : Managed gcsSourceCondSet { ObservedGeneration := 0, Conditions := none } :=
    Managed.fresh 0
  have m1 := Managed.markTrue 1 PullSubscriptionReady _ (by decide) m0
  have m2 := Managed.markTrue 2 PubSubTopicReady _ (by decide) m1
  have m3 := Managed.markTrue 3 GCSReady _ (by decide) m2
  ⟨m3, (gcs_ready_iff_all_subconditions _ m3).1.mpr (by decide),
    (gcs_ready_iff_all_subconditions _ m2).2 GCSReady (by decide) (Or.inr (by decide))⟩

/-! ## Fixture builders -/

theorem mem_set_other (now : Int) (st : StatusVal) (new c : Condition)
    (hc : c ∈ st.conds) (hne : c.Type_ ≠ new.Type_) : c ∈ (SetCondition now st new).conds := by
  unfold SetCondition
  split
  · exact hc
  · rw [conds_mk]
    refine (perm_sortConds _).mem_iff.mpr ?_
    simp only [List.mem_append, List.mem_filter, bne_iff_ne, ne_eq, List.mem_singleton]
    exact Or.inl ⟨hc, hne⟩

/-- After `MarkTrue` of a type other than the happy one, a True condition of
that type is stored. -/
theorem markTrue_mem (r : ConditionSet) (now : Int) (t : String) (st : StatusVal)
    (ht : t ≠ r.happy) :
    ∃ c ∈ (MarkTrue r now t st).conds, c.Type_ = t ∧ c.Status = ConditionTrue := by
  obtain ⟨c, hc, hty, hst⟩ := mem_set now st
    { Condition.zero with Type_ := t, Status := ConditionTrue, Severity := severity r t }
  unfold MarkTrue
  simp only
  split
  · exact ⟨c, mem_set_other now _ _ c hc (by rw [hty]; exact ht), hty, hst⟩
  · exact ⟨c, hc, hty, hst⟩

/-- With distinct condition types, `GetCondition` sees the condition True
after `MarkTrue`. -/
theorem markTrue_get (r : ConditionSet) (now : Int) (t : String) (st : StatusVal)
    (ht : t ≠ r.happy) (hn : (st.conds.map Condition.Type_).Nodup) :
    IsTrue (GetCondition (MarkTrue r now t st) t) = true := by
  obtain ⟨c, hc, hcs⟩ := get_set_same now st
    { Condition.zero with Type_ := t, Status := ConditionTrue, Severity := severity r t } hn
  have hT : IsTrue (GetCondition (SetCondition now st
      { Condition.zero with Type_ := t, Status := ConditionTrue, Severity := severity r t })
      t) = true := by
    rw [hc]
    simpa [IsTrue] using hcs
  unfold MarkTrue
  simp only
  split
  · rw [isTrue_set_other now _ _ t ht]
    exact hT
  · exact hT

/-- C5: for every Storage `s` and string `t` (and clock reading `now`),
`WithStorageTopicReady(t)` leaves `s.Status.TopicID == t` and the
topic-readiness condition marked True: a `TopicReady` condition with status
True is stored in the status, and `GetCondition` returns it True whenever the
condition types of `s` are distinct (as in every managed status). With
`t = "t1"` the `TopicID` is `"t1"`. -/
theorem withStorageTopicReady_marks_ready (now : Int) (s : Storage) (t : String) :
    (WithStorageTopicReady now t s).Status.TopicID = t ∧
      (∃ c ∈ (WithStorageTopicReady now t s).Status.Status.conds,
        c.Type_ = TopicReady ∧ c.Status = ConditionTrue) ∧
      ((s.Status.Status.conds.map Condition.Type_).Nodup →
        IsTrue (GetCondition (WithStorageTopicReady now t s).Status.Status TopicReady) = true) ∧
      (WithStorageTopicReady now "t1" s).Status.TopicID = "t1" := by
  refine ⟨rfl, ?_, ?_, rfl⟩
  · exact markTrue_mem storageCondSet now TopicReady s.Status.Status (by decide)
  · intro hn
    exact markTrue_get storageCondSet now TopicReady s.Status.Status (by decide) hn

theorem withStorageTopicReady_marks_ready_witness :
    (WithStorageTopicReady 7 "t1" Storage.zero).Status.TopicID = "t1" ∧
      IsTrue (GetCondition (WithStorageTopicReady 7 "t1" Storage.zero).Status.Status
        TopicReady) = true :=
  ⟨(withStorageTopicReady_marks_ready 7 Storage.zero "t1").1,
    (withStorageTopicReady_marks_ready 7 Storage.zero "t1").2.2.1 (by decide)⟩

/-- C7: options that touch the same field are last-write-wins. Two field
builders for the same field, applied one after the other, leave what the
second alone leaves; so `Spec.Bucket`, `Spec.Project`, `Spec.EventTypes`,
`Status.NotificationID`, `Status.ProjectID`, `Finalizers` and the two
generations hold the second value, and `WithStorageTopicReady(a)` followed by
`WithStorageTopicID(b)` leaves `Status.TopicID == b`. `NewStorage` applies
its options left to right: with a last option `o`, what it hands to
`SetDefaults` is `o` applied to the resource built from the options before. -/
theorem options_last_write_wins (apiVersion : GroupVersionKind → String) (f g : FieldOption)
    (hfg : f.field = g.field) (s : Storage) :
    g.apply apiVersion (f.apply apiVersion s) = g.apply apiVersion s ∧
      (∀ a b, (WithStorageBucket b (WithStorageBucket a s)).Spec.Bucket = b) ∧
      (∀ a b, (WithStorageProject b (WithStorageProject a s)).Spec.Project = b) ∧
      (∀ a b, (WithStorageEventTypes b (WithStorageEventTypes a s)).Spec.EventTypes = b) ∧
      (∀ a b, (WithStorageNotificationID b (WithStorageNotificationID a s)).Status.NotificationID
        = b) ∧
      (∀ a b, (WithStorageProjectID b (WithStorageProjectID a s)).Status.ProjectID = b) ∧
      (∀ a b, (WithStorageFinalizers b (WithStorageFinalizers a s)).ObjectMeta.Finalizers = b) ∧
      (∀ a b, (WithStorageStatusObservedGeneration b
        (WithStorageStatusObservedGeneration a s)).Status.Status.ObservedGeneration = b) ∧
      (∀ a b, (WithStorageObjectMetaGeneration b
        (WithStorageObjectMetaGeneration a s)).ObjectMeta.Generation = b) ∧
      (∀ now a b, (WithStorageTopicID b (WithStorageTopicReady now a s)).Status.TopicID = b) ∧
      (∀ (setDefaults : Storage → Storage) (name namespace_ : String)
        (so : List StorageOption) (o : StorageOption),
        NewStorage setDefaults name namespace_ (so ++ [o]) =
          setDefaults (o (NewStorage (fun x => x) name namespace_ so))) := by
  refine ⟨?_, fun _ _ => rfl, fun _ _ => rfl, fun _ _ => rfl, fun _ _ => rfl, fun _ _ => rfl,
    fun _ _ => rfl, fun _ _ => rfl, fun _ _ => rfl, fun _ _ _ => rfl, ?_⟩
  · cases f <;> cases g <;>
      first
      | rfl
      | (simp only [FieldOption.field] at hfg
         exact absurd hfg (by decide))
  · intro setDefaults name namespace_ so o
    simp [NewStorage, List.foldl_append]

theorem options_last_write_wins_witness :
    (WithStorageBucket "b" (WithStorageBucket "a" Storage.zero)) =
        WithStorageBucket "b" Storage.zero ∧
      (WithStorageBucket "b" (WithStorageBucket "a" Storage.zero)).Spec.Bucket = "b" :=
  ⟨(options_last_write_wins (fun _ => "v1") (FieldOption.bucket "a") (FieldOption.bucket "b")
      rfl Storage.zero).1,
    (options_last_write_wins (fun _ => "v1") (FieldOption.bucket "a") (FieldOption.bucket "b")
      rfl Storage.zero).2.1 "a" "b"⟩

/-- C8: options that set disjoint fields commute: two field builders that
write different fields give the same resource in either order, for example
`WithStorageBucket(b)` and `WithStorageProject(p)`, or
`WithStorageNotificationID(n)` and `WithStorageFinalizers(fs)`. -/
theorem options_disjoint_commute (apiVersion : GroupVersionKind → String) (f g : FieldOption)
    (hfg : f.field ≠ g.field) (s : Storage) :
    g.apply apiVersion (f.apply apiVersion s) = f.apply apiVersion (g.apply apiVersion s) ∧
      (∀ b p, WithStorageProject p (WithStorageBucket b s) =
        WithStorageBucket b (WithStorageProject p s)) ∧
      (∀ n fs, WithStorageFinalizers fs (WithStorageNotificationID n s) =
        WithStorageNotificationID n (WithStorageFinalizers fs s)) := by
  refine ⟨?_, fun _ _ => rfl, fun _ _ => rfl⟩
  cases f <;> cases g <;> first | rfl | exact absurd rfl hfg

theorem options_disjoint_commute_witness :
    WithStorageProject "p" (WithStorageBucket "b" Storage.zero) =
      WithStorageBucket "b" (WithStorageProject "p" Storage.zero) :=
  (options_disjoint_commute (fun _ => "v1") (FieldOption.bucket "b") (FieldOption.project "p")
    (by decide) Storage.zero).1

theorem og_set (now : Int) (st : StatusVal) (new : Condition) :
    (SetCondition now st new).ObservedGeneration = st.ObservedGeneration := by
  unfold SetCondition
  split <;> rfl

theorem og_markTrue (r : ConditionSet) (now : Int) (t : String) (st : StatusVal) :
    (MarkTrue r now t st).ObservedGeneration = st.ObservedGeneration := by
  unfold MarkTrue
  simp only
  split
  · rw [og_set, og_set]
  · rw [og_set]

theorem og_markFalse (r : ConditionSet) (now : Int) (t reason message : String)
    (st : StatusVal) :
    (MarkFalse r now t reason message st).ObservedGeneration = st.ObservedGeneration := by
  unfold MarkFalse
  simp only
  generalize [t] ++ (r.dependents.filter (fun d => d == t)).map (fun _ => r.happy) = tys
  induction tys generalizing st with
  | nil => rfl
  | cons ty rest ih => rw [List.foldl_cons, ih, og_set]

theorem og_markUnknownLoop (r : ConditionSet) (now : Int) (t reason message : String) :
    ∀ (ds : List String) (isDep : Bool) (st : StatusVal),
      (markUnknownLoop r now t reason message ds isDep st).ObservedGeneration =
        st.ObservedGeneration := by
  intro ds
  induction ds with
  | nil =>
    intro isDep st
    unfold markUnknownLoop
    split
    · rw [og_set]
    · rfl
  | cons d rest ih =>
    intro isDep st
    unfold markUnknownLoop
    split
    · split
      · rw [og_markFalse]
      · rfl
    · exact ih _ st

theorem og_markUnknown (r : ConditionSet) (now : Int) (t reason message : String)
    (st : StatusVal) :
    (MarkUnknown r now t reason message st).ObservedGeneration = st.ObservedGeneration := by
  unfold MarkUnknown
  rw [og_markUnknownLoop, og_set]

theorem og_initLoop (now : Int) (status : String) :
    ∀ (ds : List String) (st : StatusVal),
      (ds.foldl (fun s t =>
        match GetCondition s t with
        | some _ => s
        | none =>
          SetCondition now s
            { Condition.zero with
              Type_ := t, Status := status, Severity := ConditionSeverityError })
        st).ObservedGeneration = st.ObservedGeneration := by
  intro ds
  induction ds with
  | nil => intro st; rfl
  | cons d rest ih =>
    intro st
    rw [List.foldl_cons, ih]
    split
    · rfl
    · rw [og_set]

theorem og_init (r : ConditionSet) (now : Int) (st : StatusVal) :
    (InitializeConditions r now st).ObservedGeneration = st.ObservedGeneration := by
  unfold InitializeConditions
  simp only
  rw [og_initLoop]
  split
  · rw [og_set]
  · rfl

theorem diff_self {α : Type} [DecidableEq α] (name : String) (x : α) : diff name x x = [] := by
  simp [diff]

theorem diff_subset {α : Type} [DecidableEq α] (name : String) (x y : α) (l : List String)
    (hl : name ∈ l) : diff name x y ⊆ l := by
  unfold diff
  split
  · exact List.nil_subset _
  · simpa using hl

/-- The field list of `changedFields` is exhaustive: two `Storage` values that
differ in none of the fields are equal. -/
theorem changedFields_nil (a b : Storage) (h : changedFields a b = []) : a = b := by
  obtain ⟨t1, ⟨n1, n2, n3, n4, n5, n6, n7, n8, n9, n10, n11, n12, n13, n14⟩,
    ⟨p1, p2, p3, p4, p5, p6, p7, p8⟩, ⟨⟨q1, q2⟩, q3, q4, q5, q6⟩⟩ := a
  obtain ⟨t1b, ⟨m1, m2, m3, m4, m5, m6, m7, m8, m9, m10, m11, m12, m13, m14⟩,
    ⟨r1, r2, r3, r4, r5, r6, r7, r8⟩, ⟨⟨u1, u2⟩, u3, u4, u5, u6⟩⟩ := b
  simp only [changedFields, diff, List.append_eq_nil, ite_eq_left_iff, List.cons_ne_nil,
    imp_false, not_not] at h
  simp only [Storage.mk.injEq, ObjectMetaVal.mk.injEq, StorageSpec.mk.injEq,
    StorageStatus.mk.injEq, StatusVal.mk.injEq]
  tauto

/-- A status-only change shows up in `changedFields` as at most the condition
list and the listed status fields. -/
theorem changedFields_status (s : Storage) (st : StorageStatus) (l : List String)
    (hog : st.Status.ObservedGeneration = s.Status.Status.ObservedGeneration)
    (hc : "Status.Status.Conditions" ∈ l)
    (h1 : st.SinkURI = s.Status.SinkURI)
    (h2 : st.NotificationID = s.Status.NotificationID ∨ "Status.NotificationID" ∈ l)
    (h3 : st.TopicID = s.Status.TopicID ∨ "Status.TopicID" ∈ l)
    (h4 : st.ProjectID = s.Status.ProjectID) :
    changedFields s { s with Status := st } ⊆ l := by
  simp only [changedFields, diff_self, List.nil_append, hog, h1, h4, List.append_nil]
  intro x hx
  simp only [List.mem_append] at hx
  rcases hx with ((hx | hx) | hx)
  · exact diff_subset _ _ _ l hc hx
  · rcases h2 with h | h
    · rw [h, diff_self] at hx
      cases hx
    · exact diff_subset _ _ _ l h hx
  · rcases h3 with h | h
    · rw [h, diff_self] at hx
      cases hx
    · exact diff_subset _ _ _ l h hx

/-- C9, as stated, fails: applied to the zero `Storage`,
`WithStorageTopicReady("t1")` changes two things, the status conditions and
`Status.TopicID`. -/
theorem withStorageTopicReady_sets_two_fields :
    changedFields Storage.zero (WithStorageTopicReady 0 "t1" Storage.zero) =
        ["Status.Status.Conditions", "Status.TopicID"] ∧
      ¬ (∀ s : Storage, (changedFields s (WithStorageTopicReady 0 "t1" s)).length ≤ 1) := by
  have h : changedFields Storage.zero (WithStorageTopicReady 0 "t1" Storage.zero) =
      ["Status.Status.Conditions", "Status.TopicID"] := by decide
  refine ⟨h, fun hall => ?_⟩
  have := hall Storage.zero
  rw [h] at this
  simp at this

/-- C9, amended: every field builder changes at most the one field it
assigns; `WithStorageTopicReady` changes at most the status conditions and
`Status.TopicID`; `WithStorageNotificationReady` at most the status
conditions and `Status.NotificationID`; every other condition-marking option
at most the status conditions. Every other field of the resource is left
unchanged. -/
theorem options_change_only_their_fields (apiVersion : GroupVersionKind → String) (now : Int)
    (s : Storage) :
    (∀ f : FieldOption, changedFields s (f.apply apiVersion s) ⊆ [f.field]) ∧
      (∀ t, changedFields s (WithStorageTopicReady now t s) ⊆
        ["Status.Status.Conditions", "Status.TopicID"]) ∧
      (∀ n, changedFields s (WithStorageNotificationReady now n s) ⊆
        ["Status.Status.Conditions", "Status.NotificationID"]) ∧
      changedFields s (WithInitStorageConditions now s) ⊆ ["Status.Status.Conditions"] ∧
      changedFields s (WithStoragePullSubscriptionReady now s) ⊆
        ["Status.Status.Conditions"] ∧
      (∀ reason message,
        changedFields s (WithStorageTopicFailed now reason message s) ⊆
            ["Status.Status.Conditions"] ∧
          changedFields s (WithStorageTopicUnknown now reason message s) ⊆
            ["Status.Status.Conditions"] ∧
          changedFields s (WithStoragePullSubscriptionFailed now reason message s) ⊆
            ["Status.Status.Conditions"] ∧
          changedFields s (WithStoragePullSubscriptionUnknown now reason message s) ⊆
            ["Status.Status.Conditions"] ∧
          changedFields s (WithStorageNotificationNotReady now reason message s) ⊆
            ["Status.Status.Conditions"]) := by
  refine ⟨?_, ?_, ?_, ?_, ?_, ?_⟩
  · intro f
    cases f <;>
      simp only [FieldOption.apply, FieldOption.field, WithStorageBucket, WithStorageProject,
        WithStorageEventTypes, WithStorageSink, WithStorageTopicID, WithStorageSinkURI,
        WithStorageNotificationID, WithStorageProjectID, WithStorageFinalizers,
        WithStorageStatusObservedGeneration, WithStorageObjectMetaGeneration,
        WithDeletionTimestamp, changedFields, diff_self, List.nil_append, List.append_nil] <;>
      exact diff_subset _ _ _ _ (by simp)
  · intro t
    exact changedFields_status s _ _ (og_markTrue _ _ _ _) (by simp) rfl (Or.inl rfl)
      (Or.inr (by simp)) rfl
  · intro n
    exact changedFields_status s _ _ (og_markTrue _ _ _ _) (by simp) rfl (Or.inr (by simp))
      (Or.inl rfl) rfl
  · exact changedFields_status s _ _ (og_init _ _ _) (by simp) rfl (Or.inl rfl) (Or.inl rfl) rfl
  · exact changedFields_status s _ _ (og_markTrue _ _ _ _) (by simp) rfl (Or.inl rfl)
      (Or.inl rfl) rfl
  · intro reason message
    refine ⟨?_, ?_, ?_, ?_, ?_⟩
    · exact changedFields_status s _ _ (og_markFalse _ _ _ _ _ _) (by simp) rfl (Or.inl rfl)
        (Or.inl rfl) rfl
    · exact changedFields_status s _ _ (og_markUnknown _ _ _ _ _ _) (by simp) rfl (Or.inl rfl)
        (Or.inl rfl) rfl
    · exact changedFields_status s _ _ (og_markFalse _ _ _ _ _ _) (by simp) rfl (Or.inl rfl)
        (Or.inl rfl) rfl
    · exact changedFields_status s _ _ (og_markUnknown _ _ _ _ _ _) (by simp) rfl (Or.inl rfl)
        (Or.inl rfl) rfl
    · exact changedFields_status s _ _ (og_markFalse _ _ _ _ _ _) (by simp) rfl (Or.inl rfl)
        (Or.inl rfl) rfl

/-! ## Fake client -/

/-- The filter loop of `FakeStorages.List`: list metadata is kept and the
matching items are appended in order. -/
theorem listLoop_spec (p : Storage → Bool) :
    ∀ (items : List Storage) (init : StorageList),
      ((items.foldl (fun (list : StorageList) item =>
          if p item then { list with Items := goAppend list.Items item } else list)
        init).ListMeta = init.ListMeta) ∧
      ((items.foldl (fun (list : StorageList) item =>
          if p item then { list with Items := goAppend list.Items item } else list)
        init).Items.getD [] = init.Items.getD [] ++ items.filter p) := by
  intro items
  induction items with
  | nil => intro init; simp
  | cons x xs ih =>
    intro init
    simp only [List.foldl_cons]
    by_cases hx : p x = true
    · obtain ⟨h1, h2⟩ := ih { init with Items := goAppend init.Items x }
      simp only [hx, if_true]
      refine ⟨h1, ?_⟩
      rw [h2]
      simp [goAppend, List.filter_cons, hx]
    · obtain ⟨h1, h2⟩ := ih init
      simp only [hx, Bool.false_eq_true, if_false]
      refine ⟨h1, ?_⟩
      rw [h2]
      simp [List.filter_cons, hx]

/-- On options the library accepts, `List` is one invocation of the list
action followed by the tail `asStorageList`. -/
theorem list_accepted {σ : Type} (extract : ListOptions → Option (Option Selector))
    (c : FakeStorages σ) (opts : ListOptions) (osel : Option Selector)
    (hopts : extract opts = some osel) :
    c.List extract opts =
      ({ c with
          Fake := (c.Fake.Invokes (Action.list storagesResource storagesKind c.ns opts)
            (Object.storageList StorageList.zero)).1 },
        asStorageList extract opts
          (c.Fake.Invokes (Action.list storagesResource storagesKind c.ns opts)
            (Object.storageList StorageList.zero)).2.1
          (c.Fake.Invokes (Action.list storagesResource storagesKind c.ns opts)
            (Object.storageList StorageList.zero)).2.2) := by
  simp only [FakeStorages.List, NewListAction, hopts]

/-- On options the library cannot parse, `List` panics before the invocation:
the client, its log included, is as it was. -/
theorem list_refused {σ : Type} (extract : ListOptions → Option (Option Selector))
    (c : FakeStorages σ) (opts : ListOptions) (hopts : extract opts = none) :
    c.List extract opts = (c, Outcome.panic) := by
  simp only [FakeStorages.List, NewListAction, hopts]

/-- On options the library accepts, `DeleteCollection` is one invocation of
the delete-collection action. -/
theorem deleteCollection_accepted {σ : Type}
    (extract : ListOptions → Option (Option Selector)) (c : FakeStorages σ)
    (dopts : Option DeleteOptions) (opts : ListOptions) (osel : Option Selector)
    (hopts : extract opts = some osel) :
    c.DeleteCollection extract dopts opts =
      ({ c with
          Fake := (c.Fake.Invokes (Action.deleteCollection storagesResource c.ns opts)
            (Object.storageList StorageList.zero)).1 },
        ErrOutcome.ret
          (c.Fake.Invokes (Action.deleteCollection storagesResource c.ns opts)
            (Object.storageList StorageList.zero)).2.2) := by
  simp only [FakeStorages.DeleteCollection, NewDeleteCollectionAction, hopts]

/-- On options the library cannot parse, `DeleteCollection` panics before the
invocation. -/
theorem deleteCollection_refused {σ : Type}
    (extract : ListOptions → Option (Option Selector)) (c : FakeStorages σ)
    (dopts : Option DeleteOptions) (opts : ListOptions) (hopts : extract opts = none) :
    c.DeleteCollection extract dopts opts = (c, ErrOutcome.panic) := by
  simp only [FakeStorages.DeleteCollection, NewDeleteCollectionAction, hopts]

/-- The selector that `List` filters with: `Everything` for a nil selector. -/
theorem selector_getD (osel : Option Selector) :
    (match osel with
      | none => Everything
      | some s => s) = osel.getD Everything := by
  cases osel <;> rfl

/-- The model of `path.Join` on some arguments: empty elements and repeated
slashes are dropped, `.` and `..` are resolved. -/
theorem pathJoin_examples :
    pathJoin ["status"] = "status" ∧ pathJoin [] = "" ∧ pathJoin ["", ""] = "" ∧
      pathJoin ["status", "", "scale"] = "status/scale" ∧
      pathJoin ["", "status"] = "status" ∧ pathJoin ["a/", "/b"] = "a/b" ∧
      pathJoin ["a", "..", "b"] = "b" ∧ pathJoin ["..", "a"] = "../a" ∧
      pathJoin ["/..", "a"] = "/a" ∧ pathJoin ["."] = "." ∧ pathJoin ["a", ".."] = "." ∧
      pathJoin ["/"] = "/" := by
  decide

/-- C3, as stated, fails on list options the library cannot parse. The
tracker of `sampleListClient` answers the list action with the two items of
`sampleStorageList`; `List` with the label selector `!!`, and `List` with no
label selector and the field selector `!!`, panics in `NewListAction`: no list
is returned and nothing is invoked. -/
theorem fakeStorages_list_panics_on_unparsable :
    (sampleListClient.Fake.Invokes
        (Action.list storagesResource storagesKind sampleListClient.ns (labelOptions "!!"))
        (Object.storageList StorageList.zero)).2 =
        (some (Object.storageList sampleStorageList), none) ∧
      (sampleListClient.List sampleExtract (labelOptions "!!")).2 = Outcome.panic ∧
      (sampleListClient.List sampleExtract (labelOptions "!!")).1.Fake.actions = [] ∧
      (sampleListClient.List sampleExtract
        { LabelSelector := "", FieldSelector := "!!", ResourceVersion := "" }).2 =
        Outcome.panic := by
  refine ⟨rfl, ?_, ?_, ?_⟩ <;> decide

/-- C3, amended: on list options the library accepts (`extract opts` is not
its panic), when the tracker answers the list action with a list `l` and an
error `err`, `FakeStorages.List` returns `err` and a list that carries the
`ListMeta` of `l` and holds exactly the items of `l` whose label set satisfies
the selector of the options (`Everything` when the options give none), in
their original order: all items of `l` when no selector is given or the
selector matches everything, no other item and none missing otherwise. On
list options the library cannot parse, `List` panics and invokes nothing. -/
theorem fakeStorages_list_filters {σ : Type} (extract : ListOptions → Option (Option Selector))
    (c : FakeStorages σ) (opts : ListOptions) (osel : Option Selector) (l : StorageList)
    (err : Option Error) (hopts : extract opts = some osel)
    (htracker : (c.Fake.Invokes (Action.list storagesResource storagesKind c.ns opts)
      (Object.storageList StorageList.zero)).2 = (some (Object.storageList l), err)) :
    (∃ list, (c.List extract opts).2 = Outcome.ret (some list) err ∧
      list.ListMeta = l.ListMeta ∧
      list.Items.getD [] = (l.Items.getD []).filter (fun item =>
        (osel.getD Everything).Matches (item.ObjectMeta.Labels.getD [])) ∧
      (osel = none → list.Items.getD [] = l.Items.getD []) ∧
      ((∀ ls, (osel.getD Everything).Matches ls = true) →
        list.Items.getD [] = l.Items.getD []) ∧
      (∀ item, item ∈ list.Items.getD [] ↔
        (item ∈ l.Items.getD [] ∧
          (osel.getD Everything).Matches (item.ObjectMeta.Labels.getD []) = true)) ∧
      (list.Items.getD []).Sublist (l.Items.getD [])) ∧
    (∀ refused, extract refused = none → c.List extract refused = (c, Outcome.panic)) := by
  obtain ⟨h1, h2⟩ := listLoop_spec
    (fun item => (osel.getD Everything).Matches (item.ObjectMeta.Labels.getD []))
    (l.Items.getD []) { StorageList.zero with ListMeta := l.ListMeta }
  have h3 : ((l.Items.getD []).foldl (fun (list : StorageList) item =>
      if (osel.getD Everything).Matches (item.ObjectMeta.Labels.getD []) then
        { list with Items := goAppend list.Items item }
      else list) { StorageList.zero with ListMeta := l.ListMeta }).Items.getD [] =
      (l.Items.getD []).filter (fun item =>
        (osel.getD Everything).Matches (item.ObjectMeta.Labels.getD [])) := by
    rw [h2]
    simp [StorageList.zero]
  refine ⟨⟨_, ?_, h1, h3, ?_, ?_, ?_, ?_⟩, fun refused h => list_refused extract c refused h⟩
  · rw [list_accepted extract c opts osel hopts, htracker]
    simp only [asStorageList, filterList, hopts, selector_getD]
  · intro hnone
    rw [h3, hnone]
    simp [Everything]
  · intro hall
    rw [h3]
    simp [hall]
  · intro item
    rw [h3]
    simp [List.mem_filter]
  · rw [h3]
    exact List.filter_sublist _

theorem fakeStorages_list_filters_witness :
    (sampleExtract (labelOptions "app=a")).isSome = true ∧
      (∃ list,
        (sampleListClient.List sampleExtract (labelOptions "app=a")).2 =
          Outcome.ret (some list) none ∧
        list.ListMeta = sampleStorageList.ListMeta ∧
        list.Items.getD [] = [sampleStorage "one" "a"]) ∧
      (sampleExtract (labelOptions "")).isSome = true ∧
      (∃ list,
        (sampleListClient.List sampleExtract (labelOptions "")).2 =
          Outcome.ret (some list) none ∧
        list.ListMeta = sampleStorageList.ListMeta ∧
        list.Items.getD [] = [sampleStorage "one" "a", sampleStorage "two" "b"]) := by
  obtain ⟨⟨list, h1, h2, h3, _⟩, _⟩ := fakeStorages_list_filters sampleExtract sampleListClient
    (labelOptions "app=a") _ sampleStorageList none rfl rfl
  obtain ⟨⟨all, a1, a2, _, _, a5, _⟩, _⟩ := fakeStorages_list_filters sampleExtract
    sampleListClient (labelOptions "") _ sampleStorageList none rfl rfl
  exact ⟨rfl, ⟨list, h1, h2, by rw [h3]; decide⟩, rfl,
    ⟨all, a1, a2, by rw [a5 (fun _ => rfl)]; rfl⟩⟩

/-- C4, as stated, fails for `List` and on list options the library cannot
parse. The tracker returns the two-item list `sampleStorageList` and no
error, the options select `app=a`, and `List` hands back another list (one
item), not the tracker's object. With the label selector `!!`, `List` and
`DeleteCollection` panic and the invocation log stays empty: no invocation is
performed. -/
theorem fakeStorages_list_not_tracker_object :
    (sampleListClient.Fake.Invokes
        (Action.list storagesResource storagesKind sampleListClient.ns (labelOptions "app=a"))
        (Object.storageList StorageList.zero)).2 =
        (some (Object.storageList sampleStorageList), none) ∧
      (sampleListClient.List sampleExtract (labelOptions "app=a")).2 ≠
        Outcome.ret (some sampleStorageList) none ∧
      (sampleListClient.List sampleExtract (labelOptions "!!")).2 = Outcome.panic ∧
      (sampleListClient.List sampleExtract (labelOptions "!!")).1.Fake.actions = [] ∧
      (sampleListClient.DeleteCollection sampleExtract none (labelOptions "!!")).2 =
        ErrOutcome.panic ∧
      (sampleListClient.DeleteCollection sampleExtract none
        (labelOptions "!!")).1.Fake.actions = [] := by
  refine ⟨rfl, ?_, ?_, ?_, ?_, ?_⟩ <;> decide

theorem invokes_actions {σ : Type} (f : Fake σ) (a : Action) (d : Object) :
    (f.Invokes a d).1.actions = f.actions ++ [a] := by
  unfold Fake.Invokes
  rfl

/-- C4, amended: each of `Get`, `Create`, `Update`, `UpdateStatus`, `Delete`
and `Patch`, and each of `List` and `DeleteCollection` on list options the
library accepts, performs exactly one tracker invocation, with an action of
its own verb on resource `storages` (group `events.cloud.google.com`, version
`v1alpha1`) in the namespace of the client (`UpdateStatus` as an update of
subresource `status`, `Patch` on the subresource `path.Join` of its
arguments), and returns the error of the tracker unchanged. With no object
from the tracker the object-returning operations return `(nil, e)`; with a
`Storage` `o`, `Get`, `Create`, `Update`, `UpdateStatus` and `Patch` return
`(o, e)`; with a `StorageList` `l`, `List` returns `(filterList l, e)`, the
label-filtered list built from `l`; `Delete` and `DeleteCollection` return
exactly `e`. On list options the library cannot parse, `List` and
`DeleteCollection` panic before the invocation: the client and its log are as
they were. -/
theorem fakeStorages_invoke_once {σ : Type} (extract : ListOptions → Option (Option Selector))
    (c : FakeStorages σ) (name pt : String) (data : Bytes) (subresources : Strings)
    (storage : Option Storage) (gopts : GetOptions) (dopts : Option DeleteOptions)
    (lopts : ListOptions) :
    (InvokesOnce c (Action.get storagesResource c.ns name) (Object.storage Storage.zero)
        "get" "" (c.Get name gopts).1 ∧
      (c.Get name gopts).2 =
        asStorage
          (c.Fake.Invokes (Action.get storagesResource c.ns name)
            (Object.storage Storage.zero)).2.1
          (c.Fake.Invokes (Action.get storagesResource c.ns name)
            (Object.storage Storage.zero)).2.2) ∧
    (∀ osel, extract lopts = some osel →
      InvokesOnce c (Action.list storagesResource storagesKind c.ns lopts)
          (Object.storageList StorageList.zero) "list" "" (c.List extract lopts).1 ∧
        (c.List extract lopts).2 =
          asStorageList extract lopts
            (c.Fake.Invokes (Action.list storagesResource storagesKind c.ns lopts)
              (Object.storageList StorageList.zero)).2.1
            (c.Fake.Invokes (Action.list storagesResource storagesKind c.ns lopts)
              (Object.storageList StorageList.zero)).2.2) ∧
    (InvokesOnce c (Action.create storagesResource c.ns storage) (Object.storage Storage.zero)
        "create" "" (c.Create storage).1 ∧
      (c.Create storage).2 =
        asStorage
          (c.Fake.Invokes (Action.create storagesResource c.ns storage)
            (Object.storage Storage.zero)).2.1
          (c.Fake.Invokes (Action.create storagesResource c.ns storage)
            (Object.storage Storage.zero)).2.2) ∧
    (InvokesOnce c (Action.update storagesResource c.ns storage) (Object.storage Storage.zero)
        "update" "" (c.Update storage).1 ∧
      (c.Update storage).2 =
        asStorage
          (c.Fake.Invokes (Action.update storagesResource c.ns storage)
            (Object.storage Storage.zero)).2.1
          (c.Fake.Invokes (Action.update storagesResource c.ns storage)
            (Object.storage Storage.zero)).2.2) ∧
    (InvokesOnce c (Action.updateSubresource storagesResource "status" c.ns storage)
        (Object.storage Storage.zero) "update" "status" (c.UpdateStatus storage).1 ∧
      (c.UpdateStatus storage).2 =
        asStorage
          (c.Fake.Invokes (Action.updateSubresource storagesResource "status" c.ns storage)
            (Object.storage Storage.zero)).2.1
          (c.Fake.Invokes (Action.updateSubresource storagesResource "status" c.ns storage)
            (Object.storage Storage.zero)).2.2) ∧
    (InvokesOnce c (Action.delete storagesResource c.ns name) (Object.storage Storage.zero)
        "delete" "" (c.Delete name dopts).1 ∧
      (c.Delete name dopts).2 =
        (c.Fake.Invokes (Action.delete storagesResource c.ns name)
          (Object.storage Storage.zero)).2.2) ∧
    (∀ osel, extract lopts = some osel →
      InvokesOnce c (Action.deleteCollection storagesResource c.ns lopts)
          (Object.storageList StorageList.zero) "delete-collection" ""
          (c.DeleteCollection extract dopts lopts).1 ∧
        (c.DeleteCollection extract dopts lopts).2 =
          ErrOutcome.ret
            (c.Fake.Invokes (Action.deleteCollection storagesResource c.ns lopts)
              (Object.storageList StorageList.zero)).2.2) ∧
    (InvokesOnce c (Action.patchSubresource storagesResource c.ns name pt data subresources)
        (Object.storage Storage.zero) "patch" (pathJoin subresources)
        (c.Patch name pt data subresources).1 ∧
      (c.Patch name pt data subresources).2 =
        asStorage
          (c.Fake.Invokes
            (Action.patchSubresource storagesResource c.ns name pt data subresources)
            (Object.storage Storage.zero)).2.1
          (c.Fake.Invokes
            (Action.patchSubresource storagesResource c.ns name pt data subresources)
            (Object.storage Storage.zero)).2.2) ∧
    (extract lopts = none →
      c.List extract lopts = (c, Outcome.panic) ∧
        c.DeleteCollection extract dopts lopts = (c, ErrOutcome.panic)) ∧
    (∀ e, asStorage none e = Outcome.ret none e) ∧
    (∀ o e, asStorage (some (Object.storage o)) e = Outcome.ret (some o) e) ∧
    (∀ e, asStorageList extract lopts none e = Outcome.ret none e) ∧
    (∀ osel, extract lopts = some osel →
      ∀ l e, asStorageList extract lopts (some (Object.storageList l)) e =
        Outcome.ret (some (filterList (osel.getD Everything) l)) e) := by
  refine ⟨⟨⟨rfl, rfl, rfl, rfl, rfl, rfl, invokes_actions _ _ _⟩, rfl⟩,
    ?_,
    ⟨⟨rfl, rfl, rfl, rfl, rfl, rfl, invokes_actions _ _ _⟩, rfl⟩,
    ⟨⟨rfl, rfl, rfl, rfl, rfl, rfl, invokes_actions _ _ _⟩, rfl⟩,
    ⟨⟨rfl, rfl, rfl, rfl, rfl, rfl, invokes_actions _ _ _⟩, rfl⟩,
    ⟨⟨rfl, rfl, rfl, rfl, rfl, rfl, invokes_actions _ _ _⟩, rfl⟩,
    ?_,
    ⟨⟨rfl, rfl, rfl, rfl, rfl, rfl, invokes_actions _ _ _⟩, rfl⟩,
    ?_, fun _ => rfl, fun _ _ => rfl, fun _ => rfl, ?_⟩
  · intro osel hopts
    rw [list_accepted extract c lopts osel hopts]
    exact ⟨⟨rfl, rfl, rfl, rfl, rfl, rfl, invokes_actions _ _ _⟩, rfl⟩
  · intro osel hopts
    rw [deleteCollection_accepted extract c dopts lopts osel hopts]
    exact ⟨⟨rfl, rfl, rfl, rfl, rfl, rfl, invokes_actions _ _ _⟩, rfl⟩
  · intro hopts
    exact ⟨list_refused extract c lopts hopts, deleteCollection_refused extract c dopts lopts hopts⟩
  · intro osel hopts l e
    simp only [asStorageList, hopts, selector_getD]

theorem fakeStorages_invoke_once_witness :
    (sampleExtract (labelOptions "app=a")).isSome = true ∧
      (sampleListClient.List sampleExtract (labelOptions "app=a")).1.Fake.actions =
        [Action.list storagesResource storagesKind "ns" (labelOptions "app=a")] ∧
      (sampleListClient.DeleteCollection sampleExtract none
        (labelOptions "app=a")).1.Fake.actions =
        [Action.deleteCollection storagesResource "ns" (labelOptions "app=a")] ∧
      sampleExtract (labelOptions "!!") = none ∧
      sampleListClient.List sampleExtract (labelOptions "!!") =
        (sampleListClient, Outcome.panic) := by
  obtain ⟨_, hlist, _, _, _, _, hdc, _, hpanic, _⟩ :=
    fakeStorages_invoke_once sampleExtract sampleListClient "one" "" [] [] none
      { ResourceVersion := "" } none (labelOptions "app=a")
  obtain ⟨_, _, _, _, _, _, _, _, hrefused, _⟩ :=
    fakeStorages_invoke_once sampleExtract sampleListClient "one" "" [] [] none
      { ResourceVersion := "" } none (labelOptions "!!")
  exact ⟨rfl, (hlist _ rfl).1.2.2.2.2.2.2, (hdc _ rfl).1.2.2.2.2.2.2, rfl, (hrefused rfl).1⟩

/-! ## Fake client over the object tracker -/

theorem invokes_chain {σ : Type} (f : Fake σ) (a : Action) (d : Object) :
    (f.Invokes a d).1.ReactionChain = f.ReactionChain := by
  unfold Fake.Invokes
  rfl

theorem invokes_tracker (f : Fake Tracker) (hf : f.ReactionChain = [ObjectReaction])
    (a : Action) (d : Object) :
    (f.Invokes a d).1.state = (ObjectReaction.React f.state a).1 ∧
      ((ObjectReaction.React f.state a).2.1 = true →
        (f.Invokes a d).2 = (ObjectReaction.React f.state a).2.2) := by
  unfold Fake.Invokes
  rw [hf]
  simp only [runChain, ObjectReaction, Bool.not_true, Bool.false_eq_true, if_false]
  rcases hr : ObjectReaction.React f.state a with ⟨st2, handled, ret, err⟩
  simp only [ObjectReaction] at hr
  rw [hr]
  cases handled <;> simp

theorem eraseP_absent (ns name : String) :
    ∀ (l : List Storage),
      (l.map (fun s => (s.ObjectMeta.Namespace, s.ObjectMeta.Name))).Nodup →
      ∀ s ∈ l.eraseP (sameKey ns name), sameKey ns name s = false := by
  intro l
  induction l with
  | nil => intro _ s hs; cases hs
  | cons x xs ih =>
    intro hn s hs
    simp only [List.map_cons, List.nodup_cons] at hn
    by_cases hx : sameKey ns name x = true
    · rw [List.eraseP_cons_of_pos hx] at hs
      by_contra hne
      have hst : sameKey ns name s = true := by simpa using hne
      simp only [sameKey, Bool.and_eq_true, beq_iff_eq] at hx hst
      apply hn.1
      rw [List.mem_map]
      exact ⟨s, hs, by rw [hx.1, hx.2, hst.1, hst.2]⟩
    · rw [List.eraseP_cons_of_neg hx] at hs
      rcases List.mem_cons.mp hs with rfl | hmem
      · simpa using hx
      · exact ih hn.2 s hmem

theorem react_keeps_absent (ns name : String) (t : Tracker) (a : Action)
    (ha : keepsAbsent name a = true)
    (habs : ∀ s ∈ t.objects, sameKey ns name s = false) :
    ∀ s ∈ (ObjectReaction.React t a).1.objects, sameKey ns name s = false := by
  have hadd : ∀ (obj : Storage) (n : String) (b : Bool),
      (b = false → obj.ObjectMeta.Name ≠ name) →
      ∀ s ∈ (t.add obj n b).1.objects, sameKey ns name s = false := by
    intro obj n b hb s hs
    have hpn : (propagateNamespace obj n).ObjectMeta.Name = obj.ObjectMeta.Name := by
      unfold propagateNamespace
      split <;> rfl
    unfold Tracker.add at hs
    simp only at hs
    generalize propagateNamespace obj n = o at hs hpn
    split at hs
    · exact habs s hs
    · split at hs
      · rename_i hany
        split at hs
        · simp only [List.mem_map] at hs
          obtain ⟨s0, hs0, hs0e⟩ := hs
          split at hs0e
          · rename_i hk
            subst hs0e
            have h0 := habs s0 hs0
            simp only [sameKey, Bool.and_eq_true, beq_iff_eq] at hk
            simp only [sameKey] at h0 ⊢
            rw [← hk.1, ← hk.2]
            exact h0
          · subst hs0e
            exact habs _ hs0
        · exact habs s hs
      · split at hs
        · exact habs s hs
        · rename_i hb2
          simp only [List.mem_append, List.mem_singleton] at hs
          rcases hs with hs | hs
          · exact habs s hs
          · subst hs
            have hname := hb (by simpa using hb2)
            simp only [sameKey, Bool.and_eq_false_imp, beq_iff_eq]
            intro _
            rw [hpn]
            simpa using hname
  have haddGet : ∀ (object : Option Storage) (n : String) (b : Bool),
      (b = false → ∀ obj, object = some obj → obj.ObjectMeta.Name ≠ name) →
      ∀ s ∈ (t.addAndGet object n b).1.objects, sameKey ns name s = false := by
    intro object n b hb s hs
    unfold Tracker.addAndGet at hs
    cases object with
    | none => exact habs s hs
    | some obj =>
      simp only at hs
      have := hadd obj n b (fun h => hb h obj rfl)
      rcases hadd2 : t.add obj n b with ⟨t2, e⟩
      rw [hadd2] at hs this
      cases e with
      | some e => exact this s hs
      | none => exact this s hs
  cases a with
  | list r k n o => exact habs
  | get r n nm => exact habs
  | create r n object =>
    apply haddGet object n false
    intro _ obj hobj
    subst hobj
    simpa [keepsAbsent] using ha
  | update r n object => exact haddGet object n true (fun h => by cases h)
  | updateSubresource r sub n object => exact haddGet object n true (fun h => by cases h)
  | delete r n nm =>
    intro s hs
    simp only [ObjectReaction, Tracker.Delete] at hs
    split at hs
    · exact habs s (List.mem_of_mem_eraseP hs)
    · exact habs s hs
  | deleteCollection r n o => exact habs
  | patchSubresource r n nm pt data subs => exact habs

theorem filterList_items (label : Selector) (l : StorageList) :
    (filterList label l).Items.getD [] =
      (l.Items.getD []).filter (fun item => label.Matches (item.ObjectMeta.Labels.getD [])) := by
  unfold filterList
  simp only
  rw [(listLoop_spec (fun item => label.Matches (item.ObjectMeta.Labels.getD []))
    (l.Items.getD []) { StorageList.zero with ListMeta := l.ListMeta }).2]
  simp [StorageList.zero]

/-- Over the tracker, `List` on options the library accepts answers with
stored objects of the namespace of the client only. -/
theorem list_over_tracker (c : FakeStorages Tracker)
    (hchain : c.Fake.ReactionChain = [ObjectReaction])
    (extract : ListOptions → Option (Option Selector)) (opts : ListOptions)
    (osel : Option Selector) (hopts : extract opts = some osel) :
    ∃ list, (c.List extract opts).2 = Outcome.ret (some list) none ∧
      ∀ item ∈ list.Items.getD [],
        item ∈ c.Fake.state.objects ∧ (c.ns ≠ "" → item.ObjectMeta.Namespace = c.ns) := by
  obtain ⟨_, hres⟩ := invokes_tracker c.Fake hchain
    (Action.list storagesResource storagesKind c.ns opts) (Object.storageList StorageList.zero)
  have hres2 := hres rfl
  refine ⟨filterList (osel.getD Everything) (c.Fake.state.List c.ns), ?_, ?_⟩
  · rw [list_accepted extract c opts osel hopts, hres2]
    simp only [ObjectReaction, asStorageList, hopts, selector_getD]
  · intro item hitem
    rw [filterList_items] at hitem
    simp only [Tracker.List, StorageList.zero, Option.getD_some, List.mem_filter,
      Bool.or_eq_true, beq_iff_eq] at hitem
    refine ⟨hitem.1.1, fun hns => ?_⟩
    rcases hitem.1.2 with h | h
    · exact absurd h hns
    · exact h

theorem later_absent (name : String) (c c2 : FakeStorages Tracker) (hl : Later name c c2)
    (hchain : c.Fake.ReactionChain = [ObjectReaction])
    (habs : ∀ s ∈ c.Fake.state.objects, sameKey c.ns name s = false) :
    c2.ns = c.ns ∧ c2.Fake.ReactionChain = [ObjectReaction] ∧
      ∀ s ∈ c2.Fake.state.objects, sameKey c.ns name s = false := by
  induction hl with
  | now => exact ⟨rfl, hchain, habs⟩
  | step c1 a d _ ha ih =>
    obtain ⟨h1, h2, h3⟩ := ih
    refine ⟨h1, ?_, ?_⟩
    · rw [← h2]
      exact invokes_chain _ _ _
    · intro s hs
      rw [(invokes_tracker c1.Fake h2 a d).1] at hs
      exact react_keeps_absent c.ns name _ a ha h3 s hs

/-- C10, as stated, fails in three ways. For the client without a namespace
`sampleNoNamespaceClient`, whose tracker stores a `one` without a namespace and
a `one` in namespace `ns`, `Delete` of `one` succeeds and the following `List`
still holds an item named `one`. For `sampleTrackerClient`, after the
successful `Delete` of `one`, `List` with the label selector `!!` panics and
returns no list; and after `one` is created again, `List` holds an item named
`one`. -/
theorem fake_delete_keeps_other_namespace :
    (OverTracker sampleNoNamespaceClient ∧
      (sampleNoNamespaceClient.Delete "one" none).2 = none ∧
      ((sampleNoNamespaceClient.Delete "one" none).1.List sampleExtract (labelOptions "")).2 =
        Outcome.ret
          (some { StorageList.zero with Items := some [sampleStorage "one" "a"] }) none ∧
      (sampleStorage "one" "a").ObjectMeta.Name = "one") ∧
    ((sampleTrackerClient.Delete "one" none).2 = none ∧
      ((sampleTrackerClient.Delete "one" none).1.List sampleExtract (labelOptions "!!")).2 =
        Outcome.panic) ∧
    (((sampleTrackerClient.Delete "one" none).1.Create (some (sampleStorage "one" "a"))).2 =
        Outcome.ret (some (sampleStorage "one" "a")) none ∧
      (((sampleTrackerClient.Delete "one" none).1.Create
          (some (sampleStorage "one" "a"))).1.List sampleExtract (labelOptions "")).2 =
        Outcome.ret
          (some { StorageList.zero with
            Items := some [sampleStorage "two" "b", sampleStorage "one" "a"] }) none) := by
  refine ⟨⟨⟨rfl, ?_⟩, ?_, ?_, rfl⟩, ⟨?_, ?_⟩, ⟨?_, ?_⟩⟩ <;> decide

/-- C10, amended: for the fake Storage client over its in-memory tracker,
`Delete` of a name that is not stored in the namespace of the client returns
an error; and once `Delete` of a name has succeeded, every subsequent `List`
on options the library accepts (with any selector it can parse), after any
further invocations that do not create that name again, returns a list with
no item of that namespace and name (for a client with a namespace: no item of
that name at all). -/
theorem fake_delete_then_list (c : FakeStorages Tracker) (hc : OverTracker c) (name : String)
    (dopts : Option DeleteOptions) :
    ((∀ s ∈ c.Fake.state.objects, sameKey c.ns name s = false) →
        (c.Delete name dopts).2 = some (notFound name)) ∧
      ((c.Delete name dopts).2 = none →
        ∀ c2, Later name (c.Delete name dopts).1 c2 →
          ∀ (extract : ListOptions → Option (Option Selector)) (opts : ListOptions)
            (osel : Option Selector), extract opts = some osel →
            ∃ list, (c2.List extract opts).2 = Outcome.ret (some list) none ∧
              (∀ item ∈ list.Items.getD [], sameKey c.ns name item = false) ∧
              (c.ns ≠ "" → ∀ item ∈ list.Items.getD [], item.ObjectMeta.Name ≠ name)) := by
  obtain ⟨hchain, hnodup⟩ := hc
  obtain ⟨hstate, hres⟩ := invokes_tracker c.Fake hchain
    (Action.delete storagesResource c.ns name) (Object.storage Storage.zero)
  have hres2 := hres rfl
  have hdel : (c.Delete name dopts).2 = (c.Fake.state.Delete c.ns name).2 := by
    unfold FakeStorages.Delete
    rcases hinv : c.Fake.Invokes (Action.delete storagesResource c.ns name)
      (Object.storage Storage.zero) with ⟨fake, obj, e⟩
    rw [hinv] at hres2
    simp only [ObjectReaction, Prod.mk.injEq] at hres2
    exact hres2.2
  have hst : (c.Delete name dopts).1.Fake.state = (c.Fake.state.Delete c.ns name).1 := by
    unfold FakeStorages.Delete
    rcases hinv : c.Fake.Invokes (Action.delete storagesResource c.ns name)
      (Object.storage Storage.zero) with ⟨fake, obj, e⟩
    rw [hinv] at hstate
    simpa [ObjectReaction] using hstate
  have hns : (c.Delete name dopts).1.ns = c.ns := by
    unfold FakeStorages.Delete
    rfl
  have hch : (c.Delete name dopts).1.Fake.ReactionChain = [ObjectReaction] := by
    rw [← hchain]
    unfold FakeStorages.Delete
    exact invokes_chain _ _ _
  constructor
  · intro habs
    rw [hdel]
    unfold Tracker.Delete
    have hany : c.Fake.state.objects.any (sameKey c.ns name) = false := by
      rw [List.any_eq_false]
      intro s hs
      simp [habs s hs]
    simp [hany]
  · intro hok c2 hl extract opts osel hopts
    have habs : ∀ s ∈ (c.Delete name dopts).1.Fake.state.objects,
        sameKey (c.Delete name dopts).1.ns name s = false := by
      rw [hst, hns]
      rw [hdel] at hok
      unfold Tracker.Delete at hok ⊢
      split at hok
      · rename_i hany
        simp only [hany, if_true]
        exact eraseP_absent c.ns name _ hnodup
      · cases hok
    obtain ⟨h1, h2, h3⟩ := later_absent name _ c2 hl hch habs
    rw [hns] at h1 h3
    obtain ⟨list, hlist, hitems⟩ := list_over_tracker c2 h2 extract opts osel hopts
    refine ⟨list, hlist, fun item hi => h3 item (hitems item hi).1, ?_⟩
    intro hne item hi habsurd
    have hkey := h3 item (hitems item hi).1
    have hnsi := (hitems item hi).2 (by rw [h1]; exact hne)
    rw [h1] at hnsi
    simp [sameKey, hnsi, habsurd] at hkey

theorem fake_delete_then_list_witness :
    OverTracker sampleTrackerClient ∧
      (sampleTrackerClient.Delete "three" none).2 = some (notFound "three") ∧
      (sampleTrackerClient.Delete "one" none).2 = none ∧
      ∃ list,
        ((sampleTrackerClient.Delete "one" none).1.List sampleExtract (labelOptions "")).2 =
          Outcome.ret (some list) none ∧
        ∀ item ∈ list.Items.getD [], item.ObjectMeta.Name ≠ "one" := by
  have hc : OverTracker sampleTrackerClient := ⟨rfl, by decide⟩
  refine ⟨hc, (fake_delete_then_list sampleTrackerClient hc "three" none).1 (by decide),
    by decide, ?_⟩
  obtain ⟨list, h1, _, h3⟩ := (fake_delete_then_list sampleTrackerClient hc "one" none).2
    (by decide) _ (Later.now) sampleExtract (labelOptions "") _ rfl
  exact ⟨list, h1, h3 (by decide)⟩

/-! ## Deep copy: totality -/

theorem copySpec_returns {T V : Type} {F : Nat → Nat → Heap → T → Option V} {h : Heap} {v : V}
    {r : Option (Heap × T)} (hs : CopySpec F h v r) : ∃ h2 y, r = some (h2, y) := by
  obtain ⟨h2, y, hr, _⟩ := hs
  exact ⟨h2, y, hr⟩

/-- In the model a fault is a result `none`: with a dangling reference (here
the references of `sampleGCS` in the empty heap) the copy does fault, so a
returned copy is a statement about the run. -/
theorem deepCopy_faults_on_dangling :
    GCS.DeepCopy [] (some sampleGCS) = none ∧
      GCSList.DeepCopy [] (some sampleList) = none := by
  constructor <;> rfl

/-- C11: the deep-copy operations are total. For every well-formed `GCS`,
`GCSList`, `GCSSpec` and `GCSStatus` value (nil or empty `EventTypes`,
`CustomAttributes`, `Items` and a nil `GcpCredsSecret` included: the zero
`GCS` and a list with nil `Items` are copied in every heap), `DeepCopy` and
`DeepCopyObject` return a non-nil copy, never the fault `none` (no nil
dereference, no index out of range); on a nil receiver `DeepCopy` and
`DeepCopyObject` return nil and leave the heap as it is. -/
theorem deepCopy_total (h : Heap) (g : GCS) (gv : GCSVal) (l : GCSList) (lv : GCSListVal)
    (s : GCSSpec) (sv : GCSSpecVal) (st : GCSStatus) (stv : GCSStatusVal)
    (hg : GCS.val h g = some gv) (hl : GCSList.val h l = some lv)
    (hs : GCSSpec.val h s = some sv) (hst : GCSStatus.val h st = some stv) :
    (∃ h2 c, GCS.DeepCopy h (some g) = some (h2, some c)) ∧
      (∃ h2 c, GCS.DeepCopyObject h (some g) = some (h2, some c)) ∧
      (∃ h2 c, GCSList.DeepCopy h (some l) = some (h2, some c)) ∧
      (∃ h2 c, GCSList.DeepCopyObject h (some l) = some (h2, some c)) ∧
      (∃ h2 c, GCSSpec.DeepCopy h (some s) = some (h2, some c)) ∧
      (∃ h2 c, GCSStatus.DeepCopy h (some st) = some (h2, some c)) ∧
      GCS.DeepCopy h (some GCS.zero) = some (h, some GCS.zero) ∧
      GCSList.DeepCopy h (some { l with Items := none }) =
        some (h, some { l with Items := none }) ∧
      GCS.DeepCopy h none = some (h, none) ∧
      GCS.DeepCopyObject h none = some (h, none) ∧
      GCSList.DeepCopy h none = some (h, none) ∧
      GCSList.DeepCopyObject h none = some (h, none) ∧
      GCSSpec.DeepCopy h none = some (h, none) ∧
      GCSStatus.DeepCopy h none = some (h, none) := by
  obtain ⟨g2, gc, hgc⟩ := copySpec_returns (gcsCopy_spec h g gv hg)
  obtain ⟨l2, lc, hlc⟩ := copySpec_returns (gcsListCopy_spec h l lv hl)
  obtain ⟨s2, sc, hsc⟩ := copySpec_returns (gcsSpecCopy_spec h s sv hs)
  obtain ⟨t2, tc, htc⟩ := copySpec_returns (gcsStatusCopy_spec h st stv hst)
  refine ⟨⟨g2, gc, ?_⟩, ⟨g2, gc, ?_⟩, ⟨l2, lc, ?_⟩, ⟨l2, lc, ?_⟩, ⟨s2, sc, ?_⟩, ⟨t2, tc, ?_⟩,
    rfl, rfl, rfl, rfl, rfl, rfl, rfl, rfl⟩
  · simp [GCS.DeepCopy, hgc]
  · simp [GCS.DeepCopyObject, GCS.DeepCopy, hgc]
  · simp [GCSList.DeepCopy, hlc]
  · simp [GCSList.DeepCopyObject, GCSList.DeepCopy, hlc]
  · simp [GCSSpec.DeepCopy, hsc]
  · simp [GCSStatus.DeepCopy, htc]

theorem deepCopy_total_witness :
    (∃ h2 c, GCS.DeepCopy emptiesHeap (some emptiesGCS) = some (h2, some c)) ∧
      (∃ h2 c, GCSList.DeepCopy emptiesHeap (some emptiesList) = some (h2, some c)) ∧
      (∃ h2 c, GCSSpec.DeepCopy emptiesHeap (some emptiesGCS.Spec) = some (h2, some c)) ∧
      (∃ h2 c, GCSStatus.DeepCopy emptiesHeap (some emptiesGCS.Status) = some (h2, some c)) ∧
      GCS.DeepCopyObject emptiesHeap none = some (emptiesHeap, none) :=
  have t := deepCopy_total emptiesHeap emptiesGCS _ emptiesList _ emptiesGCS.Spec _
    emptiesGCS.Status _ rfl rfl rfl rfl
  ⟨t.1, t.2.2.1, t.2.2.2.2.1, t.2.2.2.2.2.1, t.2.2.2.2.2.2.2.2.2.1⟩

end KnativeGcp
